import Mathlib

/-!
VRAM synchronisation model of the VDP (`src/video/VDPVRAM.hh`).

Shallow embedding of `VRAMWindow` and `VDPVRAM`.

Conventions of the embedding:

* a C++ `int` or `unsigned` is represented by its 32-bit pattern, a natural
  number below `2 ^ 32`; the `int` value `-1` is `0xFFFFFFFF`, `~x` is `not32 x`
  and unsigned subtraction wraps modulo `2 ^ 32`;
* `EmuTime` is a natural number;
* the VRAM byte array is a total function from index to byte;
* an `assert` that fails aborts the call: the call yields `none`;
* calls that leave the object (observer hooks, the command engine's `sync`)
  are appended to a log, oldest first.
-/

namespace openmsx

/-- The 32-bit pattern of the `int` value `-1`, the "window disabled" sentinel. -/
def minusOne : Nat := 0xFFFFFFFF

/-- Bitwise complement `~x` of a 32-bit pattern. -/
def not32 (x : Nat) : Nat := 2 ^ 32 - (x % 2 ^ 32 + 1)

/-- Unsigned 32-bit subtraction `a - b`. -/
def sub32 (a b : Nat) : Nat := (a + (2 ^ 32 - b % 2 ^ 32)) % 2 ^ 32

/-- The nine window objects owned by a `VDPVRAM`. -/
inductive WindowId where
  | cmdReadWindow
  | cmdWriteWindow
  | nameTable
  | colourTable
  | patternTable
  | bitmapVisibleWindow
  | bitmapCacheWindow
  | spriteAttribTable
  | spritePatternTable
  deriving DecidableEq, Repr

/-- State of a `VRAMWindow` object. `self` is the identity of the object;
`observer` is the attached observer (`none` for `NULL`). The shared `data`
pointer is passed to the operations that read it. -/
structure VRAMWindow where
  self : WindowId
  baseMask : Nat
  indexMask : Nat
  baseAddr : Nat
  combiMask : Nat
  observer : Option Nat
  sizeMask : Nat
  deriving DecidableEq, Repr

/-- Calls leaving the VRAM objects.
* `updateVRAM window observer offset time seen`: `observer->updateVRAM(offset, time)`
  issued by `window`; `seen` is the byte stored at the notified address while
  the hook runs (what the observer reads back through the window).
* `updateWindow observer enabled time held`: `observer->updateWindow(enabled, time)`;
  `held` is the calling window as the hook finds it.
* `cmdSync time`: `cmdEngine->sync(time)`. -/
inductive Event where
  | updateVRAM (window : WindowId) (observer : Nat) (offset : Nat) (time : Nat) (seen : Nat)
  | updateWindow (observer : Nat) (enabled : Bool) (time : Nat) (held : VRAMWindow)
  | cmdSync (time : Nat)
  deriving DecidableEq, Repr

namespace VRAMWindow

/-- `VRAMWindow::isEnabled`. -/
def isEnabled (w : VRAMWindow) : Bool :=
  w.baseAddr != minusOne

/-- `VRAMWindow::setMask`. -/
def setMask (w : VRAMWindow) (newBaseMask newIndexMask time : Nat) (log : List Event) :
    VRAMWindow × List Event :=
  let newBaseMask := newBaseMask &&& w.sizeMask
  if w.isEnabled && newBaseMask == w.baseMask && newIndexMask == w.indexMask then
    (w, log)
  else
    let log1 :=
      match w.observer with
      | some o => log ++ [Event.updateWindow o true time w]
      | none => log
    ({ w with
        baseMask := newBaseMask
        indexMask := newIndexMask
        baseAddr := newBaseMask &&& newIndexMask
        combiMask := not32 newBaseMask ||| newIndexMask }, log1)

/-- `VRAMWindow::disable`. -/
def disable (w : VRAMWindow) (time : Nat) (log : List Event) : VRAMWindow × List Event :=
  let log1 :=
    match w.observer with
    | some o => log ++ [Event.updateWindow o false time w]
    | none => log
  ({ w with baseAddr := minusOne }, log1)

/-- `VRAMWindow::setObserver`. -/
def setObserver (w : VRAMWindow) (observer : Nat) : VRAMWindow :=
  { w with observer := some observer }

/-- `VRAMWindow::resetObserver`. -/
def resetObserver (w : VRAMWindow) : VRAMWindow :=
  { w with observer := none }

/-- `VRAMWindow::isInside`. -/
def isInside (w : VRAMWindow) (address : Nat) : Bool :=
  address &&& w.combiMask == w.baseAddr

/-- `VRAMWindow::notify`. -/
def notify (w : VRAMWindow) (data : Nat → Nat) (address time : Nat) (log : List Event) :
    List Event :=
  match w.observer with
  | some o =>
    if w.isInside address then
      log ++ [Event.updateVRAM w.self o (sub32 address w.baseAddr) time (data address)]
    else log
  | none => log

/-- The hook call `notify(address, time)` makes, as the spec words it: one
`updateVRAM(address - baseAddr, time)` if an observer is attached and the
address is inside, none otherwise. -/
def notifyCalls (w : VRAMWindow) (address time seen : Nat) : List Event :=
  match w.observer with
  | some o =>
    if w.isInside address then
      [Event.updateVRAM w.self o (sub32 address w.baseAddr) time seen]
    else []
  | none => []

/-- The index-to-address mapping of `VRAMWindow::getReadArea`:
the array position `baseMask & (indexMask | index)` the returned pointer
refers to. -/
def readAreaAddr (w : VRAMWindow) (index : Nat) : Nat :=
  w.baseMask &&& (w.indexMask ||| index)

/-- Membership table computed by brute force, as the spec words it: `addr` is
in the table when one of the indices `0, 1, ..., sample - 1` is mapped to it
by the index-to-address mapping of `getReadArea`. -/
def bruteForceInside (w : VRAMWindow) (sample addr : Nat) : Bool :=
  (List.range sample).any (fun index => w.readAreaAddr index == addr)

/-- The derived fields of an enabled window are the ones `setMask` computes
from its masks. -/
def MasksCommitted (w : VRAMWindow) : Prop :=
  w.isEnabled = true →
    w.baseAddr = w.baseMask &&& w.indexMask ∧
    w.combiMask = not32 w.baseMask ||| w.indexMask

end VRAMWindow

/-- The part of the `VDP` the VRAM consults: `VDP::isInsideFrame`. -/
structure VDP where
  isInsideFrame : Nat → Bool

/-- A write the command engine has computed but not yet delivered:
`cmdWrite(address, value, time)` is due at `time`. -/
structure PendingWrite where
  time : Nat
  address : Nat
  value : Nat
  deriving DecidableEq, Repr

/-- Modelled from the spec: `Clock::advance` (Clock.hh is not among the sources).
"The authoritative clock advances to `time` (never backward — violating
monotonicity is a precondition fault)." -/
def Clock.advance (clock time : Nat) : Option Nat :=
  if clock ≤ time then some time else none

/-- State of a `VDPVRAM` object together with its command engine
(the writes it still has to deliver) and the log of outgoing calls. -/
structure VDPVRAM where
  vdp : VDP
  data : Nat → Nat
  clock : Nat
  sizeMask : Nat
  actualSize : Nat
  cmdReadWindow : VRAMWindow
  cmdWriteWindow : VRAMWindow
  nameTable : VRAMWindow
  colourTable : VRAMWindow
  patternTable : VRAMWindow
  bitmapVisibleWindow : VRAMWindow
  bitmapCacheWindow : VRAMWindow
  spriteAttribTable : VRAMWindow
  spritePatternTable : VRAMWindow
  cmdEngine : List PendingWrite
  log : List Event

namespace VDPVRAM

/-- The array store `data[address] = value`. -/
def store (data : Nat → Nat) (address value : Nat) : Nat → Nat :=
  fun i => if i = address then value else data i

/-- `VDPVRAM::writeCommon`. -/
def writeCommon (s : VDPVRAM) (address value time : Nat) : Option VDPVRAM :=
  let log1 := s.bitmapVisibleWindow.notify s.data address time s.log
  let log2 := s.spriteAttribTable.notify s.data address time log1
  let log3 := s.spritePatternTable.notify s.data address time log2
  let data := store s.data address value
  match Clock.advance s.clock time with
  | none => none
  | some clock =>
    let log4 := s.bitmapCacheWindow.notify data address time log3
    let log5 := s.nameTable.notify data address time log4
    let log6 := s.colourTable.notify data address time log5
    let log7 := s.patternTable.notify data address time log6
    some { s with data := data, clock := clock, log := log7 }

/-- `VDPVRAM::cmdWrite`. -/
def cmdWrite (s : VDPVRAM) (address value time : Nat) : Option VDPVRAM :=
  if ¬ s.clock ≤ time then none
  else if ¬ s.vdp.isInsideFrame time = true then none
  else
    let address := address &&& s.sizeMask
    if s.actualSize ≤ address then
      if address < 0x30000 then some s else none
    else if s.data address = value then some s
    else s.writeCommon address value time

/-- The command engine delivering a list of writes, each through `cmdWrite`. -/
def applyWrites (s : VDPVRAM) : List PendingWrite → Option VDPVRAM
  | [] => some s
  | p :: ps =>
    match s.cmdWrite p.address p.value p.time with
    | none => none
    | some s1 => applyWrites s1 ps

/-- Modelled from the spec: `VDPCmdEngine::sync` (VDPCmdEngine.hh is not among
the sources). "`sync(time)` — brings all pending autonomous writes up to
`time`": the pending writes whose time is not after `time` are delivered, in
order, through `cmdWrite`; the others stay pending. -/
def cmdEngineSync (s : VDPVRAM) (time : Nat) : Option VDPVRAM :=
  applyWrites
    { s with
        log := s.log ++ [Event.cmdSync time]
        cmdEngine := s.cmdEngine.filter (fun p => ¬ p.time ≤ time) }
    (s.cmdEngine.filter (fun p => p.time ≤ time))

/-- `VDPVRAM::sync`. -/
def sync (s : VDPVRAM) (time : Nat) : Option VDPVRAM :=
  if ¬ s.vdp.isInsideFrame time = true then none
  else s.cmdEngineSync time

/-- `VDPVRAM::cpuWrite`. -/
def cpuWrite (s : VDPVRAM) (address value time : Nat) : Option VDPVRAM :=
  if ¬ s.clock ≤ time then none
  else if ¬ s.vdp.isInsideFrame time = true then none
  else
    let address := address &&& s.sizeMask
    if s.actualSize ≤ address then
      if address < 0x30000 then some s else none
    else if s.data address = value then some s
    else if s.cmdReadWindow.isInside address || s.cmdWriteWindow.isInside address then
      match s.cmdEngineSync time with
      | none => none
      | some s1 => s1.writeCommon address value time
    else s.writeCommon address value time

/-- `VDPVRAM::cpuRead`: the byte read and the state the call leaves. -/
def cpuRead (s : VDPVRAM) (address time : Nat) : Option (Nat × VDPVRAM) :=
  if ¬ s.clock ≤ time then none
  else if ¬ s.vdp.isInsideFrame time = true then none
  else
    let address := address &&& s.sizeMask
    if s.cmdWriteWindow.isInside address then
      match s.cmdEngineSync time with
      | none => none
      | some s1 => some (s1.data address, s1)
    else some (s.data address, s)

/-- The two callers of `writeCommon`. -/
inductive Writer where
  | cpu
  | cmd
  deriving DecidableEq, Repr

/-- One write request: who writes, where, what and when. -/
structure WriteOp where
  writer : Writer
  address : Nat
  value : Nat
  time : Nat
  deriving DecidableEq, Repr

/-- A write through either entry point. -/
def write (s : VDPVRAM) (op : WriteOp) : Option VDPVRAM :=
  match op.writer with
  | Writer.cpu => s.cpuWrite op.address op.value op.time
  | Writer.cmd => s.cmdWrite op.address op.value op.time

/-- A sequence of writes; the result lists the state after each call. -/
def runWrites (s : VDPVRAM) : List WriteOp → Option (List VDPVRAM)
  | [] => some []
  | op :: ops =>
    match s.write op with
    | none => none
    | some s1 =>
      match runWrites s1 ops with
      | none => none
      | some rest => some (s1 :: rest)

/-- A write is effective when its masked address is mapped and its value
differs from the stored byte. -/
def effective (s : VDPVRAM) (address value : Nat) : Prop :=
  address &&& s.sizeMask < s.actualSize ∧ s.data (address &&& s.sizeMask) ≠ value

/-- The members a write never assigns: the VDP, the size constants and the
nine windows. -/
def config (s : VDPVRAM) :=
  (s.vdp, s.sizeMask, s.actualSize, s.cmdReadWindow, s.cmdWriteWindow, s.nameTable,
    s.colourTable, s.patternTable, s.bitmapVisibleWindow, s.bitmapCacheWindow,
    s.spriteAttribTable, s.spritePatternTable)

/-- The hook calls before the commit, as the spec lists them: bitmap-visible
window, sprite-attribute table, sprite-pattern table, each seeing `seen`. -/
def preCommitCalls (s : VDPVRAM) (address time seen : Nat) : List Event :=
  s.bitmapVisibleWindow.notifyCalls address time seen ++
    (s.spriteAttribTable.notifyCalls address time seen ++
      s.spritePatternTable.notifyCalls address time seen)

/-- The hook calls after the commit, as the spec lists them: bitmap-cache
window, name, colour and pattern table, each seeing `seen`. -/
def postCommitCalls (s : VDPVRAM) (address time seen : Nat) : List Event :=
  s.bitmapCacheWindow.notifyCalls address time seen ++
    (s.nameTable.notifyCalls address time seen ++
      (s.colourTable.notifyCalls address time seen ++
        s.patternTable.notifyCalls address time seen))

/-- The state the two-phase protocol of the spec leaves: the pre-commit calls
see the old byte, then the byte is stored and the clock set to `time`, then
the post-commit calls see the new byte. -/
def twoPhaseResult (s : VDPVRAM) (address value time : Nat) : VDPVRAM :=
  { s with
      data := store s.data address value
      clock := time
      log := s.log ++ (s.preCommitCalls address time (s.data address) ++
        s.postCommitCalls address time value) }

/-- The times of the `cmdEngine->sync` calls in a log. -/
def syncTimes : List Event → List Nat
  | [] => []
  | Event.cmdSync t :: es => t :: syncTimes es
  | _ :: es => syncTimes es

/-- What a write that does not go through the CPU-side engine sync may do to
the state: it keeps the configuration and the engine's queue, never moves the
clock back, only appends hook calls to the log, and leaves the bytes at and
above `actualSize` alone. -/
structure Advances (s q : VDPVRAM) : Prop where
  config : q.config = s.config
  engine : q.cmdEngine = s.cmdEngine
  clock : s.clock ≤ q.clock
  log : ∃ calls, q.log = s.log ++ calls ∧ syncTimes calls = []
  unmapped : ∀ i, s.actualSize ≤ i → q.data i = s.data i

/-- The pending writes `sync(time)` delivers. -/
def dueWrites (s : VDPVRAM) (time : Nat) : List PendingWrite :=
  s.cmdEngine.filter (fun p => p.time ≤ time)

/-- The engine keeps its side of `cmdWrite`'s preconditions for the writes due
at `time`: they are queued in time order, none is before the VRAM clock, each
lies inside the frame and each unmapped address is below `0x30000`. -/
def engineOnTime (s : VDPVRAM) (time : Nat) : Prop :=
  List.Chain (fun t1 t2 => t1 ≤ t2) s.clock ((s.dueWrites time).map (fun p => p.time)) ∧
    ∀ p ∈ s.dueWrites time, s.vdp.isInsideFrame p.time = true ∧
      (s.actualSize ≤ p.address &&& s.sizeMask → p.address &&& s.sizeMask < 0x30000)

/-- The value of the last write of `ws` whose masked address is `a`, if any. -/
def lastWriteTo (mask a : Nat) : List PendingWrite → Option Nat
  | [] => none
  | p :: ps =>
    match lastWriteTo mask a ps with
    | some v => some v
    | none => if p.address &&& mask = a then some p.value else none

end VDPVRAM

/-!
Rasterisation scheduler (`src/video/PixelRenderer.cc`).

Coordinates, counters and register values are C++ `int`s; none of the
computations below comes near the limits of the type, and they are embedded
as mathematical integers. `/` and `%` on `int` round toward zero (`Int.tdiv`,
`Int.tmod`). The calls to the rasterizer, the sprite checker, the VRAM and the
event distributor are appended to a log, oldest first.
-/

/-- `PixelRenderer::DrawType`. -/
inductive DrawType where
  | DRAW_BORDER
  | DRAW_DISPLAY
  deriving DecidableEq, Repr

/-- `RenderSettings::Accuracy`. -/
inductive Accuracy where
  | ACC_SCREEN
  | ACC_LINE
  | ACC_PIXEL
  deriving DecidableEq, Repr

/-- What the renderer asks of a `DisplayMode` (DisplayMode.hh is not among the
sources): the answers of `isTextMode()`, `getBase()` and `getByte()`. -/
structure DisplayMode where
  isTextMode : Bool
  getBase : Int
  getByte : Int
  deriving DecidableEq, Repr

/-- The answers of the `VDP` queries the renderer makes during one call, and
the constant `VDP::TICKS_PER_LINE` (VDP.hh is not among the sources). -/
structure VDPState where
  TICKS_PER_LINE : Int
  getTicksThisFrame : Nat → Int
  getTicksPerFrame : Int
  getLineZero : Int
  getLeftSprites : Int
  getLeftBorder : Int
  getLeftBackground : Int
  getRightBorder : Int
  isBorderMasked : Bool
  getVerticalScroll : Int
  getHorizontalScrollLow : Int
  getDisplayMode : DisplayMode
  spritesEnabled : Bool
  isInterlaced : Bool

/-- The values of the render settings the renderer reads. -/
structure RenderSettings where
  minFrameSkip : Int
  maxFrameSkip : Int
  deinterlace : Bool
  accuracy : Accuracy
  deriving DecidableEq, Repr

/-- The settings `PixelRenderer::update` can be told about. -/
inductive Setting where
  | minFrameSkip
  | maxFrameSkip
  | other
  deriving DecidableEq, Repr

/-- Calls leaving the renderer: the `Rasterizer` interface,
`spriteChecker.checkUntil`, `vram.sync` and the distribution of a
`FinishFrameEvent`. -/
inductive RenderEvent where
  | rasterizerReset
  | rasterizerFrameStart
  | rasterizerFrameEnd
  | drawBorder (fromX fromY limitX limitY : Int)
  | drawDisplay (fromX fromY displayX displayY displayWidth displayHeight : Int)
  | drawSprites (fromX fromY displayX displayY displayWidth displayHeight : Int)
  | setTransparency (enabled : Bool)
  | setBackgroundColour (index : Int)
  | setPalette (index grb : Int)
  | setDisplayMode (mode : DisplayMode)
  | updateVRAMCache (address : Nat)
  | checkUntil (time : Nat)
  | vramSync (time : Nat)
  | finishFrame
  deriving DecidableEq, Repr

/-- One call `draw(startX, startY, endX, endY, drawType, atEnd)`. -/
structure DrawCall where
  startX : Int
  startY : Int
  endX : Int
  endY : Int
  drawType : DrawType
  atEnd : Bool
  deriving DecidableEq, Repr

/-- The positions a draw call asks for: columns `[startX, endX)` of the rows
`[startY, endY)`. -/
def DrawCall.covers (d : DrawCall) (x y : Int) : Bool :=
  decide (d.startX ≤ x ∧ x < d.endX ∧ d.startY ≤ y ∧ y < d.endY)

/-- Raster (row-major) order on positions: `(y1, x1) ≤ (y2, x2)`. -/
def rasterLE (x1 y1 x2 y2 : Int) : Prop :=
  y1 < y2 ∨ (y1 = y2 ∧ x1 ≤ x2)

/-- Strict raster order: `(y1, x1) < (y2, x2)`. -/
def rasterLT (x1 y1 x2 y2 : Int) : Prop :=
  y1 < y2 ∨ (y1 = y2 ∧ x1 < x2)

instance (x1 y1 x2 y2 : Int) : Decidable (rasterLE x1 y1 x2 y2) :=
  inferInstanceAs (Decidable (y1 < y2 ∨ (y1 = y2 ∧ x1 ≤ x2)))

instance (x1 y1 x2 y2 : Int) : Decidable (rasterLT x1 y1 x2 y2) :=
  inferInstanceAs (Decidable (y1 < y2 ∨ (y1 = y2 ∧ x1 < x2)))

/-- The positions between cursor `(startX, startY)` (included) and target
`(endX, endY)` (excluded) in raster order whose column is in `[clipL, clipR)`. -/
def inClippedRegion (startX startY endX endY clipL clipR x y : Int) : Prop :=
  clipL ≤ x ∧ x < clipR ∧ rasterLE startX startY x y ∧ rasterLT x y endX endY

instance (startX startY endX endY clipL clipR x y : Int) :
    Decidable (inClippedRegion startX startY endX endY clipL clipR x y) :=
  inferInstanceAs (Decidable
    (clipL ≤ x ∧ x < clipR ∧ rasterLE startX startY x y ∧ rasterLT x y endX endY))

/-- The part of `PixelRenderer::subdivide` from "Partial last line" on, entered
with the current value of `startY`: the full middle lines, then the partial
last line. -/
def subdivideRest (startY endX endY clipL clipR : Int) (drawType : DrawType) :
    List DrawCall :=
  let drawLast : Bool := if endX ≥ clipR then false else if endX > clipL then true else false
  let endY := if endX ≥ clipR then endY + 1 else endY
  (if startY < endY then [⟨clipL, startY, clipR, endY, drawType, true⟩] else []) ++
    (if drawLast then [⟨clipL, endY, endX, endY + 1, drawType, false⟩] else [])

/-- `PixelRenderer::subdivide`. The body only computes with its arguments and
calls `draw`; it is represented by the calls it makes, in order. -/
def subdivide (startX startY endX endY clipL clipR : Int) (drawType : DrawType) :
    List DrawCall :=
  if startX > clipL then
    let atEnd : Bool := (startY != endY) || decide (endX ≥ clipR)
    let first : List DrawCall :=
      if startX < clipR then
        [⟨startX, startY, if atEnd then clipR else endX, startY + 1, drawType, atEnd⟩]
      else []
    if startY = endY then first
    else first ++ subdivideRest (startY + 1) endX endY clipL clipR drawType
  else subdivideRest startY endX endY clipL clipR drawType

/-- State of a `PixelRenderer` object (the members the code under `src/`
reads or writes) and the log of its outgoing calls. -/
structure PixelRenderer where
  frameSkipCounter : Int
  prevDrawFrame : Bool
  drawFrame : Bool
  renderFrame : Bool
  displayEnabled : Bool
  accuracy : Accuracy
  nextX : Int
  nextY : Int
  textModeCounter : Int
  log : List RenderEvent
  deriving DecidableEq, Repr

namespace PixelRenderer

/-- `PixelRenderer::draw`. A failed `assert` yields `none`. The bit operations
on two's-complement `int`s are written arithmetically: `x & 7` and `x & 255`
are the non-negative remainders `x % 8` and `x % 256`, `x & ~1` is
`x - x % 2`, and `(x & 7) | (c * 8)`, whose operands share no bit, is the sum
`x % 8 + c * 8`. -/
def draw (vdp : VDPState) (s : PixelRenderer) (d : DrawCall) : Option PixelRenderer :=
  match d.drawType with
  | DrawType.DRAW_BORDER =>
    some { s with log := s.log ++ [RenderEvent.drawBorder d.startX d.startY d.endX d.endY] }
  | DrawType.DRAW_DISPLAY =>
    let zero := vdp.getLineZero
    let displayX := (d.startX - vdp.getLeftSprites).tdiv 2
    let displayY := d.startY - zero
    let displayY :=
      if ¬ vdp.getDisplayMode.isTextMode = true then displayY + vdp.getVerticalScroll
      else displayY % 8 + s.textModeCounter * 8
    let textModeCounter :=
      if vdp.getDisplayMode.isTextMode = true ∧ d.atEnd = true then
        let low := (max 0 (d.startY - zero)).tdiv 8
        let high := (max 0 (d.endY - zero)).tdiv 8
        s.textModeCounter + (high - low)
      else s.textModeCounter
    let displayY := displayY % 256
    let displayWidth := (d.endX - (d.startX - d.startX % 2)).tdiv 2
    let displayHeight := d.endY - d.startY
    if ¬ 0 ≤ displayX then none
    else if ¬ displayX + displayWidth ≤ 512 then none
    else
      let log1 := s.log ++ [RenderEvent.drawDisplay d.startX d.startY
        (displayX - vdp.getHorizontalScrollLow * 2) displayY displayWidth displayHeight]
      let log2 :=
        if vdp.spritesEnabled = true then
          log1 ++ [RenderEvent.drawSprites d.startX d.startY
            (displayX.tdiv 2) displayY ((displayWidth + 1).tdiv 2) displayHeight]
        else log1
      some { s with textModeCounter := textModeCounter, log := log2 }

/-- The two `assert`s of `draw` hold for the call. -/
def drawAsserts (vdp : VDPState) (d : DrawCall) : Prop :=
  d.drawType = DrawType.DRAW_DISPLAY →
    0 ≤ (d.startX - vdp.getLeftSprites).tdiv 2 ∧
    (d.startX - vdp.getLeftSprites).tdiv 2 +
      (d.endX - (d.startX - d.startX % 2)).tdiv 2 ≤ 512

/-- The members `draw` never assigns. -/
def frameState (s : PixelRenderer) :=
  (s.frameSkipCounter, s.prevDrawFrame, s.drawFrame, s.renderFrame, s.displayEnabled,
    s.accuracy, s.nextX, s.nextY)

/-- The calls to `draw` a sequence of `subdivide` calls makes, carried out in
order; the first failed `assert` aborts. -/
def drawAll (vdp : VDPState) (s : PixelRenderer) : List DrawCall → Option PixelRenderer
  | [] => some s
  | d :: ds =>
    match s.draw vdp d with
    | none => none
    | some s1 => drawAll vdp s1 ds

/-- The target `(limitX, limitY)` `renderUntil` computes from `time`. -/
def limit (vdp : VDPState) (accuracy : Accuracy) (time : Nat) : Int × Int :=
  let limitTicks := vdp.getTicksThisFrame time
  match accuracy with
  | Accuracy.ACC_PIXEL =>
    (limitTicks.tmod vdp.TICKS_PER_LINE, limitTicks.tdiv vdp.TICKS_PER_LINE)
  | Accuracy.ACC_LINE =>
    (0, (limitTicks + vdp.TICKS_PER_LINE - 400).tdiv vdp.TICKS_PER_LINE)
  | Accuracy.ACC_SCREEN =>
    (0, (limitTicks + vdp.TICKS_PER_LINE - 400).tdiv vdp.TICKS_PER_LINE)

/-- The `subdivide` calls of `renderUntil` for the target `(limitX, limitY)`:
left border, display area and right border if the display is enabled, one
border band over the whole line if not. -/
def bands (vdp : VDPState) (s : PixelRenderer) (limitX limitY : Int) : List DrawCall :=
  if s.displayEnabled = true then
    let borderL := vdp.getLeftBorder
    let displayL := if vdp.isBorderMasked = true then borderL else vdp.getLeftBackground
    let borderR := vdp.getRightBorder
    subdivide s.nextX s.nextY limitX limitY 0 displayL DrawType.DRAW_BORDER ++
      (subdivide s.nextX s.nextY limitX limitY displayL borderR DrawType.DRAW_DISPLAY ++
        subdivide s.nextX s.nextY limitX limitY borderR vdp.TICKS_PER_LINE
          DrawType.DRAW_BORDER)
  else
    subdivide s.nextX s.nextY limitX limitY 0 vdp.TICKS_PER_LINE DrawType.DRAW_BORDER

/-- The sprite-checker update of `renderUntil`: `spriteChecker.checkUntil(time)`
is called if the display and the sprites are enabled. -/
def checkSprites (vdp : VDPState) (s : PixelRenderer) (time : Nat) : PixelRenderer :=
  if s.displayEnabled = true ∧ vdp.spritesEnabled = true then
    { s with log := s.log ++ [RenderEvent.checkUntil time] }
  else s

/-- `PixelRenderer::renderUntil`. The `default:` branch of the `switch` is not
reachable for a value of the enumeration. -/
def renderUntil (vdp : VDPState) (s : PixelRenderer) (time : Nat) : Option PixelRenderer :=
  let limitTicks := vdp.getTicksThisFrame time
  if ¬ limitTicks ≤ vdp.getTicksPerFrame then none
  else
    let limitX := (limit vdp s.accuracy time).1
    let limitY := (limit vdp s.accuracy time).2
    if limitX = s.nextX ∧ limitY = s.nextY then some s
    else
      match drawAll vdp (checkSprites vdp s time) (bands vdp s limitX limitY) with
      | none => none
      | some s2 => some { s2 with nextX := limitX, nextY := limitY }

/-- `PixelRenderer::frameStart`. `rasterizerActive` is the answer of
`rasterizer->isActive()` and `timeLeft` the answer `realTime.timeLeft(...)`
gives if it is asked. -/
def frameStart (vdp : VDPState) (settings : RenderSettings)
    (rasterizerActive timeLeft : Bool) (s : PixelRenderer) : PixelRenderer :=
  let decision : Int × Bool :=
    if ¬ rasterizerActive = true then (0, false)
    else if s.frameSkipCounter < settings.minFrameSkip then (s.frameSkipCounter + 1, false)
    else if s.frameSkipCounter ≥ settings.maxFrameSkip then (0, true)
    else if timeLeft = true then (0, true)
    else (s.frameSkipCounter + 1, false)
  let prevDrawFrame := s.drawFrame
  let drawFrame := decision.2
  let renderFrame :=
    drawFrame || (prevDrawFrame && vdp.isInterlaced && settings.deinterlace)
  let s1 : PixelRenderer :=
    { s with
        frameSkipCounter := decision.1
        prevDrawFrame := prevDrawFrame
        drawFrame := drawFrame
        renderFrame := renderFrame }
  if ¬ renderFrame = true then s1
  else
    { s1 with
        log := s1.log ++ [RenderEvent.rasterizerFrameStart]
        accuracy := settings.accuracy
        nextX := 0
        nextY := 0
        textModeCounter := 0 }

/-- `PixelRenderer::update`. -/
def update (s : PixelRenderer) (setting : Setting) : Option PixelRenderer :=
  match setting with
  | Setting.minFrameSkip => some { s with frameSkipCounter := 999 }
  | Setting.maxFrameSkip => some { s with frameSkipCounter := 999 }
  | Setting.other => none

/-- One `renderUntil` call of a sequence: the VDP as it stands and the time. -/
structure RenderCall where
  vdp : VDPState
  time : Nat

/-- A sequence of `renderUntil` calls; the result lists the state after each
call. -/
def runRender (s : PixelRenderer) : List RenderCall → Option (List PixelRenderer)
  | [] => some []
  | c :: cs =>
    match s.renderUntil c.vdp c.time with
    | none => none
    | some s1 =>
      match runRender s1 cs with
      | none => none
      | some rest => some (s1 :: rest)

/-- One `frameStart` call of a sequence: the VDP as it stands and the answers
of the rasterizer and of the real-time clock. -/
structure FrameCall where
  vdp : VDPState
  rasterizerActive : Bool
  timeLeft : Bool

/-- A sequence of `frameStart` calls under constant settings; the result lists
the state after each call. -/
def runFrames (settings : RenderSettings) (s : PixelRenderer) :
    List FrameCall → List PixelRenderer
  | [] => []
  | c :: cs =>
    (s.frameStart c.vdp settings c.rasterizerActive c.timeLeft) ::
      runFrames settings (s.frameStart c.vdp settings c.rasterizerActive c.timeLeft) cs

end PixelRenderer

/-!
Read access through a window (`VRAMWindow::getReadArea`, `readNP` and their
planar variants) and the rest of the renderer (`sync`, `checkSync`, the update
handlers, `frameEnd`).
-/

/-- Modelled from the spec: `Math::floodRight` (Math.hh is not among the
sources). "Flood-fill the result's bits rightward": every bit below a set bit
of the 32-bit value is set, by or-ing the value with its right shifts by 1, 2,
4, 8 and 16. -/
def floodRight (x : Nat) : Nat :=
  let x := x ||| (x >>> 1)
  let x := x ||| (x >>> 2)
  let x := x ||| (x >>> 4)
  let x := x ||| (x >>> 8)
  x ||| (x >>> 16)

namespace VRAMWindow

/-- `VRAMWindow::getMask`. -/
def getMask (w : VRAMWindow) : Option Nat :=
  if w.isEnabled = true then some w.baseMask else none

/-- The bits `getReadArea` asserts about: `floodRight(index ^ endIndex)` with
the unsigned `endIndex = index + size - 1`. -/
def areaBits (index size : Nat) : Nat :=
  floodRight (index ^^^ ((index + size + (2 ^ 32 - 1)) % 2 ^ 32))

/-- `VRAMWindow::getReadAreaPlanar`: the positions `ptr0` and `ptr1` refer to. -/
def getReadAreaPlanar (w : VRAMWindow) (index size : Nat) : Option (Nat × Nat) :=
  if ¬ areaBits index size &&& w.baseMask = areaBits index size then none
  else if ¬ areaBits index size &&& not32 w.indexMask = areaBits index size then none
  else if ¬ w.isEnabled = true then none
  else
    let addr := w.baseMask &&& (w.indexMask ||| index)
    if ¬ addr &&& 1 = 0 then none
    else if ¬ size &&& 1 = 0 then none
    else some ((addr / 2) ||| 0x00000, (addr / 2) ||| 0x10000)

/-- `VRAMWindow::readNP`. -/
def readNP (w : VRAMWindow) (data : Nat → Nat) (index : Nat) : Option Nat :=
  if ¬ w.isEnabled = true then none
  else some (data (w.baseMask &&& index))

/-- The address remapping of `readPlanar`:
`((addr << 16) | (addr >> 1)) & 0x1FFFF` on an unsigned 32-bit `addr`. -/
def planarAddr (addr : Nat) : Nat :=
  (((addr <<< 16) % 2 ^ 32) ||| (addr >>> 1)) &&& 0x1FFFF

/-- `VRAMWindow::readPlanar`. -/
def readPlanar (w : VRAMWindow) (data : Nat → Nat) (index : Nat) : Option Nat :=
  if ¬ w.isEnabled = true then none
  else some (data (planarAddr (w.baseMask &&& index)))

end VRAMWindow

/-- Further answers of the `VDP` the renderer asks for (VDP.hh is not among
the sources). `getEvenOddMask` is given as a 32-bit pattern. -/
structure VDPRegs where
  getEvenOddMask : Nat
  isMultiPageScrolling : Bool
  getBackgroundColour : Int
  isDisplayEnabled : Bool

/-- The constants of `DisplayMode` the renderer compares with (DisplayMode.hh
is not among the sources). -/
structure DisplayModeIds where
  GRAPHIC2 : Int
  GRAPHIC3 : Int
  GRAPHIC4 : Int
  GRAPHIC5 : Int
  GRAPHIC6 : Int
  GRAPHIC7 : Int
  deriving DecidableEq, Repr

/-- The six constants are pairwise different, as the labels of the `switch` in
`checkSync` have to be. -/
def DisplayModeIds.Distinct (m : DisplayModeIds) : Prop :=
  [m.GRAPHIC2, m.GRAPHIC3, m.GRAPHIC4, m.GRAPHIC5, m.GRAPHIC6, m.GRAPHIC7].Nodup

/-- The collaborators of the renderer as one call finds them: the VDP, the
`DisplayMode` constants, the VRAM with its windows and its command engine, the
render settings, the answers of `rasterizer->isActive()` and
`realTime.timeLeft(...)`, and `renderer`, the identity under which this
renderer is attached to windows of the VRAM as their observer. -/
structure World where
  vdp : VDPState
  regs : VDPRegs
  modes : DisplayModeIds
  vram : VDPVRAM
  settings : RenderSettings
  rasterizerActive : Bool
  timeLeft : Bool
  renderer : Nat

/-- The static function `overlap` of PixelRenderer.cc. -/
def overlap (displayY0 displayY1 vramLine0 vramLine1 : Int) : Bool :=
  if displayY0 ≤ displayY1 then
    if vramLine1 > displayY0 then
      if vramLine0 ≤ displayY1 then true else false
    else false
  else
    if vramLine1 > displayY0 then true
    else if vramLine0 ≤ displayY1 then true
    else false

/-- The draw calls of the rasterizer. -/
def RenderEvent.isDraw : RenderEvent → Bool
  | RenderEvent.drawBorder _ _ _ _ => true
  | RenderEvent.drawDisplay _ _ _ _ _ _ => true
  | RenderEvent.drawSprites _ _ _ _ _ _ => true
  | _ => false

/-- The draw calls of the display area: `drawDisplay` and `drawSprites`. -/
def RenderEvent.isDisplayDraw : RenderEvent → Bool
  | RenderEvent.drawDisplay _ _ _ _ _ _ => true
  | RenderEvent.drawSprites _ _ _ _ _ _ => true
  | _ => false

/-- The calls a sync makes: `vram.sync`, the sprite checker update, the draw
calls and, from the hooks the VRAM calls, `updateVRAMCache`. -/
def RenderEvent.isSyncWork : RenderEvent → Bool
  | RenderEvent.drawBorder _ _ _ _ => true
  | RenderEvent.drawDisplay _ _ _ _ _ _ => true
  | RenderEvent.drawSprites _ _ _ _ _ _ => true
  | RenderEvent.checkUntil _ => true
  | RenderEvent.vramSync _ => true
  | RenderEvent.updateVRAMCache _ => true
  | _ => false

/-- The calls that belong to rendering a frame: the draw calls, the sprite
checker update, the VRAM sync, the end of the rasterizer's frame and the
frame-completed event. -/
def RenderEvent.isRendering : RenderEvent → Bool
  | RenderEvent.drawBorder _ _ _ _ => true
  | RenderEvent.drawDisplay _ _ _ _ _ _ => true
  | RenderEvent.drawSprites _ _ _ _ _ _ => true
  | RenderEvent.checkUntil _ => true
  | RenderEvent.vramSync _ => true
  | RenderEvent.rasterizerFrameStart => true
  | RenderEvent.rasterizerFrameEnd => true
  | RenderEvent.finishFrame => true
  | _ => false

namespace PixelRenderer

/-- The loop over the four table quarters in `checkSync`. -/
def quarterOverlap (mask vramQuarter : Nat) (displayY0 displayY1 : Int) : Bool :=
  [0, 1, 2, 3].any (fun i : Nat =>
    (i &&& mask == vramQuarter) &&
      overlap displayY0 displayY1 ((i : Int) * 64) (((i : Int) + 1) * 64))

/-- The test of one pattern or colour table in `checkSync`: `none` for a failed
`assert` in `getMask`. -/
def tableQuarterHit (table : VRAMWindow) (offset : Nat) (displayY0 displayY1 : Int) :
    Option Bool :=
  if table.isInside offset = true then
    match table.getMask with
    | none => none
    | some m =>
      some (quarterOverlap ((m &&& 0x1800) >>> 11) ((offset &&& 0x1800) >>> 11)
        displayY0 displayY1)
  else some false

/-- `PixelRenderer::checkSync`. `x & 255` on an `int` is written `x % 256`. -/
def checkSync (w : World) (s : PixelRenderer) (offset time : Nat) : Option Bool :=
  if ¬ s.displayEnabled = true then some false
  else if s.accuracy = Accuracy.ACC_SCREEN then some false
  else
    let deltaY := w.vdp.getVerticalScroll - w.vdp.getLineZero
    let limitY := (w.vdp.getTicksThisFrame time).tdiv w.vdp.TICKS_PER_LINE
    let displayY0 := (s.nextY + deltaY) % 256
    let displayY1 := (limitY + deltaY) % 256
    let base := w.vdp.getDisplayMode.getBase
    if base = w.modes.GRAPHIC2 ∨ base = w.modes.GRAPHIC3 then
      match tableQuarterHit w.vram.colourTable offset displayY0 displayY1 with
      | none => none
      | some true => some true
      | some false =>
        match tableQuarterHit w.vram.patternTable offset displayY0 displayY1 with
        | none => none
        | some true => some true
        | some false =>
          if w.vram.nameTable.isInside offset = true then
            let vramLine : Int := (((offset &&& 0x3FF) / 32 * 8 : Nat) : Int)
            if overlap displayY0 displayY1 vramLine (vramLine + 8) = true then some true
            else some false
          else some false
    else if base = w.modes.GRAPHIC4 ∨ base = w.modes.GRAPHIC5 then
      match w.vram.nameTable.getMask with
      | none => none
      | some m =>
        let visiblePage := m &&& (0x10000 ||| ((w.regs.getEvenOddMask <<< 7) % 2 ^ 32))
        if w.regs.isMultiPageScrolling = true then
          some (offset &&& 0x18000 == visiblePage ||
            offset &&& 0x18000 == visiblePage &&& 0x10000)
        else some (offset &&& 0x18000 == visiblePage)
    else if base = w.modes.GRAPHIC6 ∨ base = w.modes.GRAPHIC7 then some true
    else
      some (w.vram.nameTable.isInside offset || w.vram.colourTable.isInside offset ||
        w.vram.patternTable.isInside offset)

/-- `PixelRenderer::updateVRAM`. -/
def updateVRAM (w : World) (s : PixelRenderer) (offset time : Nat) : Option PixelRenderer :=
  let needed : Option Bool :=
    if s.renderFrame = true ∧ s.displayEnabled = true then checkSync w s offset time
    else some false
  match needed with
  | none => none
  | some true =>
    match renderUntil w.vdp s time with
    | none => none
    | some q => some { q with log := q.log ++ [RenderEvent.updateVRAMCache offset] }
  | some false => some { s with log := s.log ++ [RenderEvent.updateVRAMCache offset] }

/-- The hooks of this renderer among the calls the VRAM made, carried out in
the order of the calls: `updateVRAM(offset, time)` for a call to the observer
`renderer`; `updateWindow` does nothing; calls to other observers and to the
command engine are not calls of this renderer. -/
def hooks (w : World) (s : PixelRenderer) : List Event → Option PixelRenderer
  | [] => some s
  | Event.updateVRAM _ observer offset time _ :: es =>
    if observer = w.renderer then
      match updateVRAM w s offset time with
      | none => none
      | some s1 => hooks w s1 es
    else hooks w s es
  | Event.updateWindow _ _ _ _ :: es => hooks w s es
  | Event.cmdSync _ :: es => hooks w s es

/-- The call `vram.sync(time)` of the renderer: `VDPVRAM::sync` on the VRAM,
with its assertion and the command engine's writes, and the hooks the windows
call on this renderer meanwhile (the calls `VDPVRAM::sync` adds to the log of
the VRAM). The writes leave the windows as they are, and the renderer reads
nothing else of the VRAM, so the hooks find the collaborators of `w`. -/
def vramSync (w : World) (s : PixelRenderer) (time : Nat) : Option PixelRenderer :=
  match w.vram.sync time with
  | none => none
  | some v =>
    hooks w { s with log := s.log ++ [RenderEvent.vramSync time] }
      (v.log.drop w.vram.log.length)

/-- `PixelRenderer::sync(time, force)`; `sync(time)` is `sync(time, false)`. -/
def sync (w : World) (s : PixelRenderer) (time : Nat) (force : Bool) :
    Option PixelRenderer :=
  if ¬ s.renderFrame = true then some s
  else if s.accuracy ≠ Accuracy.ACC_SCREEN ∨ force = true then
    match vramSync w s time with
    | none => none
    | some s1 => renderUntil w.vdp s1 time
  else some s

/-- The body `if (displayEnabled) sync(time);` shared by thirteen update
handlers. -/
def syncIfDisplayEnabled (w : World) (s : PixelRenderer) (time : Nat) :
    Option PixelRenderer :=
  if s.displayEnabled = true then sync w s time false else some s

/-- `PixelRenderer::updateDisplayEnabled`. -/
def updateDisplayEnabled (w : World) (s : PixelRenderer) (enabled : Bool) (time : Nat) :
    Option PixelRenderer :=
  match sync w s time true with
  | none => none
  | some q => some { q with displayEnabled := enabled }

/-- `PixelRenderer::updateTransparency`. -/
def updateTransparency (w : World) (s : PixelRenderer) (enabled : Bool) (time : Nat) :
    Option PixelRenderer :=
  match syncIfDisplayEnabled w s time with
  | none => none
  | some q => some { q with log := q.log ++ [RenderEvent.setTransparency enabled] }

/-- `PixelRenderer::updateBackgroundColour`. -/
def updateBackgroundColour (w : World) (s : PixelRenderer) (colour : Int) (time : Nat) :
    Option PixelRenderer :=
  match sync w s time false with
  | none => none
  | some q =>
    if w.vdp.getDisplayMode.getByte ≠ w.modes.GRAPHIC7 then
      some { q with log := q.log ++ [RenderEvent.setBackgroundColour colour] }
    else some q

/-- The sync decision of `updatePalette`. `bgColour & 3` and `bgColour >> 2`
on an `int` are written `bgColour % 4` and `bgColour / 4`. -/
def paletteNeedsSync (w : World) (s : PixelRenderer) (index : Int) : Bool :=
  if s.displayEnabled = true then true
  else if w.vdp.getDisplayMode.getBase = w.modes.GRAPHIC5 then
    decide (index = w.regs.getBackgroundColour % 4 ∨ index = w.regs.getBackgroundColour / 4)
  else if w.vdp.getDisplayMode.getByte ≠ w.modes.GRAPHIC7 then
    decide (index = w.regs.getBackgroundColour)
  else false

/-- `PixelRenderer::updatePalette`. -/
def updatePalette (w : World) (s : PixelRenderer) (index grb : Int) (time : Nat) :
    Option PixelRenderer :=
  match (if paletteNeedsSync w s index = true then sync w s time false else some s) with
  | none => none
  | some q => some { q with log := q.log ++ [RenderEvent.setPalette index grb] }

/-- `PixelRenderer::updateDisplayMode`; `w.vdp.getDisplayMode` is the old mode. -/
def updateDisplayMode (w : World) (s : PixelRenderer) (mode : DisplayMode) (time : Nat) :
    Option PixelRenderer :=
  let oldMode := w.vdp.getDisplayMode
  match (if s.displayEnabled = true ∨ oldMode.getByte = w.modes.GRAPHIC5 ∨
      oldMode.getByte = w.modes.GRAPHIC7 ∨ mode.getByte = w.modes.GRAPHIC5 ∨
      mode.getByte = w.modes.GRAPHIC7 then sync w s time true else some s) with
  | none => none
  | some q => some { q with log := q.log ++ [RenderEvent.setDisplayMode mode] }

/-- `PixelRenderer::frameEnd`. The finish latency it measures with the host
timer only feeds the argument of `realTime.timeLeft`, whose answer is an
input of `frameStart`; it is not part of the state. -/
def frameEnd (w : World) (s : PixelRenderer) (time : Nat) : Option PixelRenderer :=
  if s.renderFrame = true then
    match sync w s time true with
    | none => none
    | some q =>
      let q1 := { q with log := q.log ++ [RenderEvent.rasterizerFrameEnd] }
      if q1.drawFrame = true then
        some { q1 with log := q1.log ++ [RenderEvent.finishFrame] }
      else some q1
  else some s

/-- `PixelRenderer::reset`. -/
def reset (w : World) (s : PixelRenderer) : PixelRenderer :=
  frameStart w.vdp w.settings w.rasterizerActive w.timeLeft
    { s with
        log := s.log ++ [RenderEvent.rasterizerReset]
        displayEnabled := w.regs.isDisplayEnabled }

/-- The entry points of the renderer with their arguments (`renderUntil` is
reached through `sync` and `updateVRAM` only). -/
inductive Call where
  | reset (time : Nat)
  | frameStart (time : Nat)
  | frameEnd (time : Nat)
  | sync (time : Nat) (force : Bool)
  | updateVRAM (offset time : Nat)
  | updateWindow (enabled : Bool) (time : Nat)
  | updateDisplayEnabled (enabled : Bool) (time : Nat)
  | updateHorizontalScrollLow (scroll time : Nat)
  | updateHorizontalScrollHigh (scroll time : Nat)
  | updateBorderMask (masked : Bool) (time : Nat)
  | updateMultiPage (multiPage : Bool) (time : Nat)
  | updateTransparency (enabled : Bool) (time : Nat)
  | updateForegroundColour (colour : Int) (time : Nat)
  | updateBackgroundColour (colour : Int) (time : Nat)
  | updateBlinkForegroundColour (colour : Int) (time : Nat)
  | updateBlinkBackgroundColour (colour : Int) (time : Nat)
  | updateBlinkState (enabled : Bool) (time : Nat)
  | updatePalette (index grb : Int) (time : Nat)
  | updateVerticalScroll (scroll : Int) (time : Nat)
  | updateHorizontalAdjust (adjust : Int) (time : Nat)
  | updateDisplayMode (mode : DisplayMode) (time : Nat)
  | updateNameBase (addr : Int) (time : Nat)
  | updatePatternBase (addr : Int) (time : Nat)
  | updateColourBase (addr : Int) (time : Nat)
  | updateSpritesEnabled (enabled : Bool) (time : Nat)
  | update (setting : Setting)
  deriving DecidableEq

/-- The calls that start a frame: `frameStart`, and `reset`, which ends with
`frameStart`. -/
def Call.startsFrame : Call → Bool
  | Call.reset _ => true
  | Call.frameStart _ => true
  | _ => false

/-- One call of an entry point. -/
def step (w : World) (s : PixelRenderer) : Call → Option PixelRenderer
  | Call.reset _ => some (reset w s)
  | Call.frameStart _ => some (frameStart w.vdp w.settings w.rasterizerActive w.timeLeft s)
  | Call.frameEnd time => frameEnd w s time
  | Call.sync time force => sync w s time force
  | Call.updateVRAM offset time => updateVRAM w s offset time
  | Call.updateWindow _ _ => some s
  | Call.updateDisplayEnabled enabled time => updateDisplayEnabled w s enabled time
  | Call.updateHorizontalScrollLow _ time => syncIfDisplayEnabled w s time
  | Call.updateHorizontalScrollHigh _ time => syncIfDisplayEnabled w s time
  | Call.updateBorderMask _ time => syncIfDisplayEnabled w s time
  | Call.updateMultiPage _ time => syncIfDisplayEnabled w s time
  | Call.updateTransparency enabled time => updateTransparency w s enabled time
  | Call.updateForegroundColour _ time => syncIfDisplayEnabled w s time
  | Call.updateBackgroundColour colour time => updateBackgroundColour w s colour time
  | Call.updateBlinkForegroundColour _ time => syncIfDisplayEnabled w s time
  | Call.updateBlinkBackgroundColour _ time => syncIfDisplayEnabled w s time
  | Call.updateBlinkState _ _ => some s
  | Call.updatePalette index grb time => updatePalette w s index grb time
  | Call.updateVerticalScroll _ time => syncIfDisplayEnabled w s time
  | Call.updateHorizontalAdjust _ time => syncIfDisplayEnabled w s time
  | Call.updateDisplayMode mode time => updateDisplayMode w s mode time
  | Call.updateNameBase _ time => syncIfDisplayEnabled w s time
  | Call.updatePatternBase _ time => syncIfDisplayEnabled w s time
  | Call.updateColourBase _ time => syncIfDisplayEnabled w s time
  | Call.updateSpritesEnabled _ time => syncIfDisplayEnabled w s time
  | Call.update setting => update s setting

/-- A sequence of calls, each with the collaborators as it finds them. -/
def run (s : PixelRenderer) : List (World × Call) → Option PixelRenderer
  | [] => some s
  | c :: cs =>
    match step c.1 s c.2 with
    | none => none
    | some s1 => run s1 cs

/-- What a call may change in a frame that is not rendered: the flag
`displayEnabled` and the frame-skip counter, and the log grows by calls that
are not part of rendering. -/
def SkippedStep (s q : PixelRenderer) : Prop :=
  q.renderFrame = s.renderFrame ∧ q.drawFrame = s.drawFrame ∧
    q.prevDrawFrame = s.prevDrawFrame ∧ q.accuracy = s.accuracy ∧
    q.textModeCounter = s.textModeCounter ∧ q.nextX = s.nextX ∧ q.nextY = s.nextY ∧
    ∃ evs, q.log = s.log ++ evs ∧ ∀ e ∈ evs, e.isRendering = false

/-- What the work of a sync may change: the cursor, `textModeCounter` and the
log; the log grows by calls a sync makes, and display-area draws are among
them only if the display was enabled. -/
def SyncStep (s q : PixelRenderer) : Prop :=
  q.frameSkipCounter = s.frameSkipCounter ∧ q.prevDrawFrame = s.prevDrawFrame ∧
    q.drawFrame = s.drawFrame ∧ q.renderFrame = s.renderFrame ∧
    q.displayEnabled = s.displayEnabled ∧ q.accuracy = s.accuracy ∧
    ∃ evs, q.log = s.log ++ evs ∧ (∀ e ∈ evs, e.isSyncWork = true) ∧
      (∀ e ∈ evs, e.isDisplayDraw = true → s.displayEnabled = true)

/-- The handler that turned `s` into `q` rendered the backlog before the calls
`after`: its calls are sync work `work`, done with the display flag of `s`,
followed by `after`, and in a rendered frame in which the sync was `due` the
work starts with `vram.sync(time)` and leaves the cursor at the target of
`time`. -/
def BacklogFirst (w : World) (s q : PixelRenderer) (time : Nat) (due : Prop)
    (after : List RenderEvent) : Prop :=
  ∃ work, q.log = s.log ++ work ++ after ∧ (∀ e ∈ work, e.isSyncWork = true) ∧
    (∀ e ∈ work, e.isDisplayDraw = true → s.displayEnabled = true) ∧
    (s.renderFrame = true → due →
      q.nextX = (limit w.vdp s.accuracy time).1 ∧
      q.nextY = (limit w.vdp s.accuracy time).2 ∧
      work.head? = some (RenderEvent.vramSync time))

end PixelRenderer

/-! Concrete objects used to exercise the definitions. -/

/-- A window as the constructor leaves it (disabled), with observer 1
attached, for a VRAM with mirroring mask `sizeMask`. -/
def freshWindow (self : WindowId) (sizeMask : Nat) : VRAMWindow :=
  { self := self, baseMask := 0, indexMask := 0, baseAddr := minusOne, combiMask := 0,
    observer := some 1, sizeMask := sizeMask }

/-- A name table of 1 kB at `0x1800`: base register `0x1BFF`, index mask `-1 << 10`. -/
def nameTableAt1800 : VRAMWindow :=
  ((freshWindow WindowId.nameTable 0x1FFFF).setMask 0x1BFF 0xFFFFFC00 7 []).1

/-- A window over the whole VRAM, as the command engine claims while a
command runs: `setMask(0x3FFFF, -1 << 18, time)`. -/
def wholeVram (self : WindowId) (sizeMask : Nat) : VRAMWindow :=
  ((freshWindow self sizeMask).setMask 0x3FFFF 0xFFFC0000 0 []).1

/-- A VDP whose frame contains every time. -/
def frameForever : VDP := { isInsideFrame := fun _ => true }

/-- A 128 kB VRAM filled with the byte 5 at time 0. The command engine's write
window spans the VRAM; the name table and the sprite attribute table both sit
at `0x1800`; the other windows are disabled. The engine has nothing pending. -/
def vram128k : VDPVRAM :=
  { vdp := frameForever
    data := fun _ => 5
    clock := 0
    sizeMask := 0x1FFFF
    actualSize := 0x20000
    cmdReadWindow := freshWindow WindowId.cmdReadWindow 0x1FFFF
    cmdWriteWindow := wholeVram WindowId.cmdWriteWindow 0x1FFFF
    nameTable := nameTableAt1800
    colourTable := freshWindow WindowId.colourTable 0x1FFFF
    patternTable := freshWindow WindowId.patternTable 0x1FFFF
    bitmapVisibleWindow := freshWindow WindowId.bitmapVisibleWindow 0x1FFFF
    bitmapCacheWindow := freshWindow WindowId.bitmapCacheWindow 0x1FFFF
    spriteAttribTable := { nameTableAt1800 with self := WindowId.spriteAttribTable }
    spritePatternTable := freshWindow WindowId.spritePatternTable 0x1FFFF
    cmdEngine := []
    log := [] }

/-- The 128 kB VRAM while the engine still has to deliver the byte 9 to
`0x100` at time 50. -/
def vram128kPending : VDPVRAM :=
  { vram128k with cmdEngine := [{ time := 50, address := 0x100, value := 9 }] }

/-- A 16 kB VRAM (`actualSize = 0x4000`, `sizeMask = 0x7FFF`) filled with the
byte 5, every window spanning the VRAM and observed. -/
def vram16k : VDPVRAM :=
  { vdp := frameForever
    data := fun _ => 5
    clock := 0
    sizeMask := 0x7FFF
    actualSize := 0x4000
    cmdReadWindow := wholeVram WindowId.cmdReadWindow 0x7FFF
    cmdWriteWindow := wholeVram WindowId.cmdWriteWindow 0x7FFF
    nameTable := wholeVram WindowId.nameTable 0x7FFF
    colourTable := wholeVram WindowId.colourTable 0x7FFF
    patternTable := wholeVram WindowId.patternTable 0x7FFF
    bitmapVisibleWindow := wholeVram WindowId.bitmapVisibleWindow 0x7FFF
    bitmapCacheWindow := wholeVram WindowId.bitmapCacheWindow 0x7FFF
    spriteAttribTable := wholeVram WindowId.spriteAttribTable 0x7FFF
    spritePatternTable := wholeVram WindowId.spritePatternTable 0x7FFF
    cmdEngine := []
    log := [] }

/-- A VDP with 1368 ticks per line and 313 lines per frame whose frame started
at time 0 (one tick per time unit); the display area spans the ticks
`[258, 1282)` of a line, sprites are on, the mode is not a text mode. -/
def palVdp : VDPState :=
  { TICKS_PER_LINE := 1368
    getTicksThisFrame := fun time => (time : Int)
    getTicksPerFrame := 1368 * 313
    getLineZero := 42
    getLeftSprites := 258
    getLeftBorder := 258
    getLeftBackground := 258
    getRightBorder := 1282
    isBorderMasked := false
    getVerticalScroll := 0
    getHorizontalScrollLow := 0
    getDisplayMode := { isTextMode := false, getBase := 0, getByte := 0 }
    spritesEnabled := true
    isInterlaced := false }

/-- A renderer at the start of a rendered frame: cursor `(0, 0)`, display
enabled, the given accuracy, nothing logged. -/
def rendererAtFrameStart (accuracy : Accuracy) : PixelRenderer :=
  { frameSkipCounter := 0
    prevDrawFrame := false
    drawFrame := true
    renderFrame := true
    displayEnabled := true
    accuracy := accuracy
    nextX := 0
    nextY := 0
    textModeCounter := 0
    log := [] }

/-- Frame-skip settings with the minimum above the maximum. -/
def minAboveMax : RenderSettings :=
  { minFrameSkip := 2, maxFrameSkip := 0, deinterlace := false,
    accuracy := Accuracy.ACC_PIXEL }

/-- Frame-skip settings: skip at least one frame and at most three. -/
def skipOneToThree : RenderSettings :=
  { minFrameSkip := 1, maxFrameSkip := 3, deinterlace := false,
    accuracy := Accuracy.ACC_PIXEL }

/-- Values for the `DisplayMode` constants: the mode bits M5..M1. -/
def msxModes : DisplayModeIds :=
  { GRAPHIC2 := 0x04, GRAPHIC3 := 0x08, GRAPHIC4 := 0x0C, GRAPHIC5 := 0x10,
    GRAPHIC6 := 0x14, GRAPHIC7 := 0x1C }

/-- The PAL VDP with the 128 kB VRAM, an active rasterizer and no time left. -/
def palWorld : World :=
  { vdp := palVdp
    regs := { getEvenOddMask := 0, isMultiPageScrolling := false, getBackgroundColour := 4,
              isDisplayEnabled := true }
    modes := msxModes
    vram := vram128k
    settings := skipOneToThree
    rasterizerActive := true
    timeLeft := false
    renderer := 1 }

/-- The 128 kB VRAM with the bitmap-visible window spanning it and the byte 9
for `0x100` pending in the command engine at time 50. Every window has
observer 1. -/
def vramObserved : VDPVRAM :=
  { vram128kPending with
    bitmapVisibleWindow := wholeVram WindowId.bitmapVisibleWindow 0x1FFFF }

/-- The PAL world over `vramObserved`; the renderer is observer 1. -/
def palWorldPending : World :=
  { palWorld with vram := vramObserved }

/-- The PAL world at a time its VDP does not count to the frame. -/
def palWorldOutside : World :=
  { palWorld with vram := { vram128k with vdp := { isInsideFrame := fun _ => false } } }

/-- The same collaborators after the accuracy setting was changed to `ACC_SCREEN`. -/
def palWorldScreen : World :=
  { palWorld with settings := { skipOneToThree with accuracy := Accuracy.ACC_SCREEN } }

/-- The PAL VDP in a text mode. -/
def palTextVdp : VDPState :=
  { palVdp with getDisplayMode := { isTextMode := true, getBase := 1, getByte := 1 } }

/-- A renderer in a frame that is not rendered. -/
def rendererSkipping : PixelRenderer :=
  { rendererAtFrameStart Accuracy.ACC_PIXEL with drawFrame := false, renderFrame := false }

/-! Bit-level facts about 32-bit patterns. -/

theorem testBit_not32 (x i : Nat) :
    (not32 x).testBit i = (decide (i < 32) && !x.testBit i) := by
  unfold not32
  rw [Nat.testBit_two_pow_sub_succ (Nat.mod_lt _ (by norm_num)), Nat.testBit_mod_two_pow]
  by_cases h : i < 32 <;> simp [h]

theorem testBit_minusOne (i : Nat) : minusOne.testBit i = decide (i < 32) := by
  have h : minusOne = 2 ^ 32 - 1 := by norm_num [minusOne]
  rw [h, Nat.testBit_two_pow_sub_one]

theorem testBit_high_of_lt {x : Nat} (h : x < 2 ^ 32) {i : Nat} (hi : 32 ≤ i) :
    x.testBit i = false :=
  Nat.testBit_lt_two_pow (lt_of_lt_of_le h (Nat.pow_le_pow_right (by norm_num) hi))

namespace VRAMWindow

theorem isInside_iff (w : VRAMWindow) (addr : Nat) :
    w.isInside addr = true ↔ addr &&& w.combiMask = w.baseAddr := by
  simp [isInside]

/-- The O(1) test of an enabled, committed window picks exactly the images of
the index-to-address mapping. -/
theorem isInside_iff_exists_index (w : VRAMWindow) (hc : w.MasksCommitted)
    (he : w.isEnabled = true) (addr : Nat) (haddr : addr < 2 ^ 32) :
    w.isInside addr = true ↔ ∃ index, w.readAreaAddr index = addr := by
  obtain ⟨hb, hm⟩ := hc he
  rw [isInside_iff, hb, hm]
  unfold readAreaAddr
  constructor
  · intro h
    refine ⟨addr, Nat.eq_of_testBit_eq fun k => ?_⟩
    have hk := congrArg (fun n => n.testBit k) h
    simp only [Nat.testBit_and, Nat.testBit_or, testBit_not32] at hk ⊢
    by_cases h32 : k < 32
    · revert hk
      cases addr.testBit k <;> cases w.baseMask.testBit k <;>
        cases w.indexMask.testBit k <;> simp [h32]
    · have ha : addr.testBit k = false := testBit_high_of_lt haddr (by omega)
      revert hk
      rw [ha]
      cases w.baseMask.testBit k <;> cases w.indexMask.testBit k <;> simp [h32]
  · rintro ⟨index, rfl⟩
    refine Nat.eq_of_testBit_eq fun k => ?_
    simp only [Nat.testBit_and, Nat.testBit_or, testBit_not32]
    cases w.baseMask.testBit k <;> cases w.indexMask.testBit k <;>
      cases index.testBit k <;> simp

theorem readAreaAddr_self_of_inside (w : VRAMWindow) (hc : w.MasksCommitted)
    (he : w.isEnabled = true) (addr : Nat) (haddr : addr < 2 ^ 32)
    (h : w.isInside addr = true) : w.readAreaAddr addr = addr := by
  obtain ⟨index, hi⟩ := (isInside_iff_exists_index w hc he addr haddr).1 h
  rw [← hi]
  unfold readAreaAddr
  refine Nat.eq_of_testBit_eq fun k => ?_
  simp only [Nat.testBit_and, Nat.testBit_or]
  cases w.baseMask.testBit k <;> cases w.indexMask.testBit k <;>
    cases index.testBit k <;> simp

theorem setMask_masksCommitted (w : VRAMWindow) (b i time : Nat) (log : List Event)
    (hc : w.MasksCommitted) : (w.setMask b i time log).1.MasksCommitted := by
  by_cases h : (w.isEnabled && b &&& w.sizeMask == w.baseMask && i == w.indexMask) = true
  · simpa [setMask, h] using hc
  · intro _
    simp [setMask, h]

theorem disable_masksCommitted (w : VRAMWindow) (time : Nat) (log : List Event) :
    (w.disable time log).1.MasksCommitted := by
  intro h
  simp [disable, isEnabled] at h

theorem bruteForceInside_iff (w : VRAMWindow) (sample addr : Nat) :
    w.bruteForceInside sample addr = true ↔
      ∃ index, index < sample ∧ w.readAreaAddr index = addr := by
  simp [bruteForceInside]

theorem isInside_false_of_disabled (w : VRAMWindow) (hd : w.isEnabled = false)
    (addr : Nat) (haddr : addr < 2 ^ 32 - 1) : w.isInside addr = false := by
  have hb : w.baseAddr = minusOne := by simpa [isEnabled] using hd
  cases hin : w.isInside addr
  · rfl
  · exfalso
    rw [isInside_iff, hb] at hin
    have hle : minusOne ≤ addr := by
      rw [← hin]
      exact Nat.and_le_left
    simp only [minusOne] at hle
    omega

theorem notify_of_not_inside (w : VRAMWindow) (data : Nat → Nat) (address time : Nat)
    (log : List Event) (h : w.isInside address = false) :
    w.notify data address time log = log := by
  unfold notify
  cases w.observer <;> simp [h]

theorem notify_eq (w : VRAMWindow) (data : Nat → Nat) (address time : Nat)
    (log : List Event) :
    w.notify data address time log = log ++ w.notifyCalls address time (data address) := by
  unfold notify notifyCalls
  cases w.observer with
  | none => simp
  | some o => by_cases h : w.isInside address = true <;> simp [h]

theorem setMask_of_unchanged (w : VRAMWindow) (b i time : Nat) (log : List Event)
    (h : w.isEnabled = true ∧ b &&& w.sizeMask = w.baseMask ∧ i = w.indexMask) :
    w.setMask b i time log = (w, log) := by
  obtain ⟨h1, h2, h3⟩ := h
  simp [setMask, h1, h2, h3]

theorem setMask_of_changed (w : VRAMWindow) (b i time : Nat) (log : List Event)
    (h : ¬ (w.isEnabled = true ∧ b &&& w.sizeMask = w.baseMask ∧ i = w.indexMask)) :
    w.setMask b i time log =
      ({ w with
          baseMask := b &&& w.sizeMask
          indexMask := i
          baseAddr := (b &&& w.sizeMask) &&& i
          combiMask := not32 (b &&& w.sizeMask) ||| i },
        log ++ (match w.observer with
          | some o => [Event.updateWindow o true time w]
          | none => [])) := by
  have hc : (w.isEnabled && b &&& w.sizeMask == w.baseMask && i == w.indexMask) = false := by
    rw [Bool.eq_false_iff]
    intro hh
    apply h
    simpa [Bool.and_eq_true, and_assoc] using hh
  unfold setMask
  simp only [hc]
  cases w.observer <;> simp

theorem and_and_ne_minusOne (b i m : Nat) (hm : m < minusOne) :
    (b &&& m) &&& i ≠ minusOne := by
  intro h
  have h1 : (b &&& m) &&& i ≤ m :=
    le_trans Nat.and_le_left Nat.and_le_right
  omega

end VRAMWindow

namespace VDPVRAM

theorem store_same (data : Nat → Nat) (a v : Nat) : store data a v a = v := by
  simp [store]

theorem store_other (data : Nat → Nat) (a v i : Nat) (h : i ≠ a) :
    store data a v i = data i := by
  simp [store, h]

theorem writeCommon_eq (s : VDPVRAM) (a v t : Nat) (ht : s.clock ≤ t) :
    s.writeCommon a v t = some (s.twoPhaseResult a v t) := by
  simp [writeCommon, twoPhaseResult, preCommitCalls, postCommitCalls, Clock.advance, ht,
    VRAMWindow.notify_eq, store_same, List.append_assoc]

theorem syncTimes_append (l1 l2 : List Event) :
    syncTimes (l1 ++ l2) = syncTimes l1 ++ syncTimes l2 := by
  induction l1 with
  | nil => rfl
  | cons e es ih => cases e <;> simp [syncTimes, ih]

theorem syncTimes_notifyCalls (w : VRAMWindow) (a t seen : Nat) :
    syncTimes (w.notifyCalls a t seen) = [] := by
  unfold VRAMWindow.notifyCalls
  cases w.observer with
  | none => rfl
  | some o => by_cases h : w.isInside a = true <;> simp [h, syncTimes]

theorem syncTimes_preCommitCalls (s : VDPVRAM) (a t seen : Nat) :
    syncTimes (s.preCommitCalls a t seen) = [] := by
  simp [preCommitCalls, syncTimes_append, syncTimes_notifyCalls]

theorem syncTimes_postCommitCalls (s : VDPVRAM) (a t seen : Nat) :
    syncTimes (s.postCommitCalls a t seen) = [] := by
  simp [postCommitCalls, syncTimes_append, syncTimes_notifyCalls]

theorem sizeMask_of_config {s q : VDPVRAM} (h : q.config = s.config) :
    q.sizeMask = s.sizeMask :=
  congrArg (fun c => c.2.1) h

theorem actualSize_of_config {s q : VDPVRAM} (h : q.config = s.config) :
    q.actualSize = s.actualSize :=
  congrArg (fun c => c.2.2.1) h

theorem vdp_of_config {s q : VDPVRAM} (h : q.config = s.config) : q.vdp = s.vdp :=
  congrArg (fun c => c.1) h

theorem cmdReadWindow_of_config {s q : VDPVRAM} (h : q.config = s.config) :
    q.cmdReadWindow = s.cmdReadWindow :=
  congrArg (fun c => c.2.2.2.1) h

theorem cmdWriteWindow_of_config {s q : VDPVRAM} (h : q.config = s.config) :
    q.cmdWriteWindow = s.cmdWriteWindow :=
  congrArg (fun c => c.2.2.2.2.1) h

theorem Advances.refl (s : VDPVRAM) : Advances s s :=
  ⟨rfl, rfl, le_refl _, ⟨[], by simp, rfl⟩, fun _ _ => rfl⟩

theorem Advances.trans {s q r : VDPVRAM} (h1 : Advances s q) (h2 : Advances q r) :
    Advances s r := by
  obtain ⟨c1, hl1, hs1⟩ := h1.log
  obtain ⟨c2, hl2, hs2⟩ := h2.log
  refine ⟨h2.config.trans h1.config, h2.engine.trans h1.engine,
    le_trans h1.clock h2.clock, ⟨c1 ++ c2, ?_, ?_⟩, fun i hi => ?_⟩
  · rw [hl2, hl1, List.append_assoc]
  · rw [syncTimes_append, hs1, hs2]; rfl
  · rw [h2.unmapped i (by rw [actualSize_of_config h1.config]; exact hi), h1.unmapped i hi]

theorem twoPhaseResult_advances (s : VDPVRAM) (a v t : Nat) (ha : a < s.actualSize)
    (ht : s.clock ≤ t) : Advances s (s.twoPhaseResult a v t) := by
  refine ⟨rfl, rfl, ht, ⟨_, rfl, ?_⟩, fun i hi => ?_⟩
  · rw [syncTimes_append, syncTimes_preCommitCalls, syncTimes_postCommitCalls]; rfl
  · exact store_other _ _ _ _ (by omega)

/-- The outcomes of `cmdWrite`: an abort, a dropped write, or the two-phase
commit of an effective write. -/
theorem cmdWrite_eq (s : VDPVRAM) (address value time : Nat) :
    s.cmdWrite address value time =
      if s.clock ≤ time ∧ s.vdp.isInsideFrame time = true then
        if s.actualSize ≤ address &&& s.sizeMask then
          if address &&& s.sizeMask < 0x30000 then some s else none
        else if s.data (address &&& s.sizeMask) = value then some s
        else some (s.twoPhaseResult (address &&& s.sizeMask) value time)
      else none := by
  unfold cmdWrite
  by_cases ht : s.clock ≤ time
  · by_cases hf : s.vdp.isInsideFrame time = true
    · simp [ht, hf, writeCommon_eq]
    · simp [ht, hf]
  · simp [ht]

theorem cmdWrite_some (s q : VDPVRAM) (address value time : Nat)
    (h : s.cmdWrite address value time = some q) :
    s.clock ≤ time ∧ s.vdp.isInsideFrame time = true ∧
      ((q = s ∧ ¬ s.effective address value) ∨
        (s.effective address value ∧
          q = s.twoPhaseResult (address &&& s.sizeMask) value time)) := by
  rw [cmdWrite_eq] at h
  unfold effective
  split_ifs at h with h1 h2 h3 h4
  · simp only [Option.some.injEq] at h
    exact ⟨h1.1, h1.2, Or.inl ⟨h.symm, by omega⟩⟩
  · simp only [Option.some.injEq] at h
    exact ⟨h1.1, h1.2, Or.inl ⟨h.symm, fun hh => hh.2 h4⟩⟩
  · simp only [Option.some.injEq] at h
    exact ⟨h1.1, h1.2, Or.inr ⟨⟨by omega, h4⟩, h.symm⟩⟩

theorem cmdWrite_advances (s q : VDPVRAM) (address value time : Nat)
    (h : s.cmdWrite address value time = some q) : Advances s q := by
  obtain ⟨ht, _, h1 | h1⟩ := cmdWrite_some s q address value time h
  · rw [h1.1]; exact Advances.refl s
  · rw [h1.2]; exact twoPhaseResult_advances s _ _ _ h1.1.1 ht

theorem cmdWrite_clock_le (s q : VDPVRAM) (address value time : Nat)
    (h : s.cmdWrite address value time = some q) : q.clock ≤ time := by
  obtain ⟨ht, _, h1 | h1⟩ := cmdWrite_some s q address value time h
  · rw [h1.1]; exact ht
  · rw [h1.2]; exact le_refl _

theorem applyWrites_advances (ws : List PendingWrite) :
    ∀ (s q : VDPVRAM), s.applyWrites ws = some q → Advances s q := by
  induction ws with
  | nil =>
    intro s q h
    simp only [applyWrites, Option.some.injEq] at h
    rw [← h]; exact Advances.refl s
  | cons p ps ih =>
    intro s q h
    unfold applyWrites at h
    cases h1 : s.cmdWrite p.address p.value p.time with
    | none => simp [h1] at h
    | some s1 =>
      simp only [h1] at h
      exact Advances.trans (cmdWrite_advances s s1 _ _ _ h1) (ih s1 q h)

theorem applyWrites_clock_le (ws : List PendingWrite) (bound : Nat)
    (hb : ∀ p ∈ ws, p.time ≤ bound) :
    ∀ (s q : VDPVRAM), s.clock ≤ bound → s.applyWrites ws = some q → q.clock ≤ bound := by
  induction ws with
  | nil =>
    intro s q hs h
    simp only [applyWrites, Option.some.injEq] at h
    rw [← h]; exact hs
  | cons p ps ih =>
    intro s q hs h
    unfold applyWrites at h
    cases h1 : s.cmdWrite p.address p.value p.time with
    | none => simp [h1] at h
    | some s1 =>
      simp only [h1] at h
      have hp : p.time ≤ bound := hb p (List.mem_cons_self _ _)
      exact ih (fun p2 hp2 => hb p2 (List.mem_cons_of_mem _ hp2)) s1 q
        (le_trans (cmdWrite_clock_le s s1 _ _ _ h1) hp) h

/-- What `cmdEngine->sync(time)` leaves: the `sync` call is logged first, the
calls that follow contain no further `sync`, the due writes have left the
queue, and nothing else but bytes below `actualSize` and the clock moved. -/
theorem cmdEngineSync_some (s q : VDPVRAM) (time : Nat)
    (h : s.cmdEngineSync time = some q) :
    q.config = s.config ∧
      q.cmdEngine = s.cmdEngine.filter (fun p => ¬ p.time ≤ time) ∧
      s.clock ≤ q.clock ∧ (s.clock ≤ time → q.clock ≤ time) ∧
      (∃ calls, q.log = s.log ++ Event.cmdSync time :: calls ∧ syncTimes calls = []) ∧
      (∀ i, s.actualSize ≤ i → q.data i = s.data i) := by
  unfold cmdEngineSync at h
  have ha := applyWrites_advances _ _ _ h
  obtain ⟨calls, hl, hs⟩ := ha.log
  refine ⟨ha.config, ha.engine, ha.clock, fun ht => ?_, ⟨calls, ?_, hs⟩, ha.unmapped⟩
  · refine applyWrites_clock_le (s.cmdEngine.filter (fun p => p.time ≤ time)) time
      (fun p hp => by simpa using (List.mem_filter.1 hp).2) _ q ?_ h
    exact ht
  · simpa [List.append_assoc] using hl

/-- The outcomes of `cpuWrite`: an abort, a dropped write, or, for an effective
write, the two-phase commit, run on the state the engine sync leaves when the
address is inside one of the engine's windows. -/
theorem cpuWrite_eq (s : VDPVRAM) (address value time : Nat) :
    s.cpuWrite address value time =
      if s.clock ≤ time ∧ s.vdp.isInsideFrame time = true then
        if s.actualSize ≤ address &&& s.sizeMask then
          if address &&& s.sizeMask < 0x30000 then some s else none
        else if s.data (address &&& s.sizeMask) = value then some s
        else if (s.cmdReadWindow.isInside (address &&& s.sizeMask) ||
            s.cmdWriteWindow.isInside (address &&& s.sizeMask)) = true then
          (s.cmdEngineSync time).map
            (fun q => q.twoPhaseResult (address &&& s.sizeMask) value time)
        else some (s.twoPhaseResult (address &&& s.sizeMask) value time)
      else none := by
  unfold cpuWrite
  by_cases ht : s.clock ≤ time
  · by_cases hf : s.vdp.isInsideFrame time = true
    · simp only [ht, hf, not_true_eq_false, if_false, and_self, if_true]
      split_ifs with h1 h2 h3 h4
      · rfl
      · rfl
      · rfl
      · cases hq : s.cmdEngineSync time with
        | none => rfl
        | some q =>
          simp only [Option.map_some']
          exact writeCommon_eq q _ _ _ ((cmdEngineSync_some s q time hq).2.2.2.1 ht)
      · exact writeCommon_eq s _ _ _ ht
    · simp [ht, hf]
  · simp [ht]

theorem write_cpu (s : VDPVRAM) (a v t : Nat) :
    s.write ⟨Writer.cpu, a, v, t⟩ = s.cpuWrite a v t := rfl

theorem write_cmd (s : VDPVRAM) (a v t : Nat) :
    s.write ⟨Writer.cmd, a, v, t⟩ = s.cmdWrite a v t := rfl

/-- What any successful write guarantees afterwards. -/
theorem write_some (s q : VDPVRAM) (op : WriteOp) (h : s.write op = some q) :
    s.clock ≤ op.time ∧ s.vdp.isInsideFrame op.time = true ∧
      q.config = s.config ∧ s.clock ≤ q.clock ∧ q.clock ≤ op.time ∧
      (∀ i, s.actualSize ≤ i → q.data i = s.data i) ∧
      ((¬ s.effective op.address op.value ∧ q = s) ∨
        (s.effective op.address op.value ∧ q.clock = op.time ∧
          q.data (op.address &&& s.sizeMask) = op.value)) := by
  obtain ⟨w, a, v, t⟩ := op
  cases w with
  | cmd =>
    rw [write_cmd] at h
    have ha := cmdWrite_advances s q a v t h
    obtain ⟨ht, hf, h1 | h1⟩ := cmdWrite_some s q a v t h
    · exact ⟨ht, hf, ha.config, ha.clock, cmdWrite_clock_le s q a v t h, ha.unmapped,
        Or.inl ⟨h1.2, h1.1⟩⟩
    · refine ⟨ht, hf, ha.config, ha.clock, cmdWrite_clock_le s q a v t h, ha.unmapped,
        Or.inr ⟨h1.1, ?_, ?_⟩⟩
      · rw [h1.2]; rfl
      · rw [h1.2]; exact store_same _ _ _
  | cpu =>
    rw [write_cpu, cpuWrite_eq] at h
    unfold effective
    simp only
    split_ifs at h with h1 h2 h3 h4 h5
    · simp only [Option.some.injEq] at h
      subst h
      exact ⟨h1.1, h1.2, rfl, le_refl _, h1.1, fun _ _ => rfl, Or.inl ⟨by omega, rfl⟩⟩
    · simp only [Option.some.injEq] at h
      subst h
      exact ⟨h1.1, h1.2, rfl, le_refl _, h1.1, fun _ _ => rfl,
        Or.inl ⟨fun hh => hh.2 h4, rfl⟩⟩
    · cases hq : s.cmdEngineSync t with
      | none => simp [hq] at h
      | some q0 =>
        simp only [hq, Option.map_some', Option.some.injEq] at h
        subst h
        obtain ⟨hc, _, hcl, hcu, _, hun⟩ := cmdEngineSync_some s q0 t hq
        refine ⟨h1.1, h1.2, hc, le_trans hcl (hcu h1.1), le_refl _, fun i hi => ?_,
          Or.inr ⟨⟨by omega, h4⟩, rfl, store_same _ _ _⟩⟩
        have : (q0.twoPhaseResult (a &&& s.sizeMask) v t).data i = q0.data i :=
          store_other _ _ _ _ (by omega)
        rw [this, hun i hi]
    · simp only [Option.some.injEq] at h
      subst h
      exact ⟨h1.1, h1.2, rfl, h1.1, le_refl _, fun i hi => store_other _ _ _ _ (by omega),
        Or.inr ⟨⟨by omega, h4⟩, rfl, store_same _ _ _⟩⟩

theorem write_of_not_effective (s : VDPVRAM) (op : WriteOp)
    (h : ¬ s.effective op.address op.value) :
    s.write op =
      if s.clock ≤ op.time ∧ s.vdp.isInsideFrame op.time = true ∧
          (s.actualSize ≤ op.address &&& s.sizeMask → op.address &&& s.sizeMask < 0x30000)
      then some s else none := by
  obtain ⟨w, a, v, t⟩ := op
  unfold effective at h
  simp only at h ⊢
  by_cases hm : s.actualSize ≤ a &&& s.sizeMask
  · cases w
    · rw [write_cpu, cpuWrite_eq]
      by_cases h1 : s.clock ≤ t ∧ s.vdp.isInsideFrame t = true
      · by_cases h2 : a &&& s.sizeMask < 0x30000 <;> simp [h1, hm, h2]
      · have h1b : ¬ (s.clock ≤ t ∧ s.vdp.isInsideFrame t = true ∧
            (s.actualSize ≤ a &&& s.sizeMask → a &&& s.sizeMask < 0x30000)) :=
          fun hh => h1 ⟨hh.1, hh.2.1⟩
        rw [if_neg h1, if_neg h1b]
    · rw [write_cmd, cmdWrite_eq]
      by_cases h1 : s.clock ≤ t ∧ s.vdp.isInsideFrame t = true
      · by_cases h2 : a &&& s.sizeMask < 0x30000 <;> simp [h1, hm, h2]
      · have h1b : ¬ (s.clock ≤ t ∧ s.vdp.isInsideFrame t = true ∧
            (s.actualSize ≤ a &&& s.sizeMask → a &&& s.sizeMask < 0x30000)) :=
          fun hh => h1 ⟨hh.1, hh.2.1⟩
        rw [if_neg h1, if_neg h1b]
  · have hv : s.data (a &&& s.sizeMask) = v := by
      by_contra hv
      exact h ⟨Nat.not_le.1 hm, hv⟩
    cases w
    · rw [write_cpu, cpuWrite_eq]
      by_cases h1 : s.clock ≤ t ∧ s.vdp.isInsideFrame t = true
      · simp [h1, hm, hv]
      · have h1b : ¬ (s.clock ≤ t ∧ s.vdp.isInsideFrame t = true ∧
            (s.actualSize ≤ a &&& s.sizeMask → a &&& s.sizeMask < 0x30000)) :=
          fun hh => h1 ⟨hh.1, hh.2.1⟩
        rw [if_neg h1, if_neg h1b]
    · rw [write_cmd, cmdWrite_eq]
      by_cases h1 : s.clock ≤ t ∧ s.vdp.isInsideFrame t = true
      · simp [h1, hm, hv]
      · have h1b : ¬ (s.clock ≤ t ∧ s.vdp.isInsideFrame t = true ∧
            (s.actualSize ≤ a &&& s.sizeMask → a &&& s.sizeMask < 0x30000)) :=
          fun hh => h1 ⟨hh.1, hh.2.1⟩
        rw [if_neg h1, if_neg h1b]

theorem runWrites_cons (s : VDPVRAM) (op : WriteOp) (ops : List WriteOp)
    (states : List VDPVRAM) (h : s.runWrites (op :: ops) = some states) :
    ∃ s1 rest, s.write op = some s1 ∧ s1.runWrites ops = some rest ∧ states = s1 :: rest := by
  unfold runWrites at h
  cases h1 : s.write op with
  | none => simp [h1] at h
  | some s1 =>
    simp only [h1] at h
    cases h2 : s1.runWrites ops with
    | none => simp [h2] at h
    | some rest =>
      simp only [h2, Option.some.injEq] at h
      exact ⟨s1, rest, rfl, h2, h.symm⟩

theorem runWrites_trace (ops : List WriteOp) :
    ∀ (s : VDPVRAM) (states : List VDPVRAM), s.runWrites ops = some states →
      states.length = ops.length ∧
      List.Chain (fun c1 c2 => c1 ≤ c2) s.clock (states.map (fun q => q.clock)) ∧
      ∀ q ∈ states, q.config = s.config ∧
        ∀ i, s.actualSize ≤ i → q.data i = s.data i := by
  induction ops with
  | nil =>
    intro s states h
    simp only [runWrites, Option.some.injEq] at h
    subst h
    simp
  | cons op ops ih =>
    intro s states h
    obtain ⟨s1, rest, h1, h2, rfl⟩ := runWrites_cons s op ops states h
    obtain ⟨_, _, hc, hcl, _, hun, _⟩ := write_some s s1 op h1
    obtain ⟨hlen, hchain, hall⟩ := ih s1 rest h2
    refine ⟨by simp [hlen], ?_, ?_⟩
    · simpa using And.intro hcl hchain
    · intro q hq
      rcases List.mem_cons.1 hq with rfl | hq
      · exact ⟨hc, hun⟩
      · obtain ⟨hqc, hqu⟩ := hall q hq
        refine ⟨hqc.trans hc, fun i hi => ?_⟩
        rw [hqu i (by rw [actualSize_of_config hc]; exact hi), hun i hi]

theorem cmdEngineSync_idle (s : VDPVRAM) (time : Nat) (h : s.cmdEngine = []) :
    s.cmdEngineSync time =
      some { s with log := s.log ++ [Event.cmdSync time], cmdEngine := [] } := by
  simp [cmdEngineSync, h, applyWrites]

/-- With an idle engine a write whose preconditions hold returns, and the
engine stays idle. -/
theorem write_idle (s : VDPVRAM) (op : WriteOp) (hidle : s.cmdEngine = [])
    (ht : s.clock ≤ op.time) (hf : s.vdp.isInsideFrame op.time = true)
    (hr : s.actualSize ≤ op.address &&& s.sizeMask → op.address &&& s.sizeMask < 0x30000) :
    ∃ q, s.write op = some q ∧ q.cmdEngine = [] := by
  by_cases he : s.effective op.address op.value
  · obtain ⟨w, a, v, t⟩ := op
    unfold effective at he
    simp only at he ht hf hr
    cases w
    · rw [write_cpu, cpuWrite_eq]
      simp only [ht, hf, he.2, Nat.not_le.2 he.1, and_self, if_true, if_false]
      split_ifs
      · rw [cmdEngineSync_idle s t hidle]
        exact ⟨_, rfl, rfl⟩
      · exact ⟨_, rfl, hidle⟩
    · rw [write_cmd, cmdWrite_eq]
      simp only [ht, hf, he.2, Nat.not_le.2 he.1, and_self, if_true, if_false]
      exact ⟨_, rfl, hidle⟩
  · rw [write_of_not_effective s op he, if_pos ⟨ht, hf, hr⟩]
    exact ⟨s, rfl, hidle⟩

theorem runWrites_idle (ops : List WriteOp) :
    ∀ (s : VDPVRAM), s.cmdEngine = [] →
      List.Chain (fun t1 t2 => t1 ≤ t2) s.clock (ops.map (fun op => op.time)) →
      (∀ op ∈ ops, s.vdp.isInsideFrame op.time = true ∧
        (s.actualSize ≤ op.address &&& s.sizeMask → op.address &&& s.sizeMask < 0x30000)) →
      ∃ states, s.runWrites ops = some states := by
  induction ops with
  | nil => intro s _ _ _; exact ⟨[], rfl⟩
  | cons op ops ih =>
    intro s hidle hchain hlegal
    simp only [List.map_cons, List.chain_cons] at hchain
    obtain ⟨hf, hr⟩ := hlegal op (List.mem_cons_self _ _)
    obtain ⟨q, hq, hqidle⟩ := write_idle s op hidle hchain.1 hf hr
    obtain ⟨_, _, hc, _, hcl, _, _⟩ := write_some s q op hq
    obtain ⟨rest, hrest⟩ := ih q hqidle
      (hchain.2.imp' (fun _ _ h => h) (fun _ h => le_trans hcl h))
      (fun op2 h2 => by
        rw [vdp_of_config hc, sizeMask_of_config hc, actualSize_of_config hc]
        exact hlegal op2 (List.mem_cons_of_mem _ h2))
    exact ⟨q :: rest, by simp [runWrites, hq, hrest]⟩

theorem cmdWrite_returns (s : VDPVRAM) (address value time : Nat) (ht : s.clock ≤ time)
    (hf : s.vdp.isInsideFrame time = true)
    (hr : s.actualSize ≤ address &&& s.sizeMask → address &&& s.sizeMask < 0x30000) :
    ∃ q, s.cmdWrite address value time = some q := by
  rw [cmdWrite_eq, if_pos ⟨ht, hf⟩]
  split_ifs with h1 h2 h3
  · exact ⟨_, rfl⟩
  · exact absurd (hr h1) h2
  · exact ⟨_, rfl⟩
  · exact ⟨_, rfl⟩

theorem applyWrites_returns (ws : List PendingWrite) :
    ∀ (s : VDPVRAM),
      List.Chain (fun t1 t2 => t1 ≤ t2) s.clock (ws.map (fun p => p.time)) →
      (∀ p ∈ ws, s.vdp.isInsideFrame p.time = true ∧
        (s.actualSize ≤ p.address &&& s.sizeMask → p.address &&& s.sizeMask < 0x30000)) →
      ∃ q, s.applyWrites ws = some q := by
  induction ws with
  | nil => intro s _ _; exact ⟨s, rfl⟩
  | cons p ps ih =>
    intro s hchain hlegal
    simp only [List.map_cons, List.chain_cons] at hchain
    obtain ⟨hf, hr⟩ := hlegal p (List.mem_cons_self _ _)
    obtain ⟨s1, h1⟩ := cmdWrite_returns s p.address p.value p.time hchain.1 hf hr
    have hc := (cmdWrite_advances s s1 _ _ _ h1).config
    obtain ⟨q, hq⟩ := ih s1
      (hchain.2.imp' (fun _ _ h => h) (fun _ h => le_trans (cmdWrite_clock_le s s1 _ _ _ h1) h))
      (fun p2 h2 => by
        rw [vdp_of_config hc, sizeMask_of_config hc, actualSize_of_config hc]
        exact hlegal p2 (List.mem_cons_of_mem _ h2))
    exact ⟨q, by simp [applyWrites, h1, hq]⟩

/-- The engine sync returns when the engine is on time. -/
theorem cmdEngineSync_returns (s : VDPVRAM) (time : Nat) (h : s.engineOnTime time) :
    ∃ q, s.cmdEngineSync time = some q := by
  unfold cmdEngineSync
  exact applyWrites_returns _ _ h.1 h.2

theorem cmdWrite_data (s q : VDPVRAM) (address value time : Nat)
    (h : s.cmdWrite address value time = some q) (a : Nat) (ha : a < s.actualSize) :
    q.data a = if address &&& s.sizeMask = a then value else s.data a := by
  obtain ⟨_, _, h1 | h1⟩ := cmdWrite_some s q address value time h
  · rw [h1.1]
    split_ifs with hc
    · by_contra hne
      exact h1.2 ⟨by rw [hc]; exact ha, by rw [hc]; exact hne⟩
    · rfl
  · rw [h1.2]
    split_ifs with hc
    · rw [hc]; exact store_same _ _ _
    · exact store_other _ _ _ _ (fun hh => hc hh.symm)

theorem applyWrites_data (ws : List PendingWrite) :
    ∀ (s q : VDPVRAM), s.applyWrites ws = some q → ∀ a, a < s.actualSize →
      q.data a = (lastWriteTo s.sizeMask a ws).getD (s.data a) := by
  induction ws with
  | nil =>
    intro s q h a _
    simp only [applyWrites, Option.some.injEq] at h
    subst h
    rfl
  | cons p ps ih =>
    intro s q h a ha
    unfold applyWrites at h
    cases h1 : s.cmdWrite p.address p.value p.time with
    | none => simp [h1] at h
    | some s1 =>
      simp only [h1] at h
      have hc := (cmdWrite_advances s s1 _ _ _ h1).config
      have hq := ih s1 q h a (by rw [actualSize_of_config hc]; exact ha)
      rw [sizeMask_of_config hc, cmdWrite_data s s1 _ _ _ h1 a ha] at hq
      rw [hq]
      simp only [lastWriteTo]
      cases hl : lastWriteTo s.sizeMask a ps with
      | some v => rfl
      | none =>
        simp only [Option.getD_none]
        split_ifs <;> rfl

theorem cmdEngineSync_data (s q : VDPVRAM) (time : Nat)
    (h : s.cmdEngineSync time = some q) (a : Nat) (ha : a < s.actualSize) :
    q.data a = (lastWriteTo s.sizeMask a (s.dueWrites time)).getD (s.data a) := by
  unfold cmdEngineSync at h
  exact applyWrites_data _ _ q h a ha

theorem cpuRead_eq (s : VDPVRAM) (address time : Nat) :
    s.cpuRead address time =
      if s.clock ≤ time ∧ s.vdp.isInsideFrame time = true then
        if s.cmdWriteWindow.isInside (address &&& s.sizeMask) = true then
          (s.cmdEngineSync time).map (fun q => (q.data (address &&& s.sizeMask), q))
        else some (s.data (address &&& s.sizeMask), s)
      else none := by
  unfold cpuRead
  by_cases ht : s.clock ≤ time
  · by_cases hf : s.vdp.isInsideFrame time = true
    · simp only [ht, hf, not_true_eq_false, if_false, and_self, if_true]
      split_ifs
      · cases s.cmdEngineSync time <;> rfl
      · rfl
    · simp [ht, hf]
  · simp [ht]

theorem syncTimes_twoPhaseResult (q : VDPVRAM) (a v t : Nat) :
    syncTimes (q.twoPhaseResult a v t).log = syncTimes q.log := by
  simp [twoPhaseResult, syncTimes_append, syncTimes_preCommitCalls,
    syncTimes_postCommitCalls]

theorem writeCommon_none (s : VDPVRAM) (a v t : Nat) (ht : ¬ s.clock ≤ t) :
    s.writeCommon a v t = none := by
  simp [writeCommon, Clock.advance, ht]

end VDPVRAM

/-! The claims about `VRAMWindow`. -/

/-- C8: for an enabled window whose fields are as `setMask` leaves them and
every 32-bit address, the O(1) test `isInside` holds exactly when some index
is mapped to the address by `baseMask & (indexMask | index)`, and it agrees
with the brute-force membership table over any sample `[0, sample)` of
indices that reaches past the address. -/
theorem isInside_eq_bruteForceInside (w : VRAMWindow) (hc : w.MasksCommitted)
    (he : w.isEnabled = true) (addr sample : Nat) (haddr : addr < 2 ^ 32)
    (hs : addr < sample) :
    (w.isInside addr = true ↔
        ∃ index, index < 2 ^ 32 ∧ w.baseMask &&& (w.indexMask ||| index) = addr) ∧
      w.isInside addr = w.bruteForceInside sample addr := by
  constructor
  · constructor
    · intro h
      exact ⟨addr, haddr, VRAMWindow.readAreaAddr_self_of_inside w hc he addr haddr h⟩
    · rintro ⟨index, _, hi⟩
      exact (VRAMWindow.isInside_iff_exists_index w hc he addr haddr).2 ⟨index, hi⟩
  · rw [Bool.eq_iff_iff, VRAMWindow.bruteForceInside_iff]
    constructor
    · intro h
      exact ⟨addr, hs, VRAMWindow.readAreaAddr_self_of_inside w hc he addr haddr h⟩
    · rintro ⟨index, _, hi⟩
      exact (VRAMWindow.isInside_iff_exists_index w hc he addr haddr).2 ⟨index, hi⟩

/-- Witness of C8 on the 1 kB name table at `0x1800`: address `0x1900` is
inside, address `0x1C00` is not, and the table built from the indices below
`0x2000` says the same. -/
theorem isInside_eq_bruteForceInside_witness :
    (nameTableAt1800.isInside 0x1900 = true ↔
        ∃ index, index < 2 ^ 32 ∧
          nameTableAt1800.baseMask &&& (nameTableAt1800.indexMask ||| index) = 0x1900) ∧
      nameTableAt1800.isInside 0x1900 = nameTableAt1800.bruteForceInside 0x2000 0x1900 :=
  isInside_eq_bruteForceInside nameTableAt1800
    (VRAMWindow.setMask_masksCommitted _ _ _ _ _ (by intro h; exact absurd h (by decide)))
    (by decide) 0x1900 0x2000 (by norm_num) (by norm_num)

/-- C9: after `disable`, whatever masks the window held and whichever
observer is attached or detached afterwards, the window is not enabled,
`isInside addr` is false for every address, and `notify` for it calls no
observer. An address is a 32-bit pattern below `0xFFFFFFFF`: that pattern is
the sentinel `-1` itself, which is out of the range of addresses (the VRAM
masks every address with `sizeMask` before it reaches a window). -/
theorem disabled_isInside_false (w : VRAMWindow) (time : Nat) (log : List Event)
    (addr : Nat) (haddr : addr < 2 ^ 32 - 1) :
    (w.disable time log).1.isEnabled = false ∧
      (w.disable time log).1.isInside addr = false ∧
      (∀ o, ((w.disable time log).1.setObserver o).isInside addr = false) ∧
      (w.disable time log).1.resetObserver.isInside addr = false ∧
      (∀ data t l, (w.disable time log).1.notify data addr t l = l) ∧
      (∀ o data t l, ((w.disable time log).1.setObserver o).notify data addr t l = l) := by
  have hd : (w.disable time log).1.isEnabled = false := by
    simp [VRAMWindow.disable, VRAMWindow.isEnabled]
  have hi := VRAMWindow.isInside_false_of_disabled _ hd addr haddr
  have hio : ∀ o, ((w.disable time log).1.setObserver o).isInside addr = false := fun o =>
    VRAMWindow.isInside_false_of_disabled _
      (by simp [VRAMWindow.disable, VRAMWindow.isEnabled, VRAMWindow.setObserver]) addr haddr
  refine ⟨hd, hi, hio, ?_, ?_, ?_⟩
  · exact VRAMWindow.isInside_false_of_disabled _
      (by simp [VRAMWindow.disable, VRAMWindow.isEnabled, VRAMWindow.resetObserver]) addr haddr
  · intro data t l
    exact VRAMWindow.notify_of_not_inside _ _ _ _ _ hi
  · intro o data t l
    exact VRAMWindow.notify_of_not_inside _ _ _ _ _ (hio o)

/-- Witness of C9: the name table at `0x1800`, once disabled, no
longer contains `0x1900`. -/
theorem disabled_isInside_false_witness :
    (0x1900 : Nat) < 2 ^ 32 - 1 ∧
      (nameTableAt1800.disable 9 []).1.isInside 0x1900 = false :=
  ⟨by norm_num, (disabled_isInside_false nameTableAt1800 9 [] 0x1900 (by norm_num)).2.1⟩

/-- C10: `setMask(b, i, time)` with `b' = b & sizeMask`, on a window whose
mirroring mask `sizeMask` is not `-1`. If the window is enabled and holds
`b'` and `i` already, the window and the log are unchanged. Otherwise the
attached observer, if any, gets exactly one `updateWindow(true, time)` and
finds the window with its old fields, and afterwards `baseMask = b'`,
`indexMask = i`, `baseAddr = b' & i`, `combiMask = ~b' | i` and the window is
enabled. In both cases repeating the call changes nothing and calls nobody. -/
theorem setMask_contract (w : VRAMWindow) (b i time : Nat) (log : List Event)
    (hsz : w.sizeMask < minusOne) :
    (w.isEnabled = true ∧ b &&& w.sizeMask = w.baseMask ∧ i = w.indexMask →
        w.setMask b i time log = (w, log)) ∧
      (¬ (w.isEnabled = true ∧ b &&& w.sizeMask = w.baseMask ∧ i = w.indexMask) →
        w.setMask b i time log =
          ({ w with
              baseMask := b &&& w.sizeMask
              indexMask := i
              baseAddr := (b &&& w.sizeMask) &&& i
              combiMask := not32 (b &&& w.sizeMask) ||| i },
            log ++ (match w.observer with
              | some o => [Event.updateWindow o true time w]
              | none => []))) ∧
      (w.setMask b i time log).1.isEnabled = true ∧
      (∀ time2 log2, (w.setMask b i time log).1.setMask b i time2 log2 =
        ((w.setMask b i time log).1, log2)) := by
  have key : (w.setMask b i time log).1.isEnabled = true ∧
      b &&& (w.setMask b i time log).1.sizeMask = (w.setMask b i time log).1.baseMask ∧
      i = (w.setMask b i time log).1.indexMask := by
    by_cases h : w.isEnabled = true ∧ b &&& w.sizeMask = w.baseMask ∧ i = w.indexMask
    · rw [VRAMWindow.setMask_of_unchanged w b i time log h]
      exact h
    · rw [VRAMWindow.setMask_of_changed w b i time log h]
      refine ⟨?_, rfl, rfl⟩
      simpa [VRAMWindow.isEnabled] using VRAMWindow.and_and_ne_minusOne b i w.sizeMask hsz
  exact ⟨VRAMWindow.setMask_of_unchanged w b i time log,
    VRAMWindow.setMask_of_changed w b i time log, key.1,
    fun time2 log2 => VRAMWindow.setMask_of_unchanged _ b i time2 log2 key⟩

/-- Witness of C10: the first `setMask` on a fresh window calls observer 1
once, showing it the still disabled window, and enables the window; the
same call again is a no-op. -/
theorem setMask_contract_witness :
    (freshWindow WindowId.nameTable 0x1FFFF).sizeMask < minusOne ∧
      ((freshWindow WindowId.nameTable 0x1FFFF).setMask 0x1BFF 0xFFFFFC00 7 []).2 =
        [Event.updateWindow 1 true 7 (freshWindow WindowId.nameTable 0x1FFFF)] ∧
      nameTableAt1800.isEnabled = true ∧
      nameTableAt1800.setMask 0x1BFF 0xFFFFFC00 8 [] = (nameTableAt1800, []) :=
  ⟨by decide, by decide,
    (setMask_contract (freshWindow WindowId.nameTable 0x1FFFF) 0x1BFF 0xFFFFFC00 7 []
      (by decide)).2.2.1,
    (setMask_contract (freshWindow WindowId.nameTable 0x1FFFF) 0x1BFF 0xFFFFFC00 7 []
      (by decide)).2.2.2 8 []⟩

/-! The claims about `VDPVRAM`. -/

/-- C1: an effective write (masked address mapped, value different from the
stored byte, preconditions met) goes through the two-phase protocol:
`cmdWrite` on the state it finds, `cpuWrite` on the state it finds or, when
the address is inside one of the engine's windows, on the state the engine
sync leaves. In that state `q` the log grows by the calls of the
bitmap-visible window, the sprite-attribute table and the sprite-pattern
table, in this order, each made only if the window has an observer and
contains the address and each seeing the old byte; then the byte is stored
and the clock set; then come the calls of the bitmap-cache window and the
name, colour and pattern tables, each seeing the new byte. Nothing else is
called. -/
theorem effective_write_two_phase (s : VDPVRAM) (address value time : Nat)
    (hmap : address &&& s.sizeMask < s.actualSize)
    (hne : s.data (address &&& s.sizeMask) ≠ value)
    (ht : s.clock ≤ time) (hf : s.vdp.isInsideFrame time = true) :
    s.cmdWrite address value time =
        some (s.twoPhaseResult (address &&& s.sizeMask) value time) ∧
      ((s.cmdReadWindow.isInside (address &&& s.sizeMask) ||
          s.cmdWriteWindow.isInside (address &&& s.sizeMask)) = false →
        s.cpuWrite address value time =
          some (s.twoPhaseResult (address &&& s.sizeMask) value time)) ∧
      ((s.cmdReadWindow.isInside (address &&& s.sizeMask) ||
          s.cmdWriteWindow.isInside (address &&& s.sizeMask)) = true →
        s.cpuWrite address value time =
          (s.cmdEngineSync time).map
            (fun q => q.twoPhaseResult (address &&& s.sizeMask) value time)) ∧
      (∀ (q : VDPVRAM) (a : Nat), q.clock ≤ time →
        q.writeCommon a value time = some (q.twoPhaseResult a value time) ∧
        (q.twoPhaseResult a value time).data a = value ∧
        (q.twoPhaseResult a value time).clock = time ∧
        (q.twoPhaseResult a value time).log =
          q.log ++
            (q.bitmapVisibleWindow.notifyCalls a time (q.data a) ++
              q.spriteAttribTable.notifyCalls a time (q.data a) ++
              q.spritePatternTable.notifyCalls a time (q.data a)) ++
            (q.bitmapCacheWindow.notifyCalls a time value ++
              q.nameTable.notifyCalls a time value ++
              q.colourTable.notifyCalls a time value ++
              q.patternTable.notifyCalls a time value)) := by
  refine ⟨?_, ?_, ?_, ?_⟩
  · rw [VDPVRAM.cmdWrite_eq]
    simp [ht, hf, hne, Nat.not_le.2 hmap]
  · intro hin
    rw [VDPVRAM.cpuWrite_eq]
    simp only [ht, hf, hne, Nat.not_le.2 hmap, hin, and_self, if_true, if_false]
    simp
  · intro hin
    rw [VDPVRAM.cpuWrite_eq]
    simp only [ht, hf, hne, Nat.not_le.2 hmap, hin, and_self, if_true, if_false]
  · intro q a hq
    refine ⟨VDPVRAM.writeCommon_eq q a value time hq, VDPVRAM.store_same _ _ _, rfl, ?_⟩
    simp [VDPVRAM.twoPhaseResult, VDPVRAM.preCommitCalls, VDPVRAM.postCommitCalls,
      List.append_assoc]

/-- Witness of C1 on the 128 kB VRAM: writing 7 over the 5 at `0x1900` tells
the sprite attribute table before the commit (it sees 5) and the name table
after it (it sees 7), both at offset `0x100`. -/
theorem effective_write_two_phase_witness :
    vram128k.cmdWrite 0x1900 7 10 = some (vram128k.twoPhaseResult 0x1900 7 10) ∧
      (vram128k.twoPhaseResult 0x1900 7 10).log =
        [Event.updateVRAM WindowId.spriteAttribTable 1 0x100 10 5,
          Event.updateVRAM WindowId.nameTable 1 0x100 10 7] :=
  ⟨(effective_write_two_phase vram128k 0x1900 7 10 (by decide) (by decide) (by decide)
      rfl).1, by decide⟩

/-- C2: a `cpuWrite` or `cmdWrite` of the byte already stored at the (mapped)
masked address returns the state it found: no hook call, no engine sync, no
change of data or clock (it aborts only on a failed precondition). Hence,
whatever the state, the address, the value and the two writers, when a write
of `value` at `t1` has returned, a second write of `value` to the same address
at a time `t2 ≥ t1` inside the frame returns the state the first one left. -/
theorem same_value_write_noop (s : VDPVRAM) (w1 w2 : VDPVRAM.Writer) (address value t1 t2 : Nat) :
    (address &&& s.sizeMask < s.actualSize → s.data (address &&& s.sizeMask) = value →
        s.write ⟨w1, address, value, t1⟩ =
          if s.clock ≤ t1 ∧ s.vdp.isInsideFrame t1 = true then some s else none) ∧
      (t1 ≤ t2 → s.vdp.isInsideFrame t2 = true →
        ∀ q, s.write ⟨w1, address, value, t1⟩ = some q →
          q.write ⟨w2, address, value, t2⟩ = some q) := by
  constructor
  · intro hmap heq
    rw [VDPVRAM.write_of_not_effective s _ (fun hh => hh.2 heq)]
    by_cases h1 : s.clock ≤ t1 ∧ s.vdp.isInsideFrame t1 = true
    · rw [if_pos h1, if_pos ⟨h1.1, h1.2, fun hh => absurd hmap (Nat.not_lt.2 hh)⟩]
    · rw [if_neg h1, if_neg (fun hh => h1 ⟨hh.1, hh.2.1⟩)]
  · intro ht hf q hq
    obtain ⟨hs1, hs2, hc, _, hcl, _, hcase⟩ := VDPVRAM.write_some s q _ hq
    simp only at hs1 hs2 hcl hcase
    have hsz := VDPVRAM.sizeMask_of_config hc
    have hac := VDPVRAM.actualSize_of_config hc
    have hvdp := VDPVRAM.vdp_of_config hc
    have hne : ¬ q.effective address value := by
      unfold VDPVRAM.effective
      rw [hsz, hac]
      rcases hcase with ⟨h1, h2⟩ | ⟨_, _, h2⟩
      · subst h2; exact h1
      · exact fun hh => hh.2 h2
    rw [VDPVRAM.write_of_not_effective q _ hne]
    simp only
    rw [if_pos]
    refine ⟨le_trans hcl ht, by rw [hvdp]; exact hf, ?_⟩
    rw [hsz, hac]
    intro hge
    rcases hcase with ⟨_, h2⟩ | ⟨h1, _, _⟩
    · subst h2
      have := VDPVRAM.write_of_not_effective q ⟨w1, address, value, t1⟩
        (by unfold VDPVRAM.effective; simp only; omega)
      rw [this] at hq
      simp only at hq
      split_ifs at hq with h3
      exact h3.2.2 hge
    · exact absurd h1.1 (Nat.not_lt.2 hge)

/-- Witness of C2: on the 128 kB VRAM, the CPU writes 7 to `0x1900` at time 10
and the same byte again at time 12; the second call returns the state the
first one left, whose log holds the two calls of the first write only. -/
theorem same_value_write_noop_witness :
    (vram128k.cpuWrite 0x1900 7 10).bind (fun q => q.cpuWrite 0x1900 7 12) =
        vram128k.cpuWrite 0x1900 7 10 ∧
      (vram128k.cpuWrite 0x1900 7 10).map (fun q => (q.clock, q.log.length)) =
        some (10, 3) := by
  refine ⟨?_, by decide⟩
  cases hq : vram128k.cpuWrite 0x1900 7 10 with
  | none => rfl
  | some q =>
    exact (same_value_write_noop vram128k VDPVRAM.Writer.cpu VDPVRAM.Writer.cpu 0x1900 7 10 12).2
      (by decide) rfl q hq

/-- C3: a `cpuWrite` or `cmdWrite` whose masked address is at or above
`actualSize` returns the state it found (or aborts on a failed precondition):
no byte, no hook call, no engine sync, no clock change. And in every sequence
of writes, no state ever differs from the first one at an index at or above
`actualSize`. -/
theorem unmapped_write_dropped (s : VDPVRAM) (w : VDPVRAM.Writer) (address value time : Nat)
    (hun : s.actualSize ≤ address &&& s.sizeMask) :
    s.write ⟨w, address, value, time⟩ =
        (if s.clock ≤ time ∧ s.vdp.isInsideFrame time = true ∧
            address &&& s.sizeMask < 0x30000
          then some s else none) ∧
      (∀ (ops : List VDPVRAM.WriteOp) (states : List VDPVRAM), s.runWrites ops = some states →
        ∀ q ∈ states, ∀ i, s.actualSize ≤ i → q.data i = s.data i) := by
  constructor
  · rw [VDPVRAM.write_of_not_effective s _
      (by unfold VDPVRAM.effective; simp only; omega)]
    simp only
    by_cases h1 : s.clock ≤ time ∧ s.vdp.isInsideFrame time = true ∧
        address &&& s.sizeMask < 0x30000
    · rw [if_pos h1, if_pos ⟨h1.1, h1.2.1, fun _ => h1.2.2⟩]
    · rw [if_neg h1, if_neg (fun hh => h1 ⟨hh.1, hh.2.1, hh.2.2 hun⟩)]
  · intro ops states h q hq i hi
    exact ((VDPVRAM.runWrites_trace ops s states h).2.2 q hq).2 i hi

/-- Witness of C3, the scenario of the spec: 16 kB of VRAM behind a 32 kB
mirror mask. A write to `0x5000` returns the state unchanged, so `data[0x1000]`
still holds 5 and the log is still empty, although every window spans the
VRAM and is observed. -/
theorem unmapped_write_dropped_witness :
    vram16k.cpuWrite 0x5000 7 10 = some vram16k ∧
      vram16k.cmdWrite 0x5000 7 10 = some vram16k ∧
      vram16k.data 0x1000 = 5 ∧ vram16k.log = [] :=
  ⟨(unmapped_write_dropped vram16k VDPVRAM.Writer.cpu 0x5000 7 10 (by decide)).1,
    by rw [VDPVRAM.cmdWrite_eq]; rfl, rfl, rfl⟩

/-- C4 (with `Clock::advance` as the spec describes it): in every sequence of
`cpuWrite` and `cmdWrite` calls that returns, the clock after each call is at
least the clock before it; a call that returns leaves the clock at its own
time if it was effective and leaves the clock alone if it was dropped or
wrote the stored value; and the sequence does return when its times are
non-decreasing and not before the clock, lie inside the frame, its unmapped
addresses are below `0x30000` and the engine has nothing pending. -/
theorem clock_never_moves_back (s : VDPVRAM) (ops : List VDPVRAM.WriteOp) :
    (∀ states, s.runWrites ops = some states →
        states.length = ops.length ∧
        List.Chain (fun c1 c2 => c1 ≤ c2) s.clock (states.map (fun q => q.clock))) ∧
      (∀ (q r : VDPVRAM) (op : VDPVRAM.WriteOp), q.write op = some r →
        q.clock ≤ op.time ∧
        (q.effective op.address op.value → r.clock = op.time) ∧
        (¬ q.effective op.address op.value → r.clock = q.clock)) ∧
      (List.Chain (fun t1 t2 => t1 ≤ t2) s.clock (ops.map (fun op => op.time)) →
        (∀ op ∈ ops, s.vdp.isInsideFrame op.time = true ∧
          (s.actualSize ≤ op.address &&& s.sizeMask →
            op.address &&& s.sizeMask < 0x30000)) →
        s.cmdEngine = [] →
        ∃ states, s.runWrites ops = some states) := by
  refine ⟨fun states h => ?_, fun q r op h => ?_, fun hchain hlegal hidle => ?_⟩
  · obtain ⟨h1, h2, _⟩ := VDPVRAM.runWrites_trace ops s states h
    exact ⟨h1, h2⟩
  · obtain ⟨ht, _, _, _, _, _, hcase⟩ := VDPVRAM.write_some q r op h
    refine ⟨ht, fun he => ?_, fun he => ?_⟩
    · rcases hcase with ⟨h1, _⟩ | ⟨_, h2, _⟩
      · exact absurd he h1
      · exact h2
    · rcases hcase with ⟨_, h2⟩ | ⟨h1, _, _⟩
      · rw [h2]
      · exact absurd h1 he
  · exact VDPVRAM.runWrites_idle ops s hidle hchain hlegal

/-- Witness of C4 on the 128 kB VRAM: an effective CPU write at 10, the same
byte again from the engine at 11 (no commit) and an effective engine write at
12 leave the clock at 10, 10 and 12. -/
theorem clock_never_moves_back_witness :
    (∃ states, vram128k.runWrites
        [⟨VDPVRAM.Writer.cpu, 0x1900, 7, 10⟩, ⟨VDPVRAM.Writer.cmd, 0x1900, 7, 11⟩,
          ⟨VDPVRAM.Writer.cmd, 0x1901, 8, 12⟩] = some states) ∧
      (vram128k.runWrites
        [⟨VDPVRAM.Writer.cpu, 0x1900, 7, 10⟩, ⟨VDPVRAM.Writer.cmd, 0x1900, 7, 11⟩,
          ⟨VDPVRAM.Writer.cmd, 0x1901, 8, 12⟩]).map
          (fun states => states.map (fun q => q.clock)) = some [10, 10, 12] :=
  ⟨(clock_never_moves_back vram128k
      [⟨VDPVRAM.Writer.cpu, 0x1900, 7, 10⟩, ⟨VDPVRAM.Writer.cmd, 0x1900, 7, 11⟩,
        ⟨VDPVRAM.Writer.cmd, 0x1901, 8, 12⟩]).2.2
      (by simp [vram128k]) (by decide) rfl, by decide⟩

/-- C5: `cpuRead(address, time)` with its preconditions met. If the masked
address is outside the engine's write window, the call returns the stored
byte and the state it found (no sync, no hook call, no change). If it is
inside, the call is the engine's `sync(time)` followed by the read of the
byte in the state the sync leaves, and nothing more. That sync logs
`cmdSync time` before anything else, takes the due writes off the queue, and
for a mapped address leaves there the value of the last due write to it, or
the old byte if no due write goes there. The call returns whenever the engine
is on time. -/
theorem cpuRead_syncs_then_reads (s : VDPVRAM) (address time : Nat)
    (ht : s.clock ≤ time) (hf : s.vdp.isInsideFrame time = true) :
    (s.cmdWriteWindow.isInside (address &&& s.sizeMask) = false →
        s.cpuRead address time = some (s.data (address &&& s.sizeMask), s)) ∧
      (s.cmdWriteWindow.isInside (address &&& s.sizeMask) = true →
        s.cpuRead address time =
          (s.cmdEngineSync time).map (fun q => (q.data (address &&& s.sizeMask), q))) ∧
      (∀ q, s.cmdEngineSync time = some q →
        (∃ calls, q.log = s.log ++ Event.cmdSync time :: calls ∧
          VDPVRAM.syncTimes calls = []) ∧
        q.cmdEngine = s.cmdEngine.filter (fun p => ¬ p.time ≤ time) ∧
        q.clock ≤ time ∧
        (address &&& s.sizeMask < s.actualSize →
          q.data (address &&& s.sizeMask) =
            (VDPVRAM.lastWriteTo s.sizeMask (address &&& s.sizeMask)
              (s.dueWrites time)).getD (s.data (address &&& s.sizeMask)))) ∧
      (s.engineOnTime time → ∃ r, s.cpuRead address time = some r) := by
  refine ⟨fun hin => ?_, fun hin => ?_, fun q hq => ?_, fun hon => ?_⟩
  · rw [VDPVRAM.cpuRead_eq]
    simp [ht, hf, hin]
  · rw [VDPVRAM.cpuRead_eq]
    simp [ht, hf, hin]
  · obtain ⟨_, he, _, hcl, hlog, _⟩ := VDPVRAM.cmdEngineSync_some s q time hq
    exact ⟨hlog, he, hcl ht, fun ha => VDPVRAM.cmdEngineSync_data s q time hq _ ha⟩
  · obtain ⟨q, hq⟩ := VDPVRAM.cmdEngineSync_returns s time hon
    rw [VDPVRAM.cpuRead_eq, if_pos ⟨ht, hf⟩, hq]
    split_ifs
    · exact ⟨_, rfl⟩
    · exact ⟨_, rfl⟩

/-- Witness of C5, the scenario of the spec: the engine has the byte 9 for
`0x100` pending at time 50; `cpuRead(0x100, 60)` syncs the engine to 60 and
returns 9, not the stale 5. -/
theorem cpuRead_syncs_then_reads_witness :
    vram128kPending.cpuRead 0x100 60 =
        (vram128kPending.cmdEngineSync 60).map (fun q => (q.data (0x100 &&& 0x1FFFF), q)) ∧
      (vram128kPending.cpuRead 0x100 60).map (fun r => (r.1, r.2.log, r.2.cmdEngine)) =
        some (9, [Event.cmdSync 60], []) :=
  ⟨(cpuRead_syncs_then_reads vram128kPending 0x100 60 (by decide) rfl).2.1 (by decide),
    by decide⟩

/-- C6: an effective `cpuWrite` with its preconditions met calls the engine's
`sync` once, with the write's time, if the masked address is inside
`cmdReadWindow` or `cmdWriteWindow`, and not at all otherwise. When it syncs,
`cmdSync time` is logged before everything else the call does, and the
two-phase commit then runs on the state the sync leaves. `cmdWrite` never
calls `sync`. The call returns whenever the engine is on time. -/
theorem cpuWrite_syncs_iff_engine_window (s : VDPVRAM) (address value time : Nat)
    (hmap : address &&& s.sizeMask < s.actualSize)
    (hne : s.data (address &&& s.sizeMask) ≠ value)
    (ht : s.clock ≤ time) (hf : s.vdp.isInsideFrame time = true) :
    (∀ q, s.cpuWrite address value time = some q →
        VDPVRAM.syncTimes q.log = VDPVRAM.syncTimes s.log ++
          (if (s.cmdReadWindow.isInside (address &&& s.sizeMask) ||
              s.cmdWriteWindow.isInside (address &&& s.sizeMask)) = true
            then [time] else [])) ∧
      ((s.cmdReadWindow.isInside (address &&& s.sizeMask) ||
          s.cmdWriteWindow.isInside (address &&& s.sizeMask)) = true →
        ∀ q0, s.cmdEngineSync time = some q0 →
          (∃ calls, q0.log = s.log ++ Event.cmdSync time :: calls ∧
            VDPVRAM.syncTimes calls = []) ∧
          s.cpuWrite address value time =
            some (q0.twoPhaseResult (address &&& s.sizeMask) value time)) ∧
      ((s.cmdReadWindow.isInside (address &&& s.sizeMask) ||
          s.cmdWriteWindow.isInside (address &&& s.sizeMask)) = false →
        s.cpuWrite address value time =
          some (s.twoPhaseResult (address &&& s.sizeMask) value time)) ∧
      (∀ (r r2 : VDPVRAM) (a v t : Nat), r.cmdWrite a v t = some r2 →
        VDPVRAM.syncTimes r2.log = VDPVRAM.syncTimes r.log) ∧
      (s.engineOnTime time → ∃ q, s.cpuWrite address value time = some q) := by
  have hcpu := VDPVRAM.cpuWrite_eq s address value time
  simp only [ht, hf, hne, Nat.not_le.2 hmap, and_self, if_true, if_false] at hcpu
  refine ⟨fun q hq => ?_, fun hin q0 hq0 => ?_, fun hin => ?_, fun r r2 a v t h => ?_,
    fun hon => ?_⟩
  · rw [hcpu] at hq
    split_ifs at hq with hin
    · cases hq0 : s.cmdEngineSync time with
      | none => simp [hq0] at hq
      | some q0 =>
        simp only [hq0, Option.map_some', Option.some.injEq] at hq
        obtain ⟨_, _, _, _, ⟨calls, hl, hs⟩, _⟩ := VDPVRAM.cmdEngineSync_some s q0 time hq0
        rw [← hq, VDPVRAM.syncTimes_twoPhaseResult, hl, VDPVRAM.syncTimes_append, if_pos hin]
        simp [VDPVRAM.syncTimes, hs]
    · simp only [Option.some.injEq] at hq
      rw [← hq, VDPVRAM.syncTimes_twoPhaseResult, if_neg hin]
      simp
  · obtain ⟨_, _, _, _, hlog, _⟩ := VDPVRAM.cmdEngineSync_some s q0 time hq0
    refine ⟨hlog, ?_⟩
    rw [hcpu, if_pos hin, hq0]
    rfl
  · rw [hcpu, if_neg (by simp [hin])]
  · obtain ⟨calls, hl, hs⟩ := (VDPVRAM.cmdWrite_advances r r2 a v t h).log
    rw [hl, VDPVRAM.syncTimes_append, hs]
    simp
  · obtain ⟨q0, hq0⟩ := VDPVRAM.cmdEngineSync_returns s time hon
    rw [hcpu, hq0]
    split_ifs
    · exact ⟨_, rfl⟩
    · exact ⟨_, rfl⟩

/-- Witness of C6 on the 128 kB VRAM with a pending engine write: the CPU
writes 7 to `0x1900`, which is inside the engine's write window; the log shows
the sync first, then the pre-commit call, then the post-commit call. -/
theorem cpuWrite_syncs_iff_engine_window_witness :
    (∀ q, vram128kPending.cpuWrite 0x1900 7 60 = some q →
        VDPVRAM.syncTimes q.log = VDPVRAM.syncTimes vram128kPending.log ++
          (if (vram128kPending.cmdReadWindow.isInside (0x1900 &&& vram128kPending.sizeMask) ||
              vram128kPending.cmdWriteWindow.isInside
                (0x1900 &&& vram128kPending.sizeMask)) = true
            then [60] else [])) ∧
      (vram128kPending.cpuWrite 0x1900 7 60).map (fun q => q.log) =
        some [Event.cmdSync 60,
          Event.updateVRAM WindowId.spriteAttribTable 1 0x100 60 5,
          Event.updateVRAM WindowId.nameTable 1 0x100 60 7] :=
  ⟨(cpuWrite_syncs_iff_engine_window vram128kPending 0x1900 7 60 (by decide) (by decide)
      (by decide) rfl).1, by decide⟩

/-- C7 fails on the code. The 128 kB VRAM holds 5 at `0x100` and the engine has
the byte 9 pending for `0x100` at time 50. The CPU writes 5 to `0x100` at time
60: the stored byte already is 5, so `cpuWrite` returns before syncing the
engine. The CPU read at time 70 then syncs the engine, which delivers its
write of time 50, and the read returns 9: the earlier engine write has
overwritten the later CPU write. -/
theorem cpuWrite_same_value_skips_sync :
    (vram128kPending.cpuWrite 0x100 5 60).map (fun q => (q.log, q.cmdEngine)) =
        some ([], [{ time := 50, address := 0x100, value := 9 }]) ∧
      (vram128kPending.cpuWrite 0x100 5 60).bind
          (fun q => (q.cpuRead 0x100 70).map (fun r => r.1)) = some 9 := by
  decide

/-! Further claims about `VRAMWindow`. -/

theorem add_eq_or_of_and_eq_zero (x y : Nat) (h : x &&& y = 0) : x + y = x ||| y := by
  have hx : x < 2 ^ (x + y) :=
    lt_of_lt_of_le (Nat.lt_two_pow x) (Nat.pow_le_pow_right (by norm_num) (by omega))
  have hy : y < 2 ^ (x + y) :=
    lt_of_lt_of_le (Nat.lt_two_pow y) (Nat.pow_le_pow_right (by norm_num) (by omega))
  have hz : BitVec.ofNat (x + y) x &&& BitVec.ofNat (x + y) y = 0#(x + y) := by
    apply BitVec.eq_of_toNat_eq
    simp [BitVec.toNat_and, BitVec.toNat_ofNat, Nat.mod_eq_of_lt hx, Nat.mod_eq_of_lt hy, h]
  have h1 := BitVec.toNat_add_of_and_eq_zero hz
  rw [BitVec.add_eq_or_of_and_eq_zero _ _ hz] at h1
  simpa [BitVec.toNat_or, BitVec.toNat_ofNat, Nat.mod_eq_of_lt hx, Nat.mod_eq_of_lt hy]
    using h1.symm

namespace VRAMWindow

/-- For an inside address of an enabled, committed window the subtraction
`addr - baseAddr` does not wrap and yields an index mapped back to `addr`. -/
theorem inside_offset (w : VRAMWindow) (hc : w.MasksCommitted) (he : w.isEnabled = true)
    (addr : Nat) (haddr : addr < 2 ^ 32) (hin : w.isInside addr = true) :
    w.baseAddr ≤ addr ∧ sub32 addr w.baseAddr = addr - w.baseAddr ∧
      w.readAreaAddr (addr - w.baseAddr) = addr := by
  obtain ⟨hb, hm⟩ := hc he
  rw [isInside_iff, hm, hb] at hin
  have hbit : ∀ k, (addr.testBit k && ((decide (k < 32) && !w.baseMask.testBit k) ||
      w.indexMask.testBit k)) = (w.baseMask.testBit k && w.indexMask.testBit k) := by
    intro k
    have := congrArg (fun n => n.testBit k) hin
    simpa only [Nat.testBit_and, Nat.testBit_or, testBit_not32] using this
  have hhigh : ∀ k, 32 ≤ k → addr.testBit k = false := fun k hk => testBit_high_of_lt haddr hk
  have hand : w.baseAddr &&& (addr ^^^ w.baseAddr) = 0 := by
    refine Nat.eq_of_testBit_eq fun k => ?_
    rw [hb]
    have := hbit k
    simp only [Nat.testBit_and, Nat.testBit_xor, Nat.zero_testBit]
    revert this
    cases addr.testBit k <;> cases w.baseMask.testBit k <;>
      cases w.indexMask.testBit k <;> simp
  have hor : w.baseAddr ||| (addr ^^^ w.baseAddr) = addr := by
    refine Nat.eq_of_testBit_eq fun k => ?_
    rw [hb]
    have := hbit k
    simp only [Nat.testBit_and, Nat.testBit_or, Nat.testBit_xor]
    revert this
    cases addr.testBit k <;> cases w.baseMask.testBit k <;>
      cases w.indexMask.testBit k <;> simp
  have hsum : w.baseAddr + (addr ^^^ w.baseAddr) = addr := by
    rw [add_eq_or_of_and_eq_zero _ _ hand, hor]
  have hle : w.baseAddr ≤ addr := by omega
  have hsub : addr - w.baseAddr = addr ^^^ w.baseAddr := by omega
  refine ⟨hle, ?_, ?_⟩
  · unfold sub32
    have : w.baseAddr < 2 ^ 32 := lt_of_le_of_lt hle haddr
    omega
  · rw [hsub]
    unfold readAreaAddr
    refine Nat.eq_of_testBit_eq fun k => ?_
    rw [hb]
    have := hbit k
    simp only [Nat.testBit_and, Nat.testBit_or, Nat.testBit_xor]
    by_cases h32 : k < 32
    · revert this
      cases addr.testBit k <;> cases w.baseMask.testBit k <;>
        cases w.indexMask.testBit k <;> simp [h32]
    · revert this
      rw [hhigh k (by omega)]
      cases w.baseMask.testBit k <;> cases w.indexMask.testBit k <;> simp [h32]

end VRAMWindow

/-- C11: `notify(addr, time)` appends exactly one `updateVRAM(addr - baseAddr,
time)` call, to the attached observer, when an observer is attached and
`isInside(addr)` holds, and nothing otherwise; the observer called is the one
attached last, and after `resetObserver` nobody is called. For an enabled
window with committed masks and a 32-bit address inside it, the subtraction
does not wrap (the index is `addr - baseAddr ≥ 0`) and the index identifies
the address: `baseMask & (indexMask | (addr - baseAddr)) = addr`. -/
theorem notify_contract (w : VRAMWindow) (data : Nat → Nat) (addr time : Nat)
    (log : List Event) :
    (∀ o, w.observer = some o → w.isInside addr = true →
        w.notify data addr time log =
          log ++ [Event.updateVRAM w.self o (sub32 addr w.baseAddr) time (data addr)]) ∧
      (w.observer = none ∨ w.isInside addr = false → w.notify data addr time log = log) ∧
      (∀ o, (w.setObserver o).observer = some o ∧
        (w.setObserver o).isInside addr = w.isInside addr) ∧
      w.resetObserver.notify data addr time log = log ∧
      (w.MasksCommitted → w.isEnabled = true → addr < 2 ^ 32 → w.isInside addr = true →
        w.baseAddr ≤ addr ∧ sub32 addr w.baseAddr = addr - w.baseAddr ∧
        w.baseMask &&& (w.indexMask ||| (addr - w.baseAddr)) = addr) := by
  refine ⟨fun o ho hin => ?_, fun h => ?_, fun o => ⟨rfl, rfl⟩, ?_, fun hc he ha hin => ?_⟩
  · simp [VRAMWindow.notify, ho, hin]
  · rcases h with h | h
    · simp [VRAMWindow.notify, h]
    · exact VRAMWindow.notify_of_not_inside w data addr time log h
  · simp [VRAMWindow.notify, VRAMWindow.resetObserver]
  · exact VRAMWindow.inside_offset w hc he addr ha hin

/-- Witness of C11 on the name table at `0x1800`: a change at `0x1900` reaches
observer 1 as index `0x100`, which is mapped back to `0x1900`; once the
observer is detached nothing is called. -/
theorem notify_contract_witness :
    nameTableAt1800.notify (fun _ => 5) 0x1900 10 [] =
        [Event.updateVRAM WindowId.nameTable 1 0x100 10 5] ∧
      nameTableAt1800.baseMask &&& (nameTableAt1800.indexMask ||| (0x1900 - 0x1800)) =
        0x1900 ∧
      nameTableAt1800.resetObserver.notify (fun _ => 5) 0x1900 10 [] = [] :=
  ⟨(notify_contract nameTableAt1800 (fun _ => 5) 0x1900 10 []).1 1 rfl (by decide),
    by decide,
    (notify_contract nameTableAt1800 (fun _ => 5) 0x1900 10 []).2.2.2.1⟩

/-! Facts about `subdivide`. -/

theorem subdivideRest_count (startY endX endY clipL clipR : Int) (dt : DrawType)
    (hy : startY ≤ endY) (x y : Int) :
    (subdivideRest startY endX endY clipL clipR dt).countP (fun d => d.covers x y) =
      if clipL ≤ x ∧ x < clipR ∧ startY ≤ y ∧ rasterLT x y endX endY then 1 else 0 := by
  unfold subdivideRest rasterLT
  by_cases h1 : endX ≥ clipR <;> by_cases h2 : endX > clipL <;>
    by_cases h3 : startY < endY <;> by_cases h4 : startY < endY + 1 <;>
    simp only [h1, h2, h3, h4, if_true, if_false, List.countP_cons, List.countP_nil,
      List.nil_append, List.cons_append, List.append_nil, DrawCall.covers, Bool.false_eq_true,
      decide_eq_true_eq] <;>
    split_ifs <;> omega

/-- Every position is asked for by as many draw calls of `subdivide` as the
clipped region between cursor and target says: one inside, none outside. -/
theorem subdivide_count (startX startY endX endY clipL clipR : Int) (dt : DrawType)
    (hle : rasterLE startX startY endX endY) (x y : Int) :
    (subdivide startX startY endX endY clipL clipR dt).countP (fun d => d.covers x y) =
      if inClippedRegion startX startY endX endY clipL clipR x y then 1 else 0 := by
  unfold subdivide
  by_cases h1 : startX > clipL
  · by_cases h2 : startY = endY
    · simp only [h1, h2, if_true]
      unfold inClippedRegion rasterLE rasterLT at *
      by_cases h3 : startX < clipR <;> by_cases h4 : endX ≥ clipR <;>
        simp only [h3, h4, if_true, if_false, List.countP_cons, List.countP_nil,
          DrawCall.covers, bne_self_eq_false, Bool.false_or, decide_True, decide_False,
          Bool.false_eq_true, decide_eq_true_eq] <;>
        split_ifs <;> omega
    · have hlt : startY + 1 ≤ endY := by
        unfold rasterLE at hle
        omega
      simp only [h1, h2, if_true, if_false, List.countP_append,
        subdivideRest_count _ _ _ _ _ _ hlt]
      have hne : (startY != endY) = true := by simpa using h2
      unfold inClippedRegion rasterLE rasterLT at *
      by_cases h3 : startX < clipR <;>
        simp only [h3, hne, if_true, if_false, List.countP_cons, List.countP_nil,
          DrawCall.covers, Bool.true_or, decide_eq_true_eq] <;>
        split_ifs <;> omega
  · have hy : startY ≤ endY := by
      unfold rasterLE at hle
      omega
    simp only [h1, if_false, subdivideRest_count _ _ _ _ _ _ hy]
    unfold inClippedRegion rasterLE rasterLT at *
    split_ifs <;> omega

theorem subdivideRest_drawType (startY endX endY clipL clipR : Int) (dt : DrawType) :
    ∀ d ∈ subdivideRest startY endX endY clipL clipR dt, d.drawType = dt := by
  intro d hd
  unfold subdivideRest at hd
  simp only [List.mem_append] at hd
  rcases hd with hd | hd <;> split_ifs at hd <;> simp at hd <;> rw [hd]

theorem subdivide_drawType (startX startY endX endY clipL clipR : Int) (dt : DrawType) :
    ∀ d ∈ subdivide startX startY endX endY clipL clipR dt, d.drawType = dt := by
  intro d hd
  unfold subdivide at hd
  by_cases h1 : startX > clipL
  · by_cases h2 : startY = endY
    · by_cases h3 : startX < clipR
      · simp only [h1, h2, h3, if_true, List.mem_singleton] at hd
        rw [hd]
      · simp [h1, h2, h3] at hd
    · by_cases h3 : startX < clipR
      · simp only [h1, h2, h3, if_true, if_false, List.mem_append, List.mem_singleton] at hd
        rcases hd with hd | hd
        · rw [hd]
        · exact subdivideRest_drawType _ _ _ _ _ _ d hd
      · simp only [h1, h2, h3, if_true, if_false, List.nil_append] at hd
        exact subdivideRest_drawType _ _ _ _ _ _ d hd
  · simp only [h1, if_false] at hd
    exact subdivideRest_drawType _ _ _ _ _ _ d hd

/-- The calls of `subdivide` are an optional partial first line, an optional
block of full lines and an optional partial last line, in this order. -/
theorem subdivide_pieces (startX startY endX endY clipL clipR : Int) (dt : DrawType) :
    ∃ first middle last : Option DrawCall,
      subdivide startX startY endX endY clipL clipR dt =
        first.toList ++ (middle.toList ++ last.toList) ∧
      (∀ d, first = some d →
        clipL < startX ∧ startX < clipR ∧
        d.startX = startX ∧ d.startY = startY ∧ d.endY = startY + 1) ∧
      (∀ d, middle = some d →
        d.startX = clipL ∧ d.endX = clipR ∧ d.startY < d.endY) ∧
      (∀ d, last = some d →
        clipL < endX ∧ endX < clipR ∧
        d.startX = clipL ∧ d.endX = endX ∧ d.startY = endY ∧ d.endY = endY + 1) ∧
      (startY ≤ endY →
        (∀ d1 d2, first = some d1 → middle = some d2 → d1.endY ≤ d2.startY) ∧
        (∀ d1 d2, first = some d1 → last = some d2 → d1.endY ≤ d2.startY) ∧
        (∀ d1 d2, middle = some d1 → last = some d2 → d1.endY ≤ d2.startY)) := by
  refine ⟨if startX > clipL ∧ startX < clipR then
      some ⟨startX, startY,
        if ((startY != endY) || decide (endX ≥ clipR)) = true then clipR else endX,
        startY + 1, dt, (startY != endY) || decide (endX ≥ clipR)⟩ else none,
    if ¬ (startX > clipL ∧ startY = endY) ∧
        (if startX > clipL then startY + 1 else startY) <
          (if endX ≥ clipR then endY + 1 else endY) then
      some ⟨clipL, if startX > clipL then startY + 1 else startY, clipR,
        if endX ≥ clipR then endY + 1 else endY, dt, true⟩ else none,
    if ¬ (startX > clipL ∧ startY = endY) ∧ ¬ endX ≥ clipR ∧ endX > clipL then
      some ⟨clipL, endY, endX, endY + 1, dt, false⟩ else none, ?_, ?_, ?_, ?_, ?_⟩
  · unfold subdivide subdivideRest
    by_cases h1 : startX > clipL <;> by_cases h2 : startY = endY <;>
      by_cases h3 : startX < clipR <;> by_cases h4 : endX ≥ clipR <;>
      by_cases h5 : endX > clipL <;>
      simp [h1, h2, h3, h4, h5, Option.toList]
    all_goals (split_ifs <;> rfl)
  · intro d hd
    split_ifs at hd <;> simp only [Option.some.injEq] at hd <;> subst hd <;>
      dsimp only <;> omega
  · intro d hd
    split_ifs at hd <;> simp only [Option.some.injEq] at hd <;> subst hd <;>
      dsimp only <;> omega
  · intro d hd
    split_ifs at hd
    simp only [Option.some.injEq] at hd
    subst hd
    dsimp only
    omega
  · intro hy
    refine ⟨fun d1 d2 h1 h2 => ?_, fun d1 d2 h1 h2 => ?_, fun d1 d2 h1 h2 => ?_⟩ <;>
      split_ifs at h1 h2 <;> simp only [Option.some.injEq] at h1 h2 <;> subst h1 h2 <;>
      dsimp only <;> omega

/-! Facts about `draw` and `renderUntil`. -/

namespace PixelRenderer

theorem draw_some (vdp : VDPState) (s q : PixelRenderer) (d : DrawCall)
    (h : s.draw vdp d = some q) : q.frameState = s.frameState := by
  unfold draw at h
  cases hd : d.drawType with
  | DRAW_BORDER =>
    simp only [hd, Option.some.injEq] at h
    rw [← h]; rfl
  | DRAW_DISPLAY =>
    simp only [hd] at h
    split_ifs at h <;> simp only [Option.some.injEq] at h <;> rw [← h] <;> rfl

theorem draw_returns (vdp : VDPState) (s : PixelRenderer) (d : DrawCall)
    (h : drawAsserts vdp d) : ∃ q, s.draw vdp d = some q := by
  unfold draw
  cases hd : d.drawType with
  | DRAW_BORDER => exact ⟨_, rfl⟩
  | DRAW_DISPLAY =>
    obtain ⟨h1, h2⟩ := h hd
    simp only [h1, h2, not_true_eq_false, if_false]
    exact ⟨_, rfl⟩

theorem drawAll_some (vdp : VDPState) (ds : List DrawCall) :
    ∀ (s q : PixelRenderer), drawAll vdp s ds = some q → q.frameState = s.frameState := by
  induction ds with
  | nil =>
    intro s q h
    simp only [drawAll, Option.some.injEq] at h
    rw [h]
  | cons d ds ih =>
    intro s q h
    unfold drawAll at h
    cases h1 : s.draw vdp d with
    | none => simp [h1] at h
    | some s1 =>
      simp only [h1] at h
      exact (ih s1 q h).trans (draw_some vdp s s1 d h1)

theorem drawAll_returns (vdp : VDPState) (ds : List DrawCall) :
    ∀ (s : PixelRenderer), (∀ d ∈ ds, drawAsserts vdp d) → ∃ q, drawAll vdp s ds = some q := by
  induction ds with
  | nil => intro s _; exact ⟨s, rfl⟩
  | cons d ds ih =>
    intro s h
    obtain ⟨s1, h1⟩ := draw_returns vdp s d (h d (List.mem_cons_self _ _))
    obtain ⟨q, hq⟩ := ih s1 (fun d2 h2 => h d2 (List.mem_cons_of_mem _ h2))
    exact ⟨q, by simp [drawAll, h1, hq]⟩

theorem nextX_of_frameState {s q : PixelRenderer} (h : q.frameState = s.frameState) :
    q.nextX = s.nextX :=
  congrArg (fun c => c.2.2.2.2.2.2.1) h

theorem nextY_of_frameState {s q : PixelRenderer} (h : q.frameState = s.frameState) :
    q.nextY = s.nextY :=
  congrArg (fun c => c.2.2.2.2.2.2.2) h

theorem accuracy_of_frameState {s q : PixelRenderer} (h : q.frameState = s.frameState) :
    q.accuracy = s.accuracy :=
  congrArg (fun c => c.2.2.2.2.2.1) h

theorem displayEnabled_of_frameState {s q : PixelRenderer}
    (h : q.frameState = s.frameState) : q.displayEnabled = s.displayEnabled :=
  congrArg (fun c => c.2.2.2.2.1) h

theorem checkSprites_frameState (vdp : VDPState) (s : PixelRenderer) (time : Nat) :
    (checkSprites vdp s time).frameState = s.frameState := by
  unfold checkSprites
  split_ifs <;> rfl

/-- The outcomes of `renderUntil`: an abort on the tick assertion, nothing at
all if the target is the cursor, and otherwise the sprite-checker update, the
draw calls of the bands and the move of the cursor to the target. -/
theorem renderUntil_eq (vdp : VDPState) (s : PixelRenderer) (time : Nat) :
    s.renderUntil vdp time =
      if vdp.getTicksThisFrame time ≤ vdp.getTicksPerFrame then
        if (limit vdp s.accuracy time).1 = s.nextX ∧ (limit vdp s.accuracy time).2 = s.nextY
        then some s
        else
          (drawAll vdp (checkSprites vdp s time)
            (bands vdp s (limit vdp s.accuracy time).1 (limit vdp s.accuracy time).2)).map
            (fun s2 => { s2 with
              nextX := (limit vdp s.accuracy time).1
              nextY := (limit vdp s.accuracy time).2 })
      else none := by
  unfold renderUntil
  by_cases h1 : vdp.getTicksThisFrame time ≤ vdp.getTicksPerFrame
  · simp only [h1, not_true_eq_false, if_false, if_true]
    by_cases h2 : (limit vdp s.accuracy time).1 = s.nextX ∧
        (limit vdp s.accuracy time).2 = s.nextY
    · simp only [h2, and_self, if_true]
    · simp only [h2, if_false]
      cases drawAll vdp (checkSprites vdp s time)
        (bands vdp s (limit vdp s.accuracy time).1 (limit vdp s.accuracy time).2) <;> rfl
  · simp [h1]

/-- What a returning `renderUntil` leaves: the cursor is the target; the
accuracy and the display-enabled flag are untouched. -/
theorem renderUntil_some (vdp : VDPState) (s q : PixelRenderer) (time : Nat)
    (h : s.renderUntil vdp time = some q) :
    vdp.getTicksThisFrame time ≤ vdp.getTicksPerFrame ∧
      q.nextX = (limit vdp s.accuracy time).1 ∧ q.nextY = (limit vdp s.accuracy time).2 ∧
      q.accuracy = s.accuracy ∧ q.displayEnabled = s.displayEnabled := by
  rw [renderUntil_eq] at h
  by_cases h1 : vdp.getTicksThisFrame time ≤ vdp.getTicksPerFrame
  · rw [if_pos h1] at h
    by_cases h2 : (limit vdp s.accuracy time).1 = s.nextX ∧
        (limit vdp s.accuracy time).2 = s.nextY
    · rw [if_pos h2] at h
      simp only [Option.some.injEq] at h
      subst h
      exact ⟨h1, h2.1.symm, h2.2.symm, rfl, rfl⟩
    · rw [if_neg h2] at h
      cases hd : drawAll vdp (checkSprites vdp s time)
          (bands vdp s (limit vdp s.accuracy time).1 (limit vdp s.accuracy time).2) with
      | none => simp [hd] at h
      | some s2 =>
        simp only [hd, Option.map_some', Option.some.injEq] at h
        subst h
        have hfs := (drawAll_some vdp _ _ s2 hd).trans (checkSprites_frameState vdp s time)
        exact ⟨h1, rfl, rfl, (accuracy_of_frameState hfs : s2.accuracy = s.accuracy),
          (displayEnabled_of_frameState hfs : s2.displayEnabled = s.displayEnabled)⟩
  · rw [if_neg h1] at h
    simp at h

theorem renderUntil_returns (vdp : VDPState) (s : PixelRenderer) (time : Nat)
    (ht : vdp.getTicksThisFrame time ≤ vdp.getTicksPerFrame)
    (hd : ∀ d ∈ bands vdp s (limit vdp s.accuracy time).1 (limit vdp s.accuracy time).2,
      drawAsserts vdp d) :
    ∃ q, s.renderUntil vdp time = some q := by
  rw [renderUntil_eq, if_pos ht]
  split_ifs with h2
  · exact ⟨s, rfl⟩
  · obtain ⟨q, hq⟩ := drawAll_returns vdp _ (checkSprites vdp s time) hd
    rw [hq]
    exact ⟨_, rfl⟩

theorem limit_pixel (vdp : VDPState) (time : Nat) (ht : 0 ≤ vdp.getTicksThisFrame time)
    (hT : 0 < vdp.TICKS_PER_LINE) :
    limit vdp Accuracy.ACC_PIXEL time =
      (vdp.getTicksThisFrame time % vdp.TICKS_PER_LINE,
        vdp.getTicksThisFrame time / vdp.TICKS_PER_LINE) := by
  simp only [limit, Int.tdiv_eq_ediv ht (le_of_lt hT), Int.tmod_eq_emod ht (le_of_lt hT)]

theorem limit_line (vdp : VDPState) (acc : Accuracy) (time : Nat)
    (hacc : acc ≠ Accuracy.ACC_PIXEL) (ht : 0 ≤ vdp.getTicksThisFrame time)
    (hT : 400 ≤ vdp.TICKS_PER_LINE) :
    limit vdp acc time =
      (0, (vdp.getTicksThisFrame time + vdp.TICKS_PER_LINE - 400) / vdp.TICKS_PER_LINE) := by
  have h1 : 0 ≤ vdp.getTicksThisFrame time + vdp.TICKS_PER_LINE - 400 := by omega
  have h2 : 0 ≤ vdp.TICKS_PER_LINE := by omega
  cases acc with
  | ACC_PIXEL => exact absurd rfl hacc
  | ACC_LINE => simp only [limit, Int.tdiv_eq_ediv h1 h2]
  | ACC_SCREEN => simp only [limit, Int.tdiv_eq_ediv h1 h2]

/-- The coarsened line of a tick count: the line the tick lies in if it is
among the first 400 ticks of that line, the next line otherwise. -/
theorem coarse_line (t T : Int) (hT : 400 < T) :
    (t + T - 400) / T = if t % T < 400 then t / T else t / T + 1 := by
  have hpos : 0 < T := by omega
  have hr0 : 0 ≤ t % T := Int.emod_nonneg t (by omega)
  have hr1 : t % T < T := Int.emod_lt_of_pos t hpos
  have hsplit : t + T - 400 = (t % T + T - 400) + T * (t / T) := by
    have := Int.ediv_add_emod t T
    omega
  rw [hsplit, Int.add_mul_ediv_left _ _ (by omega : T ≠ 0)]
  split_ifs with h
  · rw [Int.ediv_eq_zero_of_lt (by omega) (by omega)]
    omega
  · have h2 : t % T + T - 400 = (t % T - 400) + T * 1 := by omega
    rw [h2, Int.add_mul_ediv_left _ _ (by omega : T ≠ 0),
      Int.ediv_eq_zero_of_lt (by omega) (by omega)]
    omega

/-- The tick-to-target mapping is monotone for each accuracy level. -/
theorem limit_mono (vdp1 vdp2 : VDPState) (acc : Accuracy) (time1 time2 : Nat)
    (hT : 400 ≤ vdp1.TICKS_PER_LINE) (hsame : vdp2.TICKS_PER_LINE = vdp1.TICKS_PER_LINE)
    (h0 : 0 ≤ vdp1.getTicksThisFrame time1)
    (hle : vdp1.getTicksThisFrame time1 ≤ vdp2.getTicksThisFrame time2) :
    rasterLE (limit vdp1 acc time1).1 (limit vdp1 acc time1).2
      (limit vdp2 acc time2).1 (limit vdp2 acc time2).2 := by
  have hpos : 0 < vdp1.TICKS_PER_LINE := by omega
  have h02 : 0 ≤ vdp2.getTicksThisFrame time2 := le_trans h0 hle
  by_cases hacc : acc = Accuracy.ACC_PIXEL
  · subst hacc
    rw [limit_pixel vdp1 time1 h0 hpos, limit_pixel vdp2 time2 h02 (by rw [hsame]; exact hpos),
      hsame]
    unfold rasterLE
    simp only
    have hq := Int.ediv_le_ediv hpos hle
    rcases lt_or_eq_of_le hq with hlt | heq
    · exact Or.inl hlt
    · refine Or.inr ⟨heq, ?_⟩
      rw [Int.emod_def, Int.emod_def, heq]
      omega
  · rw [limit_line vdp1 acc time1 hacc h0 hT,
      limit_line vdp2 acc time2 hacc h02 (by rw [hsame]; exact hT), hsame]
    unfold rasterLE
    simp only
    have hq : (vdp1.getTicksThisFrame time1 + vdp1.TICKS_PER_LINE - 400) /
        vdp1.TICKS_PER_LINE ≤
        (vdp2.getTicksThisFrame time2 + vdp1.TICKS_PER_LINE - 400) / vdp1.TICKS_PER_LINE :=
      Int.ediv_le_ediv hpos (by omega)
    rcases lt_or_eq_of_le hq with hlt | heq
    · exact Or.inl hlt
    · exact Or.inr ⟨heq, le_refl _⟩

/-- Every target of a non-negative tick count is at or after `(0, 0)`. -/
theorem limit_nonneg (vdp : VDPState) (acc : Accuracy) (time : Nat)
    (hT : 400 ≤ vdp.TICKS_PER_LINE) (h0 : 0 ≤ vdp.getTicksThisFrame time) :
    rasterLE 0 0 (limit vdp acc time).1 (limit vdp acc time).2 := by
  have hpos : 0 < vdp.TICKS_PER_LINE := by omega
  by_cases hacc : acc = Accuracy.ACC_PIXEL
  · subst hacc
    rw [limit_pixel vdp time h0 hpos]
    unfold rasterLE
    simp only
    have h1 := Int.ediv_nonneg h0 (le_of_lt hpos)
    have h2 := Int.emod_nonneg (vdp.getTicksThisFrame time) (by omega : vdp.TICKS_PER_LINE ≠ 0)
    omega
  · rw [limit_line vdp acc time hacc h0 hT]
    unfold rasterLE
    simp only
    have h1 : 0 ≤ (vdp.getTicksThisFrame time + vdp.TICKS_PER_LINE - 400) /
        vdp.TICKS_PER_LINE := Int.ediv_nonneg (by omega) (le_of_lt hpos)
    omega

theorem runRender_cons (s : PixelRenderer) (c : RenderCall) (cs : List RenderCall)
    (states : List PixelRenderer) (h : s.runRender (c :: cs) = some states) :
    ∃ s1 rest, s.renderUntil c.vdp c.time = some s1 ∧ s1.runRender cs = some rest ∧
      states = s1 :: rest := by
  unfold runRender at h
  cases h1 : s.renderUntil c.vdp c.time with
  | none => simp [h1] at h
  | some s1 =>
    simp only [h1] at h
    cases h2 : s1.runRender cs with
    | none => simp [h2] at h
    | some rest =>
      simp only [h2, Option.some.injEq] at h
      exact ⟨s1, rest, rfl, h2, h.symm⟩

theorem runRender_chain (T : Int) (hT : 400 ≤ T) (calls : List RenderCall) :
    ∀ (s : PixelRenderer) (t0 : Int), 0 ≤ t0 →
      (∀ c ∈ calls, c.vdp.TICKS_PER_LINE = T) →
      List.Chain (fun t1 t2 => t1 ≤ t2) t0
        (calls.map (fun c => c.vdp.getTicksThisFrame c.time)) →
      (∀ (vdp : VDPState) (time : Nat), vdp.TICKS_PER_LINE = T →
        t0 ≤ vdp.getTicksThisFrame time →
        rasterLE s.nextX s.nextY (limit vdp s.accuracy time).1 (limit vdp s.accuracy time).2) →
      ∀ states, s.runRender calls = some states →
        states.length = calls.length ∧
        List.Chain (fun p q : PixelRenderer => rasterLE p.nextX p.nextY q.nextX q.nextY)
          s states := by
  induction calls with
  | nil =>
    intro s t0 _ _ _ _ states h
    simp only [runRender, Option.some.injEq] at h
    subst h
    simp
  | cons c cs ih =>
    intro s t0 h0 hconst hchain hinv states h
    obtain ⟨s1, rest, h1, h2, rfl⟩ := runRender_cons s c cs states h
    simp only [List.map_cons, List.chain_cons] at hchain
    obtain ⟨_, hx, hy, hacc, _⟩ := renderUntil_some c.vdp s s1 c.time h1
    have hcT : c.vdp.TICKS_PER_LINE = T := hconst c (List.mem_cons_self _ _)
    have hstep : rasterLE s.nextX s.nextY s1.nextX s1.nextY := by
      rw [hx, hy]
      exact hinv c.vdp c.time hcT hchain.1
    obtain ⟨hlen, hrest⟩ := ih s1 (c.vdp.getTicksThisFrame c.time) (le_trans h0 hchain.1)
      (fun c2 h2 => hconst c2 (List.mem_cons_of_mem _ h2)) hchain.2
      (fun vdp time hvT hle => by
        rw [hx, hy, hacc]
        exact limit_mono c.vdp vdp s.accuracy c.time time (by rw [hcT]; exact hT)
          (by rw [hvT, hcT]) (le_trans h0 hchain.1) hle)
      rest h2
    exact ⟨by simp [hlen], List.Chain.cons hstep hrest⟩

theorem runRender_returns (calls : List RenderCall) :
    ∀ (s : PixelRenderer), s.displayEnabled = false →
      (∀ c ∈ calls, c.vdp.getTicksThisFrame c.time ≤ c.vdp.getTicksPerFrame) →
      ∃ states, s.runRender calls = some states := by
  induction calls with
  | nil => intro s _ _; exact ⟨[], rfl⟩
  | cons c cs ih =>
    intro s hdis hticks
    obtain ⟨s1, h1⟩ := renderUntil_returns c.vdp s c.time (hticks c (List.mem_cons_self _ _))
      (fun d hd hdt => by
        exfalso
        unfold bands at hd
        simp only [hdis, Bool.false_eq_true, if_false] at hd
        rw [subdivide_drawType _ _ _ _ _ _ _ d hd] at hdt
        exact DrawType.noConfusion hdt)
    obtain ⟨_, _, _, _, hde⟩ := renderUntil_some c.vdp s s1 c.time h1
    obtain ⟨rest, hrest⟩ := ih s1 (by rw [hde]; exact hdis)
      (fun c2 h2 => hticks c2 (List.mem_cons_of_mem _ h2))
    exact ⟨s1 :: rest, by simp [runRender, h1, hrest]⟩

theorem subdivide_covers_in_region (startX startY endX endY clipL clipR : Int)
    (dt : DrawType) (hle : rasterLE startX startY endX endY) (x y : Int) (d : DrawCall)
    (hd : d ∈ subdivide startX startY endX endY clipL clipR dt) (hc : d.covers x y = true) :
    inClippedRegion startX startY endX endY clipL clipR x y := by
  by_contra hout
  have h := subdivide_count startX startY endX endY clipL clipR dt hle x y
  rw [if_neg hout, List.countP_eq_zero] at h
  exact h d hd hc

end PixelRenderer

/-! The claims about `subdivide`. -/

/-- C12: for a cursor `(startX, startY)` not after the target `(endX, endY)` in
raster order, every position `(x, y)` lies in exactly one rectangle of the
draw calls of `subdivide` if `clipL ≤ x < clipR` and the position is at or
after the cursor and before the target in raster order, and in no rectangle
otherwise: no gaps, no overlaps, nothing outside. -/
theorem subdivide_covers_exactly (startX startY endX endY clipL clipR : Int)
    (dt : DrawType) (hle : rasterLE startX startY endX endY) (x y : Int) :
    (inClippedRegion startX startY endX endY clipL clipR x y →
        (subdivide startX startY endX endY clipL clipR dt).countP
          (fun d => d.covers x y) = 1) ∧
      (¬ inClippedRegion startX startY endX endY clipL clipR x y →
        ∀ d ∈ subdivide startX startY endX endY clipL clipR dt, d.covers x y = false) := by
  have h := subdivide_count startX startY endX endY clipL clipR dt hle x y
  constructor
  · intro hin
    rw [h, if_pos hin]
  · intro hout d hd
    rw [if_neg hout, List.countP_eq_zero] at h
    simpa using h d hd

/-- Witness of C12: from cursor `(5, 2)` to target `(3, 4)` with clip `[2, 8)`
there are three draw calls; position `(6, 2)` of the first line is in exactly
one of them and position `(4, 2)`, before the cursor, in none. -/
theorem subdivide_covers_exactly_witness :
    subdivide 5 2 3 4 2 8 DrawType.DRAW_BORDER =
        [⟨5, 2, 8, 3, DrawType.DRAW_BORDER, true⟩, ⟨2, 3, 8, 4, DrawType.DRAW_BORDER, true⟩,
          ⟨2, 4, 3, 5, DrawType.DRAW_BORDER, false⟩] ∧
      (subdivide 5 2 3 4 2 8 DrawType.DRAW_BORDER).countP (fun d => d.covers 6 2) = 1 ∧
      (∀ d ∈ subdivide 5 2 3 4 2 8 DrawType.DRAW_BORDER, d.covers 4 2 = false) :=
  ⟨by decide,
    (subdivide_covers_exactly 5 2 3 4 2 8 DrawType.DRAW_BORDER (by decide) 6 2).1
      (by decide),
    (subdivide_covers_exactly 5 2 3 4 2 8 DrawType.DRAW_BORDER (by decide) 4 2).2
      (by decide)⟩

/-- C13: every `subdivide` call issues at most three draw calls: an optional
partial first line (row `startY`, from `startX`, only if
`clipL < startX < clipR`), an optional block of full lines `[clipL, clipR)`
and an optional partial last line (row `endY`, `[clipL, endX)`, only if
`clipL < endX < clipR`), in this order. For the rectangle between a cursor and
a target whose row is not above the cursor's (`startY ≤ endY`), which is what
`subdivide` is called for, they are issued top to bottom: each call starts at
or below the end row of the call before it. -/
theorem subdivide_top_to_bottom (startX startY endX endY clipL clipR : Int)
    (dt : DrawType) :
    (subdivide startX startY endX endY clipL clipR dt).length ≤ 3 ∧
      (∃ first middle last : Option DrawCall,
        subdivide startX startY endX endY clipL clipR dt =
          first.toList ++ (middle.toList ++ last.toList) ∧
        (∀ d, first = some d →
          clipL < startX ∧ startX < clipR ∧
          d.startX = startX ∧ d.startY = startY ∧ d.endY = startY + 1) ∧
        (∀ d, middle = some d →
          d.startX = clipL ∧ d.endX = clipR ∧ d.startY < d.endY) ∧
        (∀ d, last = some d →
          clipL < endX ∧ endX < clipR ∧
          d.startX = clipL ∧ d.endX = endX ∧ d.startY = endY ∧ d.endY = endY + 1)) ∧
      (startY ≤ endY →
        List.Chain' (fun d1 d2 : DrawCall => d1.endY ≤ d2.startY)
          (subdivide startX startY endX endY clipL clipR dt)) := by
  obtain ⟨first, middle, last, heq, hf, hm, hl, hord⟩ :=
    subdivide_pieces startX startY endX endY clipL clipR dt
  refine ⟨?_, ⟨first, middle, last, heq, hf, hm, hl⟩, fun hy => ?_⟩
  · rw [heq]
    cases first <;> cases middle <;> cases last <;> simp [Option.toList]
  · obtain ⟨h1, h2, h3⟩ := hord hy
    rw [heq]
    cases first with
    | none =>
      cases middle with
      | none => cases last <;> simp [Option.toList, List.Chain']
      | some m =>
        cases last with
        | none => simp [Option.toList, List.Chain']
        | some l => simpa [Option.toList, List.Chain'] using h3 m l rfl rfl
    | some f =>
      cases middle with
      | none =>
        cases last with
        | none => simp [Option.toList, List.Chain']
        | some l => simpa [Option.toList, List.Chain'] using h2 f l rfl rfl
      | some m =>
        cases last with
        | none => simpa [Option.toList, List.Chain'] using h1 f m rfl rfl
        | some l =>
          simpa [Option.toList, List.Chain'] using And.intro (h1 f m rfl rfl) (h3 m l rfl rfl)

/-- Witness of C13: the three calls from cursor `(5, 2)` to target
`(3, 4)` with clip `[2, 8)` start at rows 2, 3 and 4. -/
theorem subdivide_top_to_bottom_witness :
    List.Chain' (fun d1 d2 : DrawCall => d1.endY ≤ d2.startY)
        (subdivide 5 2 3 4 2 8 DrawType.DRAW_BORDER) ∧
      (subdivide 5 2 3 4 2 8 DrawType.DRAW_BORDER).map (fun d => d.startY) = [2, 3, 4] :=
  ⟨(subdivide_top_to_bottom 5 2 3 4 2 8 DrawType.DRAW_BORDER).2.2 (by decide), by decide⟩

/-! Facts about `frameStart`. -/

namespace PixelRenderer

/-- The pacing decision of `frameStart`: the new counter and whether the frame
is drawn. -/
theorem frameStart_decision (vdp : VDPState) (settings : RenderSettings)
    (active timeLeft : Bool) (s : PixelRenderer) :
    ((s.frameStart vdp settings active timeLeft).frameSkipCounter,
        (s.frameStart vdp settings active timeLeft).drawFrame) =
      if ¬ active = true then (0, false)
      else if s.frameSkipCounter < settings.minFrameSkip then (s.frameSkipCounter + 1, false)
      else if s.frameSkipCounter ≥ settings.maxFrameSkip then (0, true)
      else if timeLeft = true then (0, true)
      else (s.frameSkipCounter + 1, false) := by
  unfold frameStart
  simp only
  split_ifs <;> rfl

theorem frameStart_of_draw (vdp : VDPState) (settings : RenderSettings)
    (active timeLeft : Bool) (s : PixelRenderer)
    (h : (s.frameStart vdp settings active timeLeft).drawFrame = true) :
    (s.frameStart vdp settings active timeLeft).frameSkipCounter = 0 ∧ active = true ∧
      settings.minFrameSkip ≤ s.frameSkipCounter := by
  have hd := frameStart_decision vdp settings active timeLeft s
  split_ifs at hd with h1 h2 h3 h4 <;>
    simp only [Prod.mk.injEq] at hd <;> obtain ⟨hc, hdr⟩ := hd <;>
    first
    | (rw [hdr] at h; exact absurd h (by decide))
    | exact ⟨hc, by simpa using h1, by omega⟩

theorem frameStart_of_skip (vdp : VDPState) (settings : RenderSettings)
    (active timeLeft : Bool) (s : PixelRenderer)
    (h : (s.frameStart vdp settings active timeLeft).drawFrame = false) :
    ((s.frameStart vdp settings active timeLeft).frameSkipCounter = 0 ∨
      (s.frameStart vdp settings active timeLeft).frameSkipCounter = s.frameSkipCounter + 1) ∧
    (active = true → settings.minFrameSkip ≤ settings.maxFrameSkip →
      (s.frameStart vdp settings active timeLeft).frameSkipCounter = s.frameSkipCounter + 1 ∧
      s.frameSkipCounter < settings.maxFrameSkip) := by
  have hd := frameStart_decision vdp settings active timeLeft s
  split_ifs at hd with h1 h2 h3 h4 <;>
    simp only [Prod.mk.injEq] at hd <;> obtain ⟨hc, hdr⟩ := hd <;>
    first
    | (rw [hdr] at h; exact absurd h (by decide))
    | exact ⟨Or.inr hc, fun _ _ => ⟨hc, by omega⟩⟩
    | exact ⟨Or.inl hc, fun ha _ => absurd ha h1⟩

theorem frameStart_counter_nonneg (vdp : VDPState) (settings : RenderSettings)
    (active timeLeft : Bool) (s : PixelRenderer) (h : 0 ≤ s.frameSkipCounter) :
    0 ≤ (s.frameStart vdp settings active timeLeft).frameSkipCounter := by
  have hd := frameStart_decision vdp settings active timeLeft s
  split_ifs at hd <;> simp only [Prod.mk.injEq] at hd <;> omega

theorem runFrames_counter_nonneg (settings : RenderSettings) (calls : List FrameCall) :
    ∀ (s : PixelRenderer), 0 ≤ s.frameSkipCounter →
      ∀ q ∈ runFrames settings s calls, 0 ≤ q.frameSkipCounter := by
  induction calls with
  | nil => intro s _ q hq; simp [runFrames] at hq
  | cons c cs ih =>
    intro s hs q hq
    have h1 := frameStart_counter_nonneg c.vdp settings c.rasterizerActive c.timeLeft s hs
    simp only [runFrames, List.mem_cons] at hq
    rcases hq with rfl | hq
    · exact h1
    · exact ih _ h1 q hq

/-- With an active backend and `minFrameSkip ≤ maxFrameSkip`, a run of
`frameStart` calls long enough for the counter to reach `maxFrameSkip` draws. -/
theorem runFrames_draws (settings : RenderSettings)
    (hmm : settings.minFrameSkip ≤ settings.maxFrameSkip) (calls : List FrameCall) :
    ∀ (s : PixelRenderer), (∀ c ∈ calls, c.rasterizerActive = true) → calls ≠ [] →
      settings.maxFrameSkip < s.frameSkipCounter + calls.length →
      ∃ q ∈ runFrames settings s calls, q.drawFrame = true := by
  induction calls with
  | nil => intro s _ hne _; exact absurd rfl hne
  | cons c cs ih =>
    intro s hact _ hlen
    cases hdr : (s.frameStart c.vdp settings c.rasterizerActive c.timeLeft).drawFrame with
    | true => exact ⟨_, by simp [runFrames], hdr⟩
    | false =>
      have hcount := (frameStart_of_skip c.vdp settings c.rasterizerActive c.timeLeft s hdr).2
        (hact c (List.mem_cons_self _ _)) hmm
      simp only [List.length_cons, Nat.cast_add, Nat.cast_one] at hlen
      have hne : cs ≠ [] := by
        intro hnil
        rw [hnil] at hlen
        simp only [List.length_nil, Nat.cast_zero] at hlen
        omega
      obtain ⟨q, hq, hqd⟩ := ih _ (fun c2 h2 => hact c2 (List.mem_cons_of_mem _ h2)) hne
        (by rw [hcount.1]; omega)
      exact ⟨q, by simp only [runFrames, List.mem_cons]; exact Or.inr hq, hqd⟩

/-- The counter never exceeds the number of frames skipped since it was last
known to be at most `k`. -/
theorem runFrames_counter_le (settings : RenderSettings) (calls : List FrameCall) :
    ∀ (s : PixelRenderer) (k : Int), 0 ≤ k → s.frameSkipCounter ≤ k →
      ((runFrames settings s calls).getLastD s).frameSkipCounter ≤
        k + ((runFrames settings s calls).filter (fun q => !q.drawFrame)).length := by
  induction calls with
  | nil =>
    intro s k _ hs
    simpa [runFrames] using hs
  | cons c cs ih =>
    intro s k hk hs
    simp only [runFrames, List.getLastD_cons]
    cases hdr : (s.frameStart c.vdp settings c.rasterizerActive c.timeLeft).drawFrame with
    | true =>
      have h0 := (frameStart_of_draw c.vdp settings c.rasterizerActive c.timeLeft s hdr).1
      have := ih (s.frameStart c.vdp settings c.rasterizerActive c.timeLeft) k hk
        (by rw [h0]; exact hk)
      simpa [List.filter_cons, hdr] using this
    | false =>
      have h1 := (frameStart_of_skip c.vdp settings c.rasterizerActive c.timeLeft s hdr).1
      have := ih (s.frameStart c.vdp settings c.rasterizerActive c.timeLeft) (k + 1)
        (by omega) (by omega)
      simp only [List.filter_cons, hdr, Bool.not_false, if_true, List.length_cons,
        Nat.cast_add, Nat.cast_one]
      omega

end PixelRenderer

/-! The claims about `renderUntil`. -/

/-- C14: a `renderUntil` call whose target `(limitX, limitY)` is not before the
cursor, with `0 ≤ displayL ≤ borderR ≤ TICKS_PER_LINE`. The draw calls of its
bands ask for every position with `0 ≤ x < TICKS_PER_LINE` between the cursor
and the target exactly once and for no other position. With the display
enabled a draw call that asks for `(x, y)` is a display draw exactly when
`displayL ≤ x < borderR` and a border draw otherwise; with the display
disabled all draw calls are border draws. These are the draw calls the call
carries out (after the sprite-checker update) before it moves the cursor, and
a call that returns leaves the cursor on the target; it returns when the tick
assertion and the assertions of its draw calls hold. -/
theorem renderUntil_bands (vdp : VDPState) (s : PixelRenderer) (time : Nat)
    (hcur : rasterLE s.nextX s.nextY
      (PixelRenderer.limit vdp s.accuracy time).1 (PixelRenderer.limit vdp s.accuracy time).2)
    (hgeo : 0 ≤ (if vdp.isBorderMasked = true then vdp.getLeftBorder
        else vdp.getLeftBackground) ∧
      (if vdp.isBorderMasked = true then vdp.getLeftBorder else vdp.getLeftBackground) ≤
        vdp.getRightBorder ∧
      vdp.getRightBorder ≤ vdp.TICKS_PER_LINE) :
    (∀ x y,
        (PixelRenderer.bands vdp s (PixelRenderer.limit vdp s.accuracy time).1
          (PixelRenderer.limit vdp s.accuracy time).2).countP (fun d => d.covers x y) =
        if inClippedRegion s.nextX s.nextY (PixelRenderer.limit vdp s.accuracy time).1
          (PixelRenderer.limit vdp s.accuracy time).2 0 vdp.TICKS_PER_LINE x y
        then 1 else 0) ∧
      (s.displayEnabled = true →
        ∀ d ∈ PixelRenderer.bands vdp s (PixelRenderer.limit vdp s.accuracy time).1
          (PixelRenderer.limit vdp s.accuracy time).2,
        ∀ x y, d.covers x y = true →
          (d.drawType = DrawType.DRAW_DISPLAY ↔
            (if vdp.isBorderMasked = true then vdp.getLeftBorder
              else vdp.getLeftBackground) ≤ x ∧ x < vdp.getRightBorder)) ∧
      (s.displayEnabled = false →
        ∀ d ∈ PixelRenderer.bands vdp s (PixelRenderer.limit vdp s.accuracy time).1
          (PixelRenderer.limit vdp s.accuracy time).2,
        d.drawType = DrawType.DRAW_BORDER) ∧
      (vdp.getTicksThisFrame time ≤ vdp.getTicksPerFrame →
        ¬ ((PixelRenderer.limit vdp s.accuracy time).1 = s.nextX ∧
          (PixelRenderer.limit vdp s.accuracy time).2 = s.nextY) →
        s.renderUntil vdp time =
          (PixelRenderer.drawAll vdp (PixelRenderer.checkSprites vdp s time)
            (PixelRenderer.bands vdp s (PixelRenderer.limit vdp s.accuracy time).1
              (PixelRenderer.limit vdp s.accuracy time).2)).map
            (fun s2 => { s2 with
              nextX := (PixelRenderer.limit vdp s.accuracy time).1
              nextY := (PixelRenderer.limit vdp s.accuracy time).2 })) ∧
      (∀ q, s.renderUntil vdp time = some q →
        q.nextX = (PixelRenderer.limit vdp s.accuracy time).1 ∧
        q.nextY = (PixelRenderer.limit vdp s.accuracy time).2) ∧
      (vdp.getTicksThisFrame time ≤ vdp.getTicksPerFrame →
        (∀ d ∈ PixelRenderer.bands vdp s (PixelRenderer.limit vdp s.accuracy time).1
          (PixelRenderer.limit vdp s.accuracy time).2, PixelRenderer.drawAsserts vdp d) →
        ∃ q, s.renderUntil vdp time = some q) := by
  obtain ⟨hg1, hg2, hg3⟩ := hgeo
  refine ⟨fun x y => ?_, fun hen d hd x y hc => ?_, fun hdis d hd => ?_,
    fun ht hne => ?_, fun q hq => ?_, fun ht hd => ?_⟩
  · unfold PixelRenderer.bands
    by_cases hen : s.displayEnabled = true
    · simp only [hen, if_true, List.countP_append, subdivide_count _ _ _ _ _ _ _ hcur]
      unfold inClippedRegion rasterLE rasterLT
      generalize (if vdp.isBorderMasked = true then vdp.getLeftBorder
        else vdp.getLeftBackground) = displayL at hg1 hg2 ⊢
      split_ifs <;> omega
    · simp only [hen, Bool.false_eq_true, if_false, subdivide_count _ _ _ _ _ _ _ hcur]
  · unfold PixelRenderer.bands at hd
    simp only [hen, if_true, List.mem_append] at hd
    rcases hd with hd | hd | hd
    · have hr := PixelRenderer.subdivide_covers_in_region _ _ _ _ _ _ _ hcur x y d hd hc
      rw [subdivide_drawType _ _ _ _ _ _ _ d hd]
      unfold inClippedRegion at hr
      constructor
      · intro h; exact DrawType.noConfusion h
      · intro h; omega
    · have hr := PixelRenderer.subdivide_covers_in_region _ _ _ _ _ _ _ hcur x y d hd hc
      rw [subdivide_drawType _ _ _ _ _ _ _ d hd]
      unfold inClippedRegion at hr
      exact ⟨fun _ => ⟨hr.1, hr.2.1⟩, fun _ => rfl⟩
    · have hr := PixelRenderer.subdivide_covers_in_region _ _ _ _ _ _ _ hcur x y d hd hc
      rw [subdivide_drawType _ _ _ _ _ _ _ d hd]
      unfold inClippedRegion at hr
      constructor
      · intro h; exact DrawType.noConfusion h
      · intro h; omega
  · unfold PixelRenderer.bands at hd
    simp only [hdis, Bool.false_eq_true, if_false] at hd
    exact subdivide_drawType _ _ _ _ _ _ _ d hd
  · rw [PixelRenderer.renderUntil_eq, if_pos ht, if_neg hne]
  · obtain ⟨_, hx, hy, _, _⟩ := PixelRenderer.renderUntil_some vdp s q time hq
    exact ⟨hx, hy⟩
  · exact PixelRenderer.renderUntil_returns vdp s time ht hd

/-- Witness of C14: under PIXEL accuracy the renderer at `(0, 0)` is asked to
render until tick `2 * 1368 + 300`. The call returns with the cursor at
`(300, 2)`; position `(100, 1)` of the left border is asked for once, and so is
position `(700, 0)` of the display area. -/
theorem renderUntil_bands_witness :
    ((rendererAtFrameStart Accuracy.ACC_PIXEL).renderUntil palVdp 3036).map
        (fun q => (q.nextX, q.nextY)) = some (300, 2) ∧
      (PixelRenderer.bands palVdp (rendererAtFrameStart Accuracy.ACC_PIXEL) 300 2).countP
        (fun d => d.covers 100 1) = 1 ∧
      (PixelRenderer.bands palVdp (rendererAtFrameStart Accuracy.ACC_PIXEL) 300 2).countP
        (fun d => d.covers 700 0) = 1 :=
  ⟨by decide,
    (renderUntil_bands palVdp (rendererAtFrameStart Accuracy.ACC_PIXEL) 3036
      (by decide) (by decide)).1 100 1,
    (renderUntil_bands palVdp (rendererAtFrameStart Accuracy.ACC_PIXEL) 3036
      (by decide) (by decide)).1 700 0⟩

/-- C15: with `t = getTicksThisFrame(time) ≥ 0` and `TICKS_PER_LINE > 0`. Under
PIXEL accuracy the target is `limitX = t mod TICKS_PER_LINE`,
`limitY = t div TICKS_PER_LINE`, so `limitY * TICKS_PER_LINE + limitX = t` and
`0 ≤ limitX < TICKS_PER_LINE`. Under LINE and SCREEN accuracy `limitX = 0` and
`limitY` is the C quotient `(t + TICKS_PER_LINE - 400) / TICKS_PER_LINE`, which
for `TICKS_PER_LINE > 400` is `t div TICKS_PER_LINE` if
`t mod TICKS_PER_LINE < 400` and `t div TICKS_PER_LINE + 1` otherwise. The
target depends on the VDP through `TICKS_PER_LINE` and the tick count only, not
on a border position. -/
theorem limit_mapping (vdp : VDPState) (time : Nat)
    (ht : 0 ≤ vdp.getTicksThisFrame time) (hT : 0 < vdp.TICKS_PER_LINE) :
    (PixelRenderer.limit vdp Accuracy.ACC_PIXEL time =
          (vdp.getTicksThisFrame time % vdp.TICKS_PER_LINE,
            vdp.getTicksThisFrame time / vdp.TICKS_PER_LINE) ∧
        (vdp.getTicksThisFrame time / vdp.TICKS_PER_LINE) * vdp.TICKS_PER_LINE +
          vdp.getTicksThisFrame time % vdp.TICKS_PER_LINE = vdp.getTicksThisFrame time ∧
        0 ≤ vdp.getTicksThisFrame time % vdp.TICKS_PER_LINE ∧
        vdp.getTicksThisFrame time % vdp.TICKS_PER_LINE < vdp.TICKS_PER_LINE) ∧
      (∀ acc, acc = Accuracy.ACC_LINE ∨ acc = Accuracy.ACC_SCREEN →
        (PixelRenderer.limit vdp acc time).1 = 0 ∧
        (PixelRenderer.limit vdp acc time).2 =
          (vdp.getTicksThisFrame time + vdp.TICKS_PER_LINE - 400).tdiv vdp.TICKS_PER_LINE ∧
        (400 < vdp.TICKS_PER_LINE →
          (PixelRenderer.limit vdp acc time).2 =
            if vdp.getTicksThisFrame time % vdp.TICKS_PER_LINE < 400
            then vdp.getTicksThisFrame time / vdp.TICKS_PER_LINE
            else vdp.getTicksThisFrame time / vdp.TICKS_PER_LINE + 1)) ∧
      (∀ (vdp2 : VDPState) (acc : Accuracy),
        vdp2.TICKS_PER_LINE = vdp.TICKS_PER_LINE →
        vdp2.getTicksThisFrame time = vdp.getTicksThisFrame time →
        PixelRenderer.limit vdp2 acc time = PixelRenderer.limit vdp acc time) := by
  refine ⟨⟨PixelRenderer.limit_pixel vdp time ht hT, ?_,
    Int.emod_nonneg _ (by omega), Int.emod_lt_of_pos _ hT⟩, fun acc hacc => ?_,
    fun vdp2 acc h1 h2 => ?_⟩
  · have := Int.ediv_add_emod (vdp.getTicksThisFrame time) vdp.TICKS_PER_LINE
    rw [Int.mul_comm]
    exact this
  · refine ⟨?_, ?_, fun h400 => ?_⟩
    · rcases hacc with rfl | rfl <;> rfl
    · rcases hacc with rfl | rfl <;> rfl
    · have hne : acc ≠ Accuracy.ACC_PIXEL := by
        rcases hacc with rfl | rfl <;> exact fun h => Accuracy.noConfusion h
      rw [PixelRenderer.limit_line vdp acc time hne ht (by omega)]
      exact PixelRenderer.coarse_line _ _ h400
  · cases acc <;> simp only [PixelRenderer.limit, h1, h2]

/-- Witness of C15 with 1368 ticks per line: tick `2 * 1368 + 300` is pixel
`(300, 2)` and coarsened line 2; tick `2 * 1368 + 400` is coarsened line 3. -/
theorem limit_mapping_witness :
    PixelRenderer.limit palVdp Accuracy.ACC_PIXEL 3036 = (300, 2) ∧
      PixelRenderer.limit palVdp Accuracy.ACC_LINE 3036 = (0, 2) ∧
      PixelRenderer.limit palVdp Accuracy.ACC_SCREEN 3136 = (0, 3) ∧
      (PixelRenderer.limit palVdp Accuracy.ACC_LINE 3136).2 =
        if palVdp.getTicksThisFrame 3136 % palVdp.TICKS_PER_LINE < 400
        then palVdp.getTicksThisFrame 3136 / palVdp.TICKS_PER_LINE
        else palVdp.getTicksThisFrame 3136 / palVdp.TICKS_PER_LINE + 1 :=
  ⟨by decide, by decide, by decide,
    ((limit_mapping palVdp 3136 (by decide) (by decide)).2.1 Accuracy.ACC_LINE
      (Or.inl rfl)).2.2 (by decide)⟩

/-- C16: if the target computed from `time` is the cursor, `renderUntil` returns
the state it found: no draw call, no sprite-checker call, no change (it aborts
only on the tick assertion). Hence, when a `renderUntil` call has returned, a
second call whose time maps to the same target returns the state the first
one left. -/
theorem renderUntil_same_target (vdp1 vdp2 : VDPState) (s : PixelRenderer)
    (time1 time2 : Nat) :
    ((PixelRenderer.limit vdp1 s.accuracy time1).1 = s.nextX →
        (PixelRenderer.limit vdp1 s.accuracy time1).2 = s.nextY →
        s.renderUntil vdp1 time1 =
          if vdp1.getTicksThisFrame time1 ≤ vdp1.getTicksPerFrame then some s else none) ∧
      (PixelRenderer.limit vdp2 s.accuracy time2 = PixelRenderer.limit vdp1 s.accuracy time1 →
        vdp2.getTicksThisFrame time2 ≤ vdp2.getTicksPerFrame →
        ∀ q, s.renderUntil vdp1 time1 = some q → q.renderUntil vdp2 time2 = some q) := by
  constructor
  · intro hx hy
    rw [PixelRenderer.renderUntil_eq]
    simp [hx, hy]
  · intro hsame ht q hq
    obtain ⟨_, hx, hy, hacc, _⟩ := PixelRenderer.renderUntil_some vdp1 s q time1 hq
    rw [PixelRenderer.renderUntil_eq, if_pos ht, hacc, hsame, if_pos ⟨hx.symm, hy.symm⟩]

/-- Witness of C16, the scenario of the spec: under SCREEN accuracy the times
`2 * 1368 + 100` and `2 * 1368 + 300` both map to line 2. The first
`renderUntil` moves the cursor to `(0, 2)`; the second returns the same state. -/
theorem renderUntil_same_target_witness :
    ((rendererAtFrameStart Accuracy.ACC_SCREEN).renderUntil palVdp 2836).map
        (fun q => (q.nextX, q.nextY)) = some (0, 2) ∧
      ((rendererAtFrameStart Accuracy.ACC_SCREEN).renderUntil palVdp 2836).bind
          (fun q => q.renderUntil palVdp 3036) =
        (rendererAtFrameStart Accuracy.ACC_SCREEN).renderUntil palVdp 2836 := by
  refine ⟨by decide, ?_⟩
  cases hq : (rendererAtFrameStart Accuracy.ACC_SCREEN).renderUntil palVdp 2836 with
  | none => rfl
  | some q =>
    exact (renderUntil_same_target palVdp palVdp (rendererAtFrameStart Accuracy.ACC_SCREEN)
      2836 3036).2 (by decide) (by decide) q hq

/-- C17: with `TICKS_PER_LINE ≥ 400` the same for all calls. For each accuracy
level the tick-to-target mapping is monotone on non-negative tick counts. A
rendering `frameStart` leaves the cursor at `(0, 0)`. From a cursor at
`(0, 0)`, in every sequence of `renderUntil` calls that returns and whose tick
counts are non-negative and non-decreasing, the cursor after each call is at
or after the cursor before it in raster order. With the display disabled such
a sequence returns whenever the tick assertions hold. -/
theorem cursor_never_moves_back (T : Int) (hT : 400 ≤ T) (s : PixelRenderer)
    (calls : List PixelRenderer.RenderCall)
    (hcur : s.nextX = 0 ∧ s.nextY = 0)
    (hconst : ∀ c ∈ calls, c.vdp.TICKS_PER_LINE = T)
    (hticks : List.Chain (fun t1 t2 => t1 ≤ t2) 0
      (calls.map (fun c => c.vdp.getTicksThisFrame c.time))) :
    (∀ states, s.runRender calls = some states →
        states.length = calls.length ∧
        List.Chain (fun p q : PixelRenderer => rasterLE p.nextX p.nextY q.nextX q.nextY)
          s states) ∧
      (∀ (vdp1 vdp2 : VDPState) (acc : Accuracy) (time1 time2 : Nat),
        vdp1.TICKS_PER_LINE = T → vdp2.TICKS_PER_LINE = T →
        0 ≤ vdp1.getTicksThisFrame time1 →
        vdp1.getTicksThisFrame time1 ≤ vdp2.getTicksThisFrame time2 →
        rasterLE (PixelRenderer.limit vdp1 acc time1).1 (PixelRenderer.limit vdp1 acc time1).2
          (PixelRenderer.limit vdp2 acc time2).1 (PixelRenderer.limit vdp2 acc time2).2) ∧
      (∀ (vdp : VDPState) (settings : RenderSettings) (active timeLeft : Bool)
        (r : PixelRenderer),
        (r.frameStart vdp settings active timeLeft).renderFrame = true →
        (r.frameStart vdp settings active timeLeft).nextX = 0 ∧
        (r.frameStart vdp settings active timeLeft).nextY = 0 ∧
        (r.frameStart vdp settings active timeLeft).accuracy = settings.accuracy) ∧
      (s.displayEnabled = false →
        (∀ c ∈ calls, c.vdp.getTicksThisFrame c.time ≤ c.vdp.getTicksPerFrame) →
        ∃ states, s.runRender calls = some states) := by
  refine ⟨fun states h => ?_, fun vdp1 vdp2 acc time1 time2 h1 h2 h0 hle => ?_,
    fun vdp settings active timeLeft r hr => ?_, fun hdis hok => ?_⟩
  · refine PixelRenderer.runRender_chain T hT calls s 0 (le_refl _) hconst hticks
      (fun vdp time hvT h0 => ?_) states h
    rw [hcur.1, hcur.2]
    exact PixelRenderer.limit_nonneg vdp s.accuracy time (by rw [hvT]; exact hT) h0
  · exact PixelRenderer.limit_mono vdp1 vdp2 acc time1 time2 (by rw [h1]; exact hT)
      (by rw [h1, h2]) h0 hle
  · unfold PixelRenderer.frameStart at hr ⊢
    simp only at hr ⊢
    split_ifs at hr ⊢ <;> simp_all
  · exact PixelRenderer.runRender_returns calls s hdis hok

/-- Witness of C17: under LINE accuracy three `renderUntil` calls at the ticks
100, 1000 and 3036 return and leave the cursor on the lines 0, 1 and 2. -/
theorem cursor_never_moves_back_witness :
    ((rendererAtFrameStart Accuracy.ACC_LINE).runRender
        [⟨palVdp, 100⟩, ⟨palVdp, 1000⟩, ⟨palVdp, 3036⟩]).map
        (fun states => states.map (fun q => (q.nextX, q.nextY))) =
        some [(0, 0), (0, 1), (0, 2)] ∧
      (∀ states, (rendererAtFrameStart Accuracy.ACC_LINE).runRender
          [⟨palVdp, 100⟩, ⟨palVdp, 1000⟩, ⟨palVdp, 3036⟩] = some states →
        states.length = 3 ∧
        List.Chain (fun p q : PixelRenderer => rasterLE p.nextX p.nextY q.nextX q.nextY)
          (rendererAtFrameStart Accuracy.ACC_LINE) states) :=
  ⟨by decide,
    (cursor_never_moves_back 1368 (by decide) (rendererAtFrameStart Accuracy.ACC_LINE)
      [⟨palVdp, 100⟩, ⟨palVdp, 1000⟩, ⟨palVdp, 3036⟩] ⟨rfl, rfl⟩
      (by intro c hc; simp at hc; rcases hc with rfl | rfl | rfl <;> rfl)
      (by simp [palVdp])).1⟩

/-! The claims about the frame-skip pacing of `frameStart`. -/

/-- C18: the pacing decision of `frameStart`, with `c` the counter before the
call. Backend not active: not drawn, counter 0. Otherwise `c < minFrameSkip`:
not drawn, counter `c + 1`, whatever `maxFrameSkip` is. Otherwise
`c ≥ maxFrameSkip`: drawn, counter 0. Otherwise the frame is drawn exactly
when `timeLeft` answers true; the counter is then 0, and `c + 1` if not. -/
theorem frameStart_pacing (vdp : VDPState) (settings : RenderSettings)
    (active timeLeft : Bool) (s : PixelRenderer) :
    (active = false →
        (s.frameStart vdp settings active timeLeft).drawFrame = false ∧
        (s.frameStart vdp settings active timeLeft).frameSkipCounter = 0) ∧
      (active = true → s.frameSkipCounter < settings.minFrameSkip →
        (s.frameStart vdp settings active timeLeft).drawFrame = false ∧
        (s.frameStart vdp settings active timeLeft).frameSkipCounter =
          s.frameSkipCounter + 1) ∧
      (active = true → settings.minFrameSkip ≤ s.frameSkipCounter →
        settings.maxFrameSkip ≤ s.frameSkipCounter →
        (s.frameStart vdp settings active timeLeft).drawFrame = true ∧
        (s.frameStart vdp settings active timeLeft).frameSkipCounter = 0) ∧
      (active = true → settings.minFrameSkip ≤ s.frameSkipCounter →
        s.frameSkipCounter < settings.maxFrameSkip →
        (s.frameStart vdp settings active timeLeft).drawFrame = timeLeft ∧
        (s.frameStart vdp settings active timeLeft).frameSkipCounter =
          if timeLeft = true then 0 else s.frameSkipCounter + 1) := by
  refine ⟨fun ha => ?_, fun ha h1 => ?_, fun ha h1 h2 => ?_, fun ha h1 h2 => ?_⟩
  · subst ha
    have hd := PixelRenderer.frameStart_decision vdp settings false timeLeft s
    simp only [Bool.false_eq_true, not_false_eq_true, if_true, Prod.mk.injEq] at hd
    exact ⟨hd.2, hd.1⟩
  · subst ha
    have hd := PixelRenderer.frameStart_decision vdp settings true timeLeft s
    simp only [not_true_eq_false, if_false, h1, if_true, Prod.mk.injEq] at hd
    exact ⟨hd.2, hd.1⟩
  · subst ha
    have hd := PixelRenderer.frameStart_decision vdp settings true timeLeft s
    simp only [not_true_eq_false, if_false, not_lt.2 h1, ge_iff_le, h2, if_true,
      Prod.mk.injEq] at hd
    exact ⟨hd.2, hd.1⟩
  · subst ha
    have hd := PixelRenderer.frameStart_decision vdp settings true timeLeft s
    simp only [not_true_eq_false, if_false, not_lt.2 h1, ge_iff_le, not_le.2 h2] at hd
    cases timeLeft
    · simp only [Bool.false_eq_true, if_false, Prod.mk.injEq] at hd ⊢
      exact ⟨hd.2, hd.1⟩
    · simp only [if_true, Prod.mk.injEq] at hd ⊢
      exact ⟨hd.2, hd.1⟩

/-- Witness of C18: with `minFrameSkip = 2` and `maxFrameSkip = 0` a counter of
0 is below the minimum and at the maximum; the frame is skipped and the
counter becomes 1. -/
theorem frameStart_pacing_witness :
    ((rendererAtFrameStart Accuracy.ACC_PIXEL).frameStart palVdp minAboveMax true
        true).drawFrame = false ∧
      ((rendererAtFrameStart Accuracy.ACC_PIXEL).frameStart palVdp minAboveMax true
        true).frameSkipCounter = (rendererAtFrameStart Accuracy.ACC_PIXEL).frameSkipCounter + 1 :=
  (frameStart_pacing palVdp minAboveMax true true
    (rendererAtFrameStart Accuracy.ACC_PIXEL)).2.1 rfl (by decide)

/-- C19, as stated, fails when `minFrameSkip` exceeds `maxFrameSkip`: with
`minFrameSkip = 2`, `maxFrameSkip = 0`, a counter of 0 and an active backend,
the window of `maxFrameSkip + 1 = 1` `frameStart` call draws nothing (nor does
the window of the first two calls), whatever `timeLeft` answers. -/
theorem skip_ceiling_counterexample :
    minAboveMax.maxFrameSkip + 1 = 1 ∧
      0 ≤ (rendererAtFrameStart Accuracy.ACC_PIXEL).frameSkipCounter ∧
      (PixelRenderer.runFrames minAboveMax (rendererAtFrameStart Accuracy.ACC_PIXEL)
        [⟨palVdp, true, true⟩]).map (fun q => q.drawFrame) = [false] ∧
      (PixelRenderer.runFrames minAboveMax (rendererAtFrameStart Accuracy.ACC_PIXEL)
        [⟨palVdp, true, true⟩, ⟨palVdp, true, true⟩, ⟨palVdp, true, true⟩]).map
        (fun q => q.drawFrame) = [false, false, true] := by
  decide

/-- C19, amended: for constant settings with `minFrameSkip ≤ maxFrameSkip`,
every counter `≥ 0` at the start of the window and every behaviour of
`timeLeft`, if the backend is active at every `frameStart`, then every
non-empty window of at least `maxFrameSkip + 1` consecutive `frameStart` calls
contains a call that selects its frame for drawing. The counter stays `≥ 0`,
so this applies to every window of a run that starts with a counter `≥ 0`. -/
theorem skip_ceiling (settings : RenderSettings)
    (hmm : settings.minFrameSkip ≤ settings.maxFrameSkip) (s : PixelRenderer)
    (hc : 0 ≤ s.frameSkipCounter) (calls : List PixelRenderer.FrameCall)
    (hact : ∀ c ∈ calls, c.rasterizerActive = true) (hne : calls ≠ [])
    (hlen : settings.maxFrameSkip + 1 ≤ calls.length) :
    (∃ q ∈ PixelRenderer.runFrames settings s calls, q.drawFrame = true) ∧
      (∀ q ∈ PixelRenderer.runFrames settings s calls, 0 ≤ q.frameSkipCounter) :=
  ⟨PixelRenderer.runFrames_draws settings hmm calls s hact hne (by omega),
    PixelRenderer.runFrames_counter_nonneg settings calls s hc⟩

/-- Witness of the amended C19: with `minFrameSkip = 1`, `maxFrameSkip = 3` and
`timeLeft` always false, four consecutive `frameStart` calls from a counter of
0 contain a drawn frame (the fourth). -/
theorem skip_ceiling_witness :
    (∃ q ∈ PixelRenderer.runFrames skipOneToThree (rendererAtFrameStart Accuracy.ACC_PIXEL)
        [⟨palVdp, true, false⟩, ⟨palVdp, true, false⟩, ⟨palVdp, true, false⟩,
          ⟨palVdp, true, false⟩], q.drawFrame = true) ∧
      (PixelRenderer.runFrames skipOneToThree (rendererAtFrameStart Accuracy.ACC_PIXEL)
        [⟨palVdp, true, false⟩, ⟨palVdp, true, false⟩, ⟨palVdp, true, false⟩,
          ⟨palVdp, true, false⟩]).map (fun q => q.drawFrame) = [false, false, false, true] :=
  ⟨(skip_ceiling skipOneToThree (by decide) (rendererAtFrameStart Accuracy.ACC_PIXEL)
      (by decide)
      [⟨palVdp, true, false⟩, ⟨palVdp, true, false⟩, ⟨palVdp, true, false⟩,
        ⟨palVdp, true, false⟩]
      (by intro c hc; simp at hc; subst hc; rfl)
      (by simp) (by decide)).1, by decide⟩

/-- C20: under constant settings, if a `frameStart` call selects its frame for
drawing and, after any sequence `mid` of further `frameStart` calls and
nothing else, another `frameStart` call selects its frame for drawing, then at
least `minFrameSkip` of the calls of `mid` did not draw. -/
theorem skip_floor (settings : RenderSettings) (s : PixelRenderer)
    (first last : PixelRenderer.FrameCall) (mid : List PixelRenderer.FrameCall)
    (hfirst : (s.frameStart first.vdp settings first.rasterizerActive
      first.timeLeft).drawFrame = true)
    (hlast : (((PixelRenderer.runFrames settings
        (s.frameStart first.vdp settings first.rasterizerActive first.timeLeft) mid).getLastD
        (s.frameStart first.vdp settings first.rasterizerActive first.timeLeft)).frameStart
        last.vdp settings last.rasterizerActive last.timeLeft).drawFrame = true) :
    settings.minFrameSkip ≤
      (((PixelRenderer.runFrames settings
        (s.frameStart first.vdp settings first.rasterizerActive first.timeLeft) mid).filter
        (fun q => !q.drawFrame)).length : Int) := by
  have h0 := (PixelRenderer.frameStart_of_draw first.vdp settings first.rasterizerActive
    first.timeLeft s hfirst).1
  have hle := PixelRenderer.runFrames_counter_le settings mid
    (s.frameStart first.vdp settings first.rasterizerActive first.timeLeft) 0 (le_refl _)
    (by rw [h0])
  have hmin := (PixelRenderer.frameStart_of_draw last.vdp settings last.rasterizerActive
    last.timeLeft _ hlast).2.2
  omega

/-- Witness of C20: with `minFrameSkip = 1` and `maxFrameSkip = 3`, a drawn
frame, one skipped frame and a frame drawn because `timeLeft` answers true. -/
theorem skip_floor_witness :
    skipOneToThree.minFrameSkip ≤
      (((PixelRenderer.runFrames skipOneToThree
        ((PixelRenderer.mk 5 false false false true Accuracy.ACC_PIXEL 0 0 0 []).frameStart
          palVdp skipOneToThree true false) [⟨palVdp, true, true⟩]).filter
        (fun q => !q.drawFrame)).length : Int) :=
  skip_floor skipOneToThree (PixelRenderer.mk 5 false false false true Accuracy.ACC_PIXEL 0 0 0 [])
    ⟨palVdp, true, false⟩ ⟨palVdp, true, true⟩ [⟨palVdp, true, true⟩] (by decide) (by decide)

/-! The log of `draw` and `renderUntil`, and `frameStart`. -/

namespace PixelRenderer

theorem draw_log (vdp : VDPState) (s q : PixelRenderer) (d : DrawCall)
    (h : s.draw vdp d = some q) :
    ∃ evs, q.log = s.log ++ evs ∧ (∀ e ∈ evs, e.isDraw = true) ∧
      (∀ e ∈ evs, e.isDisplayDraw = true → d.drawType = DrawType.DRAW_DISPLAY) := by
  unfold draw at h
  cases hd : d.drawType with
  | DRAW_BORDER =>
    simp only [hd, Option.some.injEq] at h
    subst h
    exact ⟨[_], rfl, by simp [RenderEvent.isDraw], by simp [RenderEvent.isDisplayDraw]⟩
  | DRAW_DISPLAY =>
    simp only [hd] at h
    by_cases hs : vdp.spritesEnabled = true
    · simp only [hs, if_true] at h
      split_ifs at h <;> simp only [Option.some.injEq] at h <;> subst h <;>
        refine ⟨_, List.append_assoc _ _ _, ?_, fun _ _ _ => rfl⟩ <;>
        intro e he <;>
        simp only [List.mem_append, List.mem_singleton] at he <;>
        rcases he with rfl | rfl <;> rfl
    · simp only [hs, if_false, Bool.false_eq_true] at h
      split_ifs at h <;> simp only [Option.some.injEq] at h <;> subst h <;>
        refine ⟨[_], rfl, ?_, fun _ _ _ => rfl⟩ <;>
        intro e he <;>
        simp only [List.mem_singleton] at he <;>
        subst he <;> rfl

theorem drawAll_log (vdp : VDPState) (ds : List DrawCall) :
    ∀ (s q : PixelRenderer), drawAll vdp s ds = some q →
      ∃ evs, q.log = s.log ++ evs ∧ (∀ e ∈ evs, e.isDraw = true) ∧
        (∀ e ∈ evs, e.isDisplayDraw = true →
          ∃ d ∈ ds, d.drawType = DrawType.DRAW_DISPLAY) := by
  induction ds with
  | nil =>
    intro s q h
    simp only [drawAll, Option.some.injEq] at h
    subst h
    exact ⟨[], by simp, by simp, by simp⟩
  | cons d ds ih =>
    intro s q h
    unfold drawAll at h
    cases h1 : s.draw vdp d with
    | none => simp [h1] at h
    | some s1 =>
      simp only [h1] at h
      obtain ⟨e1, hl1, hd1, hp1⟩ := draw_log vdp s s1 d h1
      obtain ⟨e2, hl2, hd2, hp2⟩ := ih s1 q h
      refine ⟨e1 ++ e2, by rw [hl2, hl1, List.append_assoc], ?_, ?_⟩
      · intro e he
        rcases List.mem_append.1 he with he | he
        · exact hd1 e he
        · exact hd2 e he
      · intro e he hdis
        rcases List.mem_append.1 he with he | he
        · exact ⟨d, List.mem_cons_self _ _, hp1 e he hdis⟩
        · obtain ⟨d2, hd2m, hd2t⟩ := hp2 e he hdis
          exact ⟨d2, List.mem_cons_of_mem _ hd2m, hd2t⟩

theorem bands_display (vdp : VDPState) (s : PixelRenderer) (limitX limitY : Int)
    (d : DrawCall) (hd : d ∈ bands vdp s limitX limitY)
    (ht : d.drawType = DrawType.DRAW_DISPLAY) : s.displayEnabled = true := by
  by_contra hen
  unfold bands at hd
  simp only [hen, if_false, Bool.false_eq_true] at hd
  have := subdivide_drawType _ _ _ _ _ _ _ d hd
  rw [ht] at this
  exact absurd this (by decide)

/-- The calls a returning `renderUntil` makes: the sprite-checker update, if
the target is not the cursor and the display and the sprites are enabled, and
then draw calls only; display-area draws need an enabled display. -/
theorem renderUntil_log (vdp : VDPState) (s q : PixelRenderer) (time : Nat)
    (h : s.renderUntil vdp time = some q) :
    ∃ draws, q.log = s.log ++
        (if ¬ ((limit vdp s.accuracy time).1 = s.nextX ∧
              (limit vdp s.accuracy time).2 = s.nextY) ∧
            s.displayEnabled = true ∧ vdp.spritesEnabled = true
          then [RenderEvent.checkUntil time] else []) ++ draws ∧
      (∀ e ∈ draws, e.isDraw = true) ∧
      (∀ e ∈ draws, e.isDisplayDraw = true → s.displayEnabled = true) ∧
      (((limit vdp s.accuracy time).1 = s.nextX ∧
          (limit vdp s.accuracy time).2 = s.nextY) → draws = []) ∧
      q.frameSkipCounter = s.frameSkipCounter ∧ q.prevDrawFrame = s.prevDrawFrame ∧
      q.drawFrame = s.drawFrame ∧ q.renderFrame = s.renderFrame := by
  rw [renderUntil_eq] at h
  by_cases h1 : vdp.getTicksThisFrame time ≤ vdp.getTicksPerFrame
  · rw [if_pos h1] at h
    by_cases h2 : (limit vdp s.accuracy time).1 = s.nextX ∧
        (limit vdp s.accuracy time).2 = s.nextY
    · rw [if_pos h2] at h
      simp only [Option.some.injEq] at h
      subst h
      exact ⟨[], by simp [h2], by simp, by simp, fun _ => rfl, rfl, rfl, rfl, rfl⟩
    · rw [if_neg h2] at h
      cases hd : drawAll vdp (checkSprites vdp s time)
          (bands vdp s (limit vdp s.accuracy time).1 (limit vdp s.accuracy time).2) with
      | none => simp [hd] at h
      | some s2 =>
        simp only [hd, Option.map_some', Option.some.injEq] at h
        subst h
        obtain ⟨evs, hl, hdr, hdis⟩ := drawAll_log vdp _ _ s2 hd
        have hfs := (drawAll_some vdp _ _ s2 hd).trans (checkSprites_frameState vdp s time)
        refine ⟨evs, ?_, hdr, ?_, fun h => absurd h h2,
          congrArg (fun c => c.1) hfs, congrArg (fun c => c.2.1) hfs,
          congrArg (fun c => c.2.2.1) hfs, congrArg (fun c => c.2.2.2.1) hfs⟩
        · show s2.log = _
          rw [hl]
          unfold checkSprites
          by_cases hc : s.displayEnabled = true ∧ vdp.spritesEnabled = true
          · simp only [hc, h2, and_self, not_false_eq_true, if_true]
          · rw [if_neg hc, if_neg (fun hh => hc hh.2)]
            simp
        · intro e he hed
          obtain ⟨d, hdm, hdt⟩ := hdis e he hed
          exact bands_display vdp s _ _ d hdm hdt
  · rw [if_neg h1] at h
    simp at h

end PixelRenderer

/-- C21: after `frameStart`, `prevDrawFrame` is the previous `drawFrame` and
`renderFrame` is `drawFrame || (prevDrawFrame && interlaced && deinterlace)`,
so a drawn frame is rendered. If `renderFrame` holds, the cursor is `(0, 0)`,
`textModeCounter` is 0, `accuracy` is the value of the setting and the one
call made is `rasterizer->frameStart()`; if it does not hold, the cursor,
`textModeCounter` and `accuracy` are unchanged and no call is made on the
rasterizer (the answer of the query `rasterizer->isActive()` is an input). -/
theorem frameStart_contract (vdp : VDPState) (settings : RenderSettings)
    (rasterizerActive timeLeft : Bool) (s : PixelRenderer) :
    (s.frameStart vdp settings rasterizerActive timeLeft).prevDrawFrame = s.drawFrame ∧
    (s.frameStart vdp settings rasterizerActive timeLeft).renderFrame =
      ((s.frameStart vdp settings rasterizerActive timeLeft).drawFrame ||
        ((s.frameStart vdp settings rasterizerActive timeLeft).prevDrawFrame &&
          vdp.isInterlaced && settings.deinterlace)) ∧
    ((s.frameStart vdp settings rasterizerActive timeLeft).drawFrame = true →
      (s.frameStart vdp settings rasterizerActive timeLeft).renderFrame = true) ∧
    ((s.frameStart vdp settings rasterizerActive timeLeft).renderFrame = true →
      (s.frameStart vdp settings rasterizerActive timeLeft).nextX = 0 ∧
      (s.frameStart vdp settings rasterizerActive timeLeft).nextY = 0 ∧
      (s.frameStart vdp settings rasterizerActive timeLeft).textModeCounter = 0 ∧
      (s.frameStart vdp settings rasterizerActive timeLeft).accuracy = settings.accuracy ∧
      (s.frameStart vdp settings rasterizerActive timeLeft).log =
        s.log ++ [RenderEvent.rasterizerFrameStart]) ∧
    ((s.frameStart vdp settings rasterizerActive timeLeft).renderFrame = false →
      (s.frameStart vdp settings rasterizerActive timeLeft).nextX = s.nextX ∧
      (s.frameStart vdp settings rasterizerActive timeLeft).nextY = s.nextY ∧
      (s.frameStart vdp settings rasterizerActive timeLeft).textModeCounter =
        s.textModeCounter ∧
      (s.frameStart vdp settings rasterizerActive timeLeft).accuracy = s.accuracy ∧
      (s.frameStart vdp settings rasterizerActive timeLeft).log = s.log) := by
  unfold PixelRenderer.frameStart
  dsimp only
  split_ifs <;> simp_all

/-- Witness of C21: a renderer whose counter has reached the maximum draws and
renders its frame, with the cursor at `(0, 0)`, the accuracy of the setting and
one call of the rasterizer; a renderer that has to skip leaves everything as
it was. -/
theorem frameStart_contract_witness :
    ((PixelRenderer.mk 5 false false false true Accuracy.ACC_LINE 7 9 2 []).frameStart
        palVdp skipOneToThree true false).nextX = 0 ∧
      ((PixelRenderer.mk 5 false false false true Accuracy.ACC_LINE 7 9 2 []).frameStart
        palVdp skipOneToThree true false).accuracy = Accuracy.ACC_PIXEL ∧
      ((PixelRenderer.mk 0 false true true true Accuracy.ACC_LINE 7 9 2 []).frameStart
        palVdp skipOneToThree true false).nextX = 7 ∧
      ((PixelRenderer.mk 0 false true true true Accuracy.ACC_LINE 7 9 2 []).frameStart
        palVdp skipOneToThree true false).log = [] :=
  ⟨((frameStart_contract palVdp skipOneToThree true false
      (PixelRenderer.mk 5 false false false true Accuracy.ACC_LINE 7 9 2 [])).2.2.2.1
      (by decide)).1,
    ((frameStart_contract palVdp skipOneToThree true false
      (PixelRenderer.mk 5 false false false true Accuracy.ACC_LINE 7 9 2 [])).2.2.2.1
      (by decide)).2.2.2.1,
    ((frameStart_contract palVdp skipOneToThree true false
      (PixelRenderer.mk 0 false true true true Accuracy.ACC_LINE 7 9 2 [])).2.2.2.2
      (by decide)).1,
    ((frameStart_contract palVdp skipOneToThree true false
      (PixelRenderer.mk 0 false true true true Accuracy.ACC_LINE 7 9 2 [])).2.2.2.2
      (by decide)).2.2.2.2⟩

/-! Frames that are not rendered. -/

namespace PixelRenderer

theorem sync_of_skipped (w : World) (s : PixelRenderer) (time : Nat) (force : Bool)
    (h : s.renderFrame = false) : s.sync w time force = some s := by
  unfold sync
  simp [h]

theorem syncIfDisplayEnabled_of_skipped (w : World) (s : PixelRenderer) (time : Nat)
    (h : s.renderFrame = false) : s.syncIfDisplayEnabled w time = some s := by
  unfold syncIfDisplayEnabled
  split_ifs
  · exact sync_of_skipped w s time false h
  · rfl

theorem skippedStep_same (s : PixelRenderer) : SkippedStep s s :=
  ⟨rfl, rfl, rfl, rfl, rfl, rfl, rfl, [], (List.append_nil _).symm, by simp⟩

theorem skippedStep_trans {s q r : PixelRenderer} (h1 : SkippedStep s q)
    (h2 : SkippedStep q r) : SkippedStep s r := by
  obtain ⟨a1, a2, a3, a4, a5, a6, a7, e1, hl1, he1⟩ := h1
  obtain ⟨b1, b2, b3, b4, b5, b6, b7, e2, hl2, he2⟩ := h2
  refine ⟨b1.trans a1, b2.trans a2, b3.trans a3, b4.trans a4, b5.trans a5, b6.trans a6,
    b7.trans a7, e1 ++ e2, by rw [hl2, hl1, List.append_assoc], ?_⟩
  intro e he
  rcases List.mem_append.1 he with he | he
  · exact he1 e he
  · exact he2 e he

theorem skippedStep_logged (s : PixelRenderer) (e : RenderEvent)
    (he : e.isRendering = false) : SkippedStep s { s with log := s.log ++ [e] } :=
  ⟨rfl, rfl, rfl, rfl, rfl, rfl, rfl, [e], rfl, by simpa using he⟩

/-- One call in a frame that is not rendered returns, unless it is `update`
for a foreign setting, and is a `SkippedStep`. -/
theorem step_skipped (w : World) (s : PixelRenderer) (c : Call)
    (hrf : s.renderFrame = false) (hc : c.startsFrame = false)
    (hset : c ≠ Call.update Setting.other) :
    ∃ q, step w s c = some q ∧ SkippedStep s q := by
  have hsync : ∀ t f, s.sync w t f = some s :=
    fun t f => sync_of_skipped w s t f hrf
  have hsd : ∀ t, s.syncIfDisplayEnabled w t = some s :=
    fun t => syncIfDisplayEnabled_of_skipped w s t hrf
  cases c with
  | reset time => simp [Call.startsFrame] at hc
  | frameStart time => simp [Call.startsFrame] at hc
  | frameEnd time =>
    exact ⟨s, by simp [step, frameEnd, hrf], skippedStep_same s⟩
  | sync time force => exact ⟨s, hsync time force, skippedStep_same s⟩
  | updateVRAM offset time =>
    exact ⟨{ s with log := s.log ++ [RenderEvent.updateVRAMCache offset] },
      by simp [step, updateVRAM, hrf],
      skippedStep_logged s (RenderEvent.updateVRAMCache offset) rfl⟩
  | updateWindow enabled time => exact ⟨s, rfl, skippedStep_same s⟩
  | updateDisplayEnabled enabled time =>
    exact ⟨{ s with displayEnabled := enabled }, by simp [step, updateDisplayEnabled, hsync],
      rfl, rfl, rfl, rfl, rfl, rfl, rfl, [], (List.append_nil _).symm, by simp⟩
  | updateHorizontalScrollLow scroll time => exact ⟨s, hsd time, skippedStep_same s⟩
  | updateHorizontalScrollHigh scroll time => exact ⟨s, hsd time, skippedStep_same s⟩
  | updateBorderMask masked time => exact ⟨s, hsd time, skippedStep_same s⟩
  | updateMultiPage multiPage time => exact ⟨s, hsd time, skippedStep_same s⟩
  | updateTransparency enabled time =>
    exact ⟨{ s with log := s.log ++ [RenderEvent.setTransparency enabled] },
      by simp [step, updateTransparency, hsd],
      skippedStep_logged s (RenderEvent.setTransparency enabled) rfl⟩
  | updateForegroundColour colour time => exact ⟨s, hsd time, skippedStep_same s⟩
  | updateBackgroundColour colour time =>
    by_cases hm : w.vdp.getDisplayMode.getByte ≠ w.modes.GRAPHIC7
    · exact ⟨{ s with log := s.log ++ [RenderEvent.setBackgroundColour colour] },
        by simp only [step, updateBackgroundColour, hsync, hm, if_true, ne_eq,
          not_false_eq_true],
        skippedStep_logged s (RenderEvent.setBackgroundColour colour) rfl⟩
    · exact ⟨s, by simp only [step, updateBackgroundColour, hsync, hm, if_false],
        skippedStep_same s⟩
  | updateBlinkForegroundColour colour time => exact ⟨s, hsd time, skippedStep_same s⟩
  | updateBlinkBackgroundColour colour time => exact ⟨s, hsd time, skippedStep_same s⟩
  | updateBlinkState enabled time => exact ⟨s, rfl, skippedStep_same s⟩
  | updatePalette index grb time =>
    refine ⟨{ s with log := s.log ++ [RenderEvent.setPalette index grb] }, ?_,
      skippedStep_logged s (RenderEvent.setPalette index grb) rfl⟩
    simp only [step, updatePalette, hsync, ite_self]
  | updateVerticalScroll scroll time => exact ⟨s, hsd time, skippedStep_same s⟩
  | updateHorizontalAdjust adjust time => exact ⟨s, hsd time, skippedStep_same s⟩
  | updateDisplayMode mode time =>
    refine ⟨{ s with log := s.log ++ [RenderEvent.setDisplayMode mode] }, ?_,
      skippedStep_logged s (RenderEvent.setDisplayMode mode) rfl⟩
    simp only [step, updateDisplayMode, hsync, ite_self]
  | updateNameBase addr time => exact ⟨s, hsd time, skippedStep_same s⟩
  | updatePatternBase addr time => exact ⟨s, hsd time, skippedStep_same s⟩
  | updateColourBase addr time => exact ⟨s, hsd time, skippedStep_same s⟩
  | updateSpritesEnabled enabled time => exact ⟨s, hsd time, skippedStep_same s⟩
  | update setting =>
    cases setting with
    | minFrameSkip =>
      exact ⟨_, rfl, rfl, rfl, rfl, rfl, rfl, rfl, rfl, [], (List.append_nil _).symm, by simp⟩
    | maxFrameSkip =>
      exact ⟨_, rfl, rfl, rfl, rfl, rfl, rfl, rfl, rfl, [], (List.append_nil _).symm, by simp⟩
    | other => exact absurd rfl hset

theorem run_skipped (calls : List (World × Call)) :
    ∀ (s : PixelRenderer), s.renderFrame = false →
      (∀ c ∈ calls, c.2.startsFrame = false) →
      (∀ c ∈ calls, c.2 ≠ Call.update Setting.other) →
      ∃ q, run s calls = some q ∧ SkippedStep s q := by
  induction calls with
  | nil => intro s _ _ _; exact ⟨s, rfl, skippedStep_same s⟩
  | cons c cs ih =>
    intro s hrf hc hset
    obtain ⟨s1, h1, hs1⟩ := step_skipped c.1 s c.2 hrf (hc c (List.mem_cons_self _ _))
      (hset c (List.mem_cons_self _ _))
    obtain ⟨q, hq, hsq⟩ := ih s1 (hs1.1.trans hrf)
      (fun d hd => hc d (List.mem_cons_of_mem _ hd))
      (fun d hd => hset d (List.mem_cons_of_mem _ hd))
    exact ⟨q, by simp [run, h1, hq], skippedStep_trans hs1 hsq⟩

end PixelRenderer

/-- C22: in a frame that is not rendered (`renderFrame` false), every sequence
of calls of `sync` (forced or not), `updateVRAM`, the register-update handlers,
`frameEnd` and `update` for one of the two frame-skip settings, none of them
`frameStart` or `reset`, returns with `renderFrame` still false and the cursor
where it was, and the calls it makes contain no draw call, no
`spriteChecker.checkUntil`, no `vram.sync`, no `rasterizer->frameEnd()` and no
frame-completed event. -/
theorem skipped_frame_noop (s : PixelRenderer) (calls : List (World × PixelRenderer.Call))
    (hrf : s.renderFrame = false)
    (hcalls : ∀ c ∈ calls, c.2.startsFrame = false)
    (hset : ∀ c ∈ calls, c.2 ≠ PixelRenderer.Call.update Setting.other) :
    ∃ q, PixelRenderer.run s calls = some q ∧ q.renderFrame = false ∧
      q.nextX = s.nextX ∧ q.nextY = s.nextY ∧
      ∃ evs, q.log = s.log ++ evs ∧ ∀ e ∈ evs, e.isRendering = false := by
  obtain ⟨q, hq, h1, _, _, _, _, h6, h7, h8⟩ := PixelRenderer.run_skipped calls s hrf hcalls hset
  exact ⟨q, hq, h1.trans hrf, h6, h7, h8⟩

/-- Witness of C22: in a skipped frame a forced sync, a VRAM change, a palette
change, the disabling of the display and the end of the frame leave the cursor
at `(0, 0)` and call `updateVRAMCache` and `setPalette` only. -/
theorem skipped_frame_noop_witness :
    (∃ q, PixelRenderer.run rendererSkipping
        [(palWorld, PixelRenderer.Call.sync 3036 true),
          (palWorld, PixelRenderer.Call.updateVRAM 0x1900 3036),
          (palWorld, PixelRenderer.Call.updatePalette 4 0x123 3036),
          (palWorld, PixelRenderer.Call.updateDisplayEnabled false 3036),
          (palWorld, PixelRenderer.Call.frameEnd 400000)] = some q ∧
        q.renderFrame = false ∧
        q.nextX = rendererSkipping.nextX ∧ q.nextY = rendererSkipping.nextY ∧
        ∃ evs, q.log = rendererSkipping.log ++ evs ∧ ∀ e ∈ evs, e.isRendering = false) ∧
      (PixelRenderer.run rendererSkipping
        [(palWorld, PixelRenderer.Call.sync 3036 true),
          (palWorld, PixelRenderer.Call.updateVRAM 0x1900 3036),
          (palWorld, PixelRenderer.Call.updatePalette 4 0x123 3036),
          (palWorld, PixelRenderer.Call.updateDisplayEnabled false 3036),
          (palWorld, PixelRenderer.Call.frameEnd 400000)]).map (fun q => q.log) =
        some [RenderEvent.updateVRAMCache 0x1900, RenderEvent.setPalette 4 0x123] :=
  ⟨skipped_frame_noop rendererSkipping _ rfl
      (by intro c hc; simp at hc; rcases hc with rfl | rfl | rfl | rfl | rfl <;> rfl)
      (by intro c hc; simp at hc; rcases hc with rfl | rfl | rfl | rfl | rfl <;> simp),
    by decide⟩

/-! The work of a sync. -/

namespace PixelRenderer

theorem isSyncWork_of_isDraw (e : RenderEvent) (h : e.isDraw = true) :
    e.isSyncWork = true := by
  cases e <;> first | rfl | simp [RenderEvent.isDraw] at h

theorem syncStep_same (s : PixelRenderer) : SyncStep s s :=
  ⟨rfl, rfl, rfl, rfl, rfl, rfl, [], (List.append_nil _).symm, by simp, by simp⟩

theorem syncStep_trans {s q r : PixelRenderer} (h1 : SyncStep s q) (h2 : SyncStep q r) :
    SyncStep s r := by
  obtain ⟨a1, a2, a3, a4, a5, a6, e1, hl1, hw1, hd1⟩ := h1
  obtain ⟨b1, b2, b3, b4, b5, b6, e2, hl2, hw2, hd2⟩ := h2
  refine ⟨b1.trans a1, b2.trans a2, b3.trans a3, b4.trans a4, b5.trans a5, b6.trans a6,
    e1 ++ e2, by rw [hl2, hl1, List.append_assoc], ?_, ?_⟩
  · intro e he
    rcases List.mem_append.1 he with he | he
    · exact hw1 e he
    · exact hw2 e he
  · intro e he hdis
    rcases List.mem_append.1 he with he | he
    · exact hd1 e he hdis
    · exact a5 ▸ hd2 e he hdis

theorem syncStep_logged (s : PixelRenderer) (e : RenderEvent) (he : e.isSyncWork = true)
    (hd : e.isDisplayDraw = false) : SyncStep s { s with log := s.log ++ [e] } := by
  refine ⟨rfl, rfl, rfl, rfl, rfl, rfl, [e], rfl, ?_, ?_⟩
  · intro e2 h2
    rw [List.mem_singleton.1 h2]
    exact he
  · intro e2 h2 h3
    rw [List.mem_singleton.1 h2, hd] at h3
    exact absurd h3 (by decide)

theorem renderUntil_syncStep (vdp : VDPState) (s q : PixelRenderer) (time : Nat)
    (h : s.renderUntil vdp time = some q) : SyncStep s q := by
  obtain ⟨_, _, _, hacc, hen⟩ := renderUntil_some vdp s q time h
  obtain ⟨draws, hl, hdr, hdis, _, c1, c2, c3, c4⟩ := renderUntil_log vdp s q time h
  refine ⟨c1, c2, c3, c4, hen, hacc,
    (if ¬ ((limit vdp s.accuracy time).1 = s.nextX ∧
          (limit vdp s.accuracy time).2 = s.nextY) ∧
        s.displayEnabled = true ∧ vdp.spritesEnabled = true
      then [RenderEvent.checkUntil time] else []) ++ draws,
    by rw [hl, List.append_assoc], ?_, ?_⟩
  · intro e he
    rcases List.mem_append.1 he with he | he
    · split_ifs at he
      · rw [List.mem_singleton.1 he]; rfl
      · simp at he
    · exact isSyncWork_of_isDraw e (hdr e he)
  · intro e he hd
    rcases List.mem_append.1 he with he | he
    · split_ifs at he with hc
      · exact hc.2.1
      · simp at he
    · exact hdis e he hd

theorem updateVRAM_syncStep (w : World) (s q : PixelRenderer) (offset time : Nat)
    (h : s.updateVRAM w offset time = some q) : SyncStep s q := by
  unfold updateVRAM at h
  dsimp only at h
  cases hn : (if s.renderFrame = true ∧ s.displayEnabled = true then s.checkSync w offset time
      else some false) with
  | none => simp [hn] at h
  | some b =>
    cases b with
    | false =>
      simp only [hn, Option.some.injEq] at h
      subst h
      exact syncStep_logged s _ rfl rfl
    | true =>
      simp only [hn] at h
      cases hr : s.renderUntil w.vdp time with
      | none => simp [hr] at h
      | some q0 =>
        simp only [hr, Option.some.injEq] at h
        subst h
        exact syncStep_trans (renderUntil_syncStep w.vdp s q0 time hr)
          (syncStep_logged q0 _ rfl rfl)

theorem hooks_syncStep (w : World) (es : List Event) :
    ∀ (s q : PixelRenderer), hooks w s es = some q → SyncStep s q := by
  induction es with
  | nil =>
    intro s q h
    simp only [hooks, Option.some.injEq] at h
    subst h
    exact syncStep_same s
  | cons e es ih =>
    intro s q h
    cases e with
    | updateVRAM window observer offset time seen =>
      simp only [hooks] at h
      by_cases ho : observer = w.renderer
      · rw [if_pos ho] at h
        cases hu : s.updateVRAM w offset time with
        | none => simp [hu] at h
        | some s1 =>
          simp only [hu] at h
          exact syncStep_trans (updateVRAM_syncStep w s s1 offset time hu) (ih s1 q h)
      · rw [if_neg ho] at h
        exact ih s q h
    | updateWindow observer enabled time held =>
      simp only [hooks] at h
      exact ih s q h
    | cmdSync time =>
      simp only [hooks] at h
      exact ih s q h

theorem updateVRAM_cache (w : World) (s q : PixelRenderer) (offset time : Nat)
    (h : s.updateVRAM w offset time = some q) :
    ∃ evs, q.log = s.log ++ evs ∧ RenderEvent.updateVRAMCache offset ∈ evs := by
  unfold updateVRAM at h
  dsimp only at h
  cases hn : (if s.renderFrame = true ∧ s.displayEnabled = true then s.checkSync w offset time
      else some false) with
  | none => simp [hn] at h
  | some b =>
    cases b with
    | false =>
      simp only [hn, Option.some.injEq] at h
      subst h
      exact ⟨[_], rfl, List.mem_singleton.2 rfl⟩
    | true =>
      simp only [hn] at h
      cases hr : s.renderUntil w.vdp time with
      | none => simp [hr] at h
      | some q0 =>
        simp only [hr, Option.some.injEq] at h
        subst h
        obtain ⟨_, _, _, _, _, _, evs, hl, _, _⟩ := renderUntil_syncStep w.vdp s q0 time hr
        exact ⟨evs ++ [RenderEvent.updateVRAMCache offset],
          by show q0.log ++ _ = _; rw [hl, List.append_assoc],
          List.mem_append.2 (Or.inr (List.mem_singleton.2 rfl))⟩

/-- Every `updateVRAM(offset, time)` the VRAM called on this renderer reached
`rasterizer->updateVRAMCache(offset)`. -/
theorem hooks_cache (w : World) (es : List Event) :
    ∀ (s q : PixelRenderer), hooks w s es = some q →
      ∃ evs, q.log = s.log ++ evs ∧
        ∀ window offset t seen, Event.updateVRAM window w.renderer offset t seen ∈ es →
          RenderEvent.updateVRAMCache offset ∈ evs := by
  induction es with
  | nil =>
    intro s q h
    simp only [hooks, Option.some.injEq] at h
    subst h
    exact ⟨[], (List.append_nil _).symm, by simp⟩
  | cons e es ih =>
    intro s q h
    cases e with
    | updateVRAM window observer offset time seen =>
      simp only [hooks] at h
      by_cases ho : observer = w.renderer
      · rw [if_pos ho] at h
        cases hu : s.updateVRAM w offset time with
        | none => simp [hu] at h
        | some s1 =>
          simp only [hu] at h
          obtain ⟨e1, hl1, hc1⟩ := updateVRAM_cache w s s1 offset time hu
          obtain ⟨e2, hl2, hc2⟩ := ih s1 q h
          refine ⟨e1 ++ e2, by rw [hl2, hl1, List.append_assoc], ?_⟩
          intro window2 offset2 t2 seen2 hmem
          rcases List.mem_cons.1 hmem with heq | htail
          · simp only [Event.updateVRAM.injEq] at heq
            rw [heq.2.2.1]
            exact List.mem_append.2 (Or.inl hc1)
          · exact List.mem_append.2 (Or.inr (hc2 _ _ _ _ htail))
      · rw [if_neg ho] at h
        obtain ⟨e2, hl2, hc2⟩ := ih s q h
        refine ⟨e2, hl2, ?_⟩
        intro window2 offset2 t2 seen2 hmem
        rcases List.mem_cons.1 hmem with heq | htail
        · simp only [Event.updateVRAM.injEq] at heq
          exact absurd heq.2.1.symm ho
        · exact hc2 _ _ _ _ htail
    | updateWindow observer enabled time held =>
      simp only [hooks] at h
      obtain ⟨e2, hl2, hc2⟩ := ih s q h
      refine ⟨e2, hl2, ?_⟩
      intro window2 offset2 t2 seen2 hmem
      rcases List.mem_cons.1 hmem with heq | htail
      · simp at heq
      · exact hc2 _ _ _ _ htail
    | cmdSync time =>
      simp only [hooks] at h
      obtain ⟨e2, hl2, hc2⟩ := ih s q h
      refine ⟨e2, hl2, ?_⟩
      intro window2 offset2 t2 seen2 hmem
      rcases List.mem_cons.1 hmem with heq | htail
      · simp at heq
      · exact hc2 _ _ _ _ htail

/-- A returning `vram.sync(time)` of the renderer: `VDPVRAM::sync` returned,
and the calls of the renderer are `vram.sync(time)` followed by the work of
its hooks. -/
theorem vramSync_work (w : World) (s q : PixelRenderer) (time : Nat)
    (h : s.vramSync w time = some q) :
    (∃ v, w.vram.sync time = some v) ∧
      SyncStep { s with log := s.log ++ [RenderEvent.vramSync time] } q := by
  unfold vramSync at h
  cases hv : w.vram.sync time with
  | none => simp [hv] at h
  | some v =>
    simp only [hv] at h
    exact ⟨⟨v, rfl⟩, hooks_syncStep w _ _ q h⟩

theorem sync_eq (w : World) (s : PixelRenderer) (time : Nat) (force : Bool)
    (hr : s.renderFrame = true) (hf : s.accuracy ≠ Accuracy.ACC_SCREEN ∨ force = true) :
    s.sync w time force =
      (s.vramSync w time).bind (fun s1 => renderUntil w.vdp s1 time) := by
  unfold sync
  rw [if_neg (by simp [hr]), if_pos hf]
  cases s.vramSync w time <;> rfl

/-- In a returning sync that runs, every hook the VRAM called reached
`updateVRAMCache` after `vram.sync(time)`. -/
theorem sync_hooks (w : World) (s q : PixelRenderer) (time : Nat) (force : Bool)
    (hr : s.renderFrame = true) (hf : s.accuracy ≠ Accuracy.ACC_SCREEN ∨ force = true)
    (h : s.sync w time force = some q) :
    ∃ rest, q.log = s.log ++ [RenderEvent.vramSync time] ++ rest ∧
      ∀ v, w.vram.sync time = some v →
        ∀ window offset t seen,
          Event.updateVRAM window w.renderer offset t seen ∈ v.log.drop w.vram.log.length →
          RenderEvent.updateVRAMCache offset ∈ rest := by
  rw [sync_eq w s time force hr hf] at h
  cases hv : s.vramSync w time with
  | none => simp [hv] at h
  | some s1 =>
    simp only [hv, Option.some_bind] at h
    obtain ⟨_, _, _, _, _, _, e2, hl2, _, _⟩ := renderUntil_syncStep w.vdp s1 q time h
    unfold vramSync at hv
    cases hvr : w.vram.sync time with
    | none => simp [hvr] at hv
    | some v0 =>
      simp only [hvr] at hv
      obtain ⟨e1, hl1, hc1⟩ := hooks_cache w _ _ s1 hv
      refine ⟨e1 ++ e2, by rw [hl2, hl1]; simp only [List.append_assoc], ?_⟩
      intro v hveq window offset t seen hmem
      simp only [Option.some.injEq] at hveq
      subst hveq
      exact List.mem_append.2 (Or.inl (hc1 _ _ _ _ hmem))

/-- What a returning `sync` did. In a rendered frame whose accuracy is not
SCREEN, or when forced, `VDPVRAM::sync` returned, the calls start with
`vram.sync(time)` and the cursor is the target of `time`. -/
theorem sync_work (w : World) (s q : PixelRenderer) (time : Nat) (force : Bool)
    (h : s.sync w time force = some q) :
    SyncStep s q ∧
      (s.renderFrame = true → (s.accuracy ≠ Accuracy.ACC_SCREEN ∨ force = true) →
        (∃ v, w.vram.sync time = some v) ∧
        q.nextX = (limit w.vdp s.accuracy time).1 ∧
        q.nextY = (limit w.vdp s.accuracy time).2 ∧
        ∃ rest, q.log = s.log ++ [RenderEvent.vramSync time] ++ rest ∧
          (∀ e ∈ rest, e.isSyncWork = true) ∧
          (∀ e ∈ rest, e.isDisplayDraw = true → s.displayEnabled = true)) := by
  by_cases hr : s.renderFrame = true
  · by_cases hf : s.accuracy ≠ Accuracy.ACC_SCREEN ∨ force = true
    · rw [sync_eq w s time force hr hf] at h
      cases hv : s.vramSync w time with
      | none => simp [hv] at h
      | some s1 =>
        simp only [hv, Option.some_bind] at h
        obtain ⟨hex, hs1⟩ := vramSync_work w s s1 time hv
        have hs2 := renderUntil_syncStep w.vdp s1 q time h
        obtain ⟨_, hx, hy, _, _⟩ := renderUntil_some w.vdp s1 q time h
        have hall := syncStep_trans hs1 hs2
        obtain ⟨a1, a2, a3, a4, a5, a6, rest, hl, hw, hd⟩ := hall
        have hacc1 : s1.accuracy = s.accuracy := hs1.2.2.2.2.2.1
        refine ⟨⟨a1, a2, a3, a4, a5, a6, [RenderEvent.vramSync time] ++ rest,
          by rw [hl]; simp only [List.append_assoc], ?_, ?_⟩, fun _ _ =>
          ⟨hex, by rw [hx, hacc1], by rw [hy, hacc1], rest,
            by rw [hl], hw, hd⟩⟩
        · intro e he
          rcases List.mem_append.1 he with he | he
          · rw [List.mem_singleton.1 he]; rfl
          · exact hw e he
        · intro e he hdis
          rcases List.mem_append.1 he with he | he
          · rw [List.mem_singleton.1 he] at hdis
            simp [RenderEvent.isDisplayDraw] at hdis
          · exact hd e he hdis
    · unfold sync at h
      rw [if_neg (by simp [hr]), if_neg hf] at h
      simp only [Option.some.injEq] at h
      subst h
      exact ⟨syncStep_same s, fun _ h2 => absurd h2 hf⟩
  · unfold sync at h
    rw [if_pos hr] at h
    simp only [Option.some.injEq] at h
    subst h
    exact ⟨syncStep_same s, fun h2 => absurd h2 hr⟩

end PixelRenderer

/-- C23, as stated, fails. The command engine has a write pending at time 50
and the renderer observes the bitmap-visible window. In a frame that is not
rendered a forced `sync(3036, true)` returns the renderer as it was, having
called nothing, whereas in a rendered frame the same call starts with
`vram.sync(3036)`, during which the pending write reaches the renderer's
`updateVRAM` hook. At a time outside the frame the skipped frame's sync still
returns, where `vram.sync` aborts. -/
theorem sync_skipped_frame_counterexample :
    PixelRenderer.sync palWorldPending rendererSkipping 3036 true = some rendererSkipping ∧
      rendererSkipping.log = [] ∧
      ((PixelRenderer.sync palWorldPending (rendererAtFrameStart Accuracy.ACC_PIXEL) 3036
          true).map (fun q => q.log.take 2)) =
        some [RenderEvent.vramSync 3036, RenderEvent.updateVRAMCache 0x100] ∧
      PixelRenderer.sync palWorldOutside rendererSkipping 3036 true = some rendererSkipping ∧
      PixelRenderer.sync palWorldOutside (rendererAtFrameStart Accuracy.ACC_PIXEL) 3036 true =
        none := by
  decide

/-- C23, amended: in a frame that is not rendered `sync(time, force)` returns
at once, without `vram.sync(time)` and without `renderUntil(time)`, whatever
the VRAM and the command engine hold. In a rendered frame whose accuracy is not
SCREEN, or when `force` is set, it is `vram.sync(time)`, with the hooks the
VRAM calls on the renderer meanwhile, followed by `renderUntil(time)`: it
aborts when `VDPVRAM::sync` does, and when it returns its calls start with
`vram.sync(time)`, every `updateVRAM(offset, t)` the VRAM called on the
renderer has reached `updateVRAMCache(offset)`, and the cursor is the target
of `time`. In a rendered frame under SCREEN accuracy a sync that is not forced
does nothing. -/
theorem sync_contract (w : World) (s : PixelRenderer) (time : Nat) (force : Bool) :
    (s.renderFrame = false → s.sync w time force = some s) ∧
      (s.renderFrame = true → (s.accuracy ≠ Accuracy.ACC_SCREEN ∨ force = true) →
        s.sync w time force =
            (s.vramSync w time).bind (fun s1 => PixelRenderer.renderUntil w.vdp s1 time) ∧
          s.vramSync w time =
            (w.vram.sync time).bind (fun v =>
              PixelRenderer.hooks w { s with log := s.log ++ [RenderEvent.vramSync time] }
                (v.log.drop w.vram.log.length)) ∧
          (w.vram.sync time = none → s.sync w time force = none) ∧
          ∀ q, s.sync w time force = some q →
            q.nextX = (PixelRenderer.limit w.vdp s.accuracy time).1 ∧
            q.nextY = (PixelRenderer.limit w.vdp s.accuracy time).2 ∧
            ∃ rest, q.log = s.log ++ [RenderEvent.vramSync time] ++ rest ∧
              (∀ e ∈ rest, e.isSyncWork = true) ∧
              ∀ v, w.vram.sync time = some v →
                ∀ window offset t seen,
                  Event.updateVRAM window w.renderer offset t seen ∈
                      v.log.drop w.vram.log.length →
                    RenderEvent.updateVRAMCache offset ∈ rest) ∧
      (s.renderFrame = true → s.accuracy = Accuracy.ACC_SCREEN → force = false →
        s.sync w time force = some s) := by
  refine ⟨PixelRenderer.sync_of_skipped w s time force, fun hr hf => ?_, fun hr ha hf => ?_⟩
  · have hvs : s.vramSync w time =
        (w.vram.sync time).bind (fun v =>
          PixelRenderer.hooks w { s with log := s.log ++ [RenderEvent.vramSync time] }
            (v.log.drop w.vram.log.length)) := by
      unfold PixelRenderer.vramSync
      cases w.vram.sync time <;> rfl
    refine ⟨PixelRenderer.sync_eq w s time force hr hf, hvs, fun hnone => ?_, fun q hq => ?_⟩
    · rw [PixelRenderer.sync_eq w s time force hr hf, hvs, hnone]
      rfl
    · obtain ⟨_, hx, hy, rest, hl, hw, _⟩ :=
        (PixelRenderer.sync_work w s q time force hq).2 hr hf
      obtain ⟨rest2, hl2, hc2⟩ := PixelRenderer.sync_hooks w s q time force hr hf hq
      have hsame : rest2 = rest := List.append_cancel_left (hl2.symm.trans hl)
      subst hsame
      exact ⟨hx, hy, rest2, hl, hw, hc2⟩
  · unfold PixelRenderer.sync
    rw [if_neg (by simp [hr]), if_neg (by simp [ha, hf])]

/-- Witness of the amended C23: the skipped frame, a forced sync of a rendered
frame under SCREEN accuracy with a write pending in the command engine, and a
sync of the same frame that is not forced. -/
theorem sync_contract_witness :
    PixelRenderer.sync palWorldPending rendererSkipping 3036 true = some rendererSkipping ∧
      PixelRenderer.sync palWorldPending (rendererAtFrameStart Accuracy.ACC_SCREEN) 3036 true =
        ((rendererAtFrameStart Accuracy.ACC_SCREEN).vramSync palWorldPending 3036).bind
          (fun s1 => PixelRenderer.renderUntil palWorldPending.vdp s1 3036) ∧
      ((rendererAtFrameStart Accuracy.ACC_SCREEN).vramSync palWorldPending 3036).map
          (fun q => q.log) =
        some [RenderEvent.vramSync 3036, RenderEvent.updateVRAMCache 0x100] ∧
      PixelRenderer.sync palWorldPending (rendererAtFrameStart Accuracy.ACC_SCREEN) 3036 false =
        some (rendererAtFrameStart Accuracy.ACC_SCREEN) :=
  ⟨(sync_contract palWorldPending rendererSkipping 3036 true).1 rfl,
    ((sync_contract palWorldPending (rendererAtFrameStart Accuracy.ACC_SCREEN) 3036 true).2.1
      rfl (Or.inr rfl)).1,
    by decide,
    (sync_contract palWorldPending (rendererAtFrameStart Accuracy.ACC_SCREEN) 3036
      false).2.2 rfl rfl rfl⟩

/-! The end of a frame. -/

namespace PixelRenderer

theorem frameEnd_eq (w : World) (s : PixelRenderer) (time : Nat)
    (hr : s.renderFrame = true) :
    s.frameEnd w time =
      (s.sync w time true).map
        (fun q => { q with log := q.log ++ [RenderEvent.rasterizerFrameEnd] ++
          (if s.drawFrame = true then [RenderEvent.finishFrame] else []) }) := by
  unfold frameEnd
  rw [if_pos hr]
  cases hq : s.sync w time true with
  | none => rfl
  | some q =>
    have hd2 : q.drawFrame = s.drawFrame := (sync_work w s q time true hq).1.2.2.1
    simp only [Option.map_some', hd2]
    by_cases hdf : s.drawFrame = true
    · simp only [hdf, if_true]
    · simp only [hdf, if_false, Bool.false_eq_true, List.append_nil]

end PixelRenderer

/-- C24: `frameEnd(time)` does nothing in a frame that is not rendered. In a
rendered frame it is the forced sync, which is `vram.sync(time)` with the hooks
the VRAM calls meanwhile and then `renderUntil(time)` whatever the accuracy,
followed by `rasterizer->frameEnd()` and, if `drawFrame` holds, the
frame-completed event; it returns when the sync does and aborts when
`VDPVRAM::sync` does. When it returns in a rendered frame the cursor is the
target of `time`, and its calls are `vram.sync(time)`, then work of the sync
only, then `rasterizer->frameEnd()`. The frame-completed event is among its
calls if and only if `renderFrame` and `drawFrame` both hold. -/
theorem frameEnd_contract (w : World) (s : PixelRenderer) (time : Nat) :
    (s.renderFrame = false → s.frameEnd w time = some s) ∧
      (s.renderFrame = true →
        s.frameEnd w time =
            (s.sync w time true).map
              (fun q => { q with log := q.log ++ [RenderEvent.rasterizerFrameEnd] ++
                (if s.drawFrame = true then [RenderEvent.finishFrame] else []) }) ∧
          s.sync w time true =
            (s.vramSync w time).bind (fun s1 => PixelRenderer.renderUntil w.vdp s1 time) ∧
          (w.vram.sync time = none → s.frameEnd w time = none)) ∧
      (∀ q, s.frameEnd w time = some q → s.renderFrame = true →
        q.nextX = (PixelRenderer.limit w.vdp s.accuracy time).1 ∧
        q.nextY = (PixelRenderer.limit w.vdp s.accuracy time).2 ∧
        ∃ mid, q.log = s.log ++ [RenderEvent.vramSync time] ++ mid ++
            [RenderEvent.rasterizerFrameEnd] ++
            (if s.drawFrame = true then [RenderEvent.finishFrame] else []) ∧
          ∀ e ∈ mid, e.isSyncWork = true) ∧
      (∀ q, s.frameEnd w time = some q →
        ∃ evs, q.log = s.log ++ evs ∧
          (RenderEvent.finishFrame ∈ evs ↔ s.renderFrame = true ∧ s.drawFrame = true)) := by
  have hskip : s.renderFrame = false → s.frameEnd w time = some s := by
    intro hr
    simp [PixelRenderer.frameEnd, hr]
  have hmid : ∀ q, s.frameEnd w time = some q → s.renderFrame = true →
      q.nextX = (PixelRenderer.limit w.vdp s.accuracy time).1 ∧
      q.nextY = (PixelRenderer.limit w.vdp s.accuracy time).2 ∧
      ∃ mid, q.log = s.log ++ [RenderEvent.vramSync time] ++ mid ++
          [RenderEvent.rasterizerFrameEnd] ++
          (if s.drawFrame = true then [RenderEvent.finishFrame] else []) ∧
        ∀ e ∈ mid, e.isSyncWork = true := by
    intro q hq hr
    rw [PixelRenderer.frameEnd_eq w s time hr] at hq
    cases h0 : s.sync w time true with
    | none => simp [h0] at hq
    | some q0 =>
      simp only [h0, Option.map_some', Option.some.injEq] at hq
      subst hq
      obtain ⟨_, hx, hy, rest, hl, hw, _⟩ :=
        (PixelRenderer.sync_work w s q0 time true h0).2 hr (Or.inr rfl)
      refine ⟨hx, hy, rest, ?_, hw⟩
      show q0.log ++ _ ++ _ = _
      rw [hl]
  refine ⟨hskip, fun hr => ⟨PixelRenderer.frameEnd_eq w s time hr,
    PixelRenderer.sync_eq w s time true hr (Or.inr rfl), fun hnone => ?_⟩, hmid, ?_⟩
  · rw [PixelRenderer.frameEnd_eq w s time hr,
      PixelRenderer.sync_eq w s time true hr (Or.inr rfl)]
    unfold PixelRenderer.vramSync
    rw [hnone]
    rfl
  intro q hq
  cases hr : s.renderFrame with
  | false =>
    rw [hskip hr] at hq
    simp only [Option.some.injEq] at hq
    subst hq
    exact ⟨[], (List.append_nil _).symm, by simp⟩
  | true =>
    obtain ⟨_, _, mid, hl, hm⟩ := hmid q hq hr
    refine ⟨[RenderEvent.vramSync time] ++ mid ++ [RenderEvent.rasterizerFrameEnd] ++
      (if s.drawFrame = true then [RenderEvent.finishFrame] else []), ?_, ?_⟩
    · rw [hl]
      simp only [List.append_assoc]
    · have hnm : RenderEvent.finishFrame ∉ mid := by
        intro hin
        exact absurd (hm _ hin) (by decide)
      by_cases hdf : s.drawFrame = true
      · simp [hdf]
      · simp [hdf, hnm]

/-- Witness of C24 on a rendered and drawn frame under SCREEN accuracy, with a
write pending in the command engine: the frame ends at tick `2 * 1368 + 100`;
the cursor is the target `(0, 2)`, the first calls are `vram.sync` and the
`updateVRAMCache` of the hook, the last two are `rasterizer->frameEnd()` and
the frame-completed event. Outside the frame the call aborts. -/
theorem frameEnd_contract_witness :
    (rendererAtFrameStart Accuracy.ACC_SCREEN).frameEnd palWorldPending 2836 =
        ((rendererAtFrameStart Accuracy.ACC_SCREEN).sync palWorldPending 2836 true).map
          (fun q => { q with log := q.log ++ [RenderEvent.rasterizerFrameEnd] ++
            (if (rendererAtFrameStart Accuracy.ACC_SCREEN).drawFrame = true
              then [RenderEvent.finishFrame] else []) }) ∧
      ((rendererAtFrameStart Accuracy.ACC_SCREEN).frameEnd palWorldPending 2836).map
          (fun q => (q.nextX, q.nextY, q.log.take 2, q.log.reverse.take 2)) =
        some (0, 2, [RenderEvent.vramSync 2836, RenderEvent.updateVRAMCache 0x100],
          [RenderEvent.finishFrame, RenderEvent.rasterizerFrameEnd]) ∧
      (rendererAtFrameStart Accuracy.ACC_SCREEN).frameEnd palWorldOutside 2836 = none :=
  ⟨((frameEnd_contract palWorldPending (rendererAtFrameStart Accuracy.ACC_SCREEN) 2836).2.1
      rfl).1,
    by decide,
    ((frameEnd_contract palWorldOutside (rendererAtFrameStart Accuracy.ACC_SCREEN) 2836).2.1
      rfl).2.2 rfl⟩

/-! The accuracy snapshot, `checkSync`, the sprite checker and the update
handlers. -/

namespace PixelRenderer

theorem hooks_settings (w : World) (settings : RenderSettings) (es : List Event) :
    ∀ s : PixelRenderer, hooks { w with settings := settings } s es = hooks w s es := by
  induction es with
  | nil => intro s; rfl
  | cons e es ih =>
    intro s
    cases e with
    | updateVRAM window observer offset time seen =>
      have hu : updateVRAM { w with settings := settings } s offset time =
          updateVRAM w s offset time := rfl
      simp only [hooks, ih, hu]
    | updateWindow observer enabled time held => simp only [hooks, ih]
    | cmdSync time => simp only [hooks, ih]

theorem sync_settings (w : World) (settings : RenderSettings) (s : PixelRenderer)
    (time : Nat) (force : Bool) :
    s.sync { w with settings := settings } time force = s.sync w time force := by
  simp only [sync, vramSync, hooks_settings]

theorem step_settings (w : World) (settings : RenderSettings) (s : PixelRenderer) (c : Call)
    (hc : c.startsFrame = false) :
    step { w with settings := settings } s c = step w s c := by
  cases c <;>
    first
    | rfl
    | (simp only [step, frameEnd, updateDisplayEnabled, syncIfDisplayEnabled,
        updateTransparency, updateBackgroundColour, updatePalette, updateDisplayMode,
        sync_settings] <;> rfl)
    | simp [Call.startsFrame] at hc

theorem run_settings (calls1 calls2 : List (World × Call))
    (hsame : List.Forall₂ (fun a b => a.2 = b.2 ∧ a.2.startsFrame = false ∧
      ∃ settings, b.1 = { a.1 with settings := settings }) calls1 calls2) :
    ∀ s : PixelRenderer, run s calls1 = run s calls2 := by
  induction hsame with
  | nil => intro s; rfl
  | cons hab _ ih =>
    intro s
    obtain ⟨hcall, hstart, settings, hw⟩ := hab
    unfold run
    rw [← hcall, hw, step_settings _ settings s _ hstart]
    cases step _ s _ with
    | none => rfl
    | some s1 => exact ih s1

theorem checkSync_of_base (w : World) (s : PixelRenderer) (offset time : Nat)
    (hen : s.displayEnabled = true) (hacc : s.accuracy ≠ Accuracy.ACC_SCREEN)
    (h23 : ¬ (w.vdp.getDisplayMode.getBase = w.modes.GRAPHIC2 ∨
      w.vdp.getDisplayMode.getBase = w.modes.GRAPHIC3))
    (h45 : ¬ (w.vdp.getDisplayMode.getBase = w.modes.GRAPHIC4 ∨
      w.vdp.getDisplayMode.getBase = w.modes.GRAPHIC5)) :
    s.checkSync w offset time =
      if w.vdp.getDisplayMode.getBase = w.modes.GRAPHIC6 ∨
          w.vdp.getDisplayMode.getBase = w.modes.GRAPHIC7 then some true
      else some (w.vram.nameTable.isInside offset || w.vram.colourTable.isInside offset ||
          w.vram.patternTable.isInside offset) := by
  unfold checkSync
  simp only [hen, not_true_eq_false, if_false, hacc, h23, h45]

theorem high_base_not_low (m : DisplayModeIds) (b : Int) (hdist : m.Distinct)
    (hb : b = m.GRAPHIC6 ∨ b = m.GRAPHIC7) :
    ¬ (b = m.GRAPHIC2 ∨ b = m.GRAPHIC3) ∧ ¬ (b = m.GRAPHIC4 ∨ b = m.GRAPHIC5) := by
  simp only [DisplayModeIds.Distinct, List.nodup_cons, List.mem_cons, List.mem_singleton,
      List.not_mem_nil, or_false, not_or, List.nodup_nil, and_true] at hdist
  rcases hb with rfl | rfl <;> refine ⟨?_, ?_⟩ <;> rintro (h | h) <;> simp [h] at hdist

end PixelRenderer

/-- C25: the calls other than `frameStart` and `reset` do not read the render
settings. Two sequences of such calls that start from the same renderer state
and make the same calls on collaborators that differ in the settings only, so
in particular in the value of the accuracy setting, end in the same state:
the same calls were made, draw calls included, and the cursor is the same.
The same holds for `checkSync`; `renderUntil` is not given the settings. -/
theorem accuracy_setting_waits_for_frameStart (s : PixelRenderer)
    (calls1 calls2 : List (World × PixelRenderer.Call))
    (hsame : List.Forall₂ (fun a b => a.2 = b.2 ∧ a.2.startsFrame = false ∧
      ∃ settings, b.1 = { a.1 with settings := settings }) calls1 calls2) :
    PixelRenderer.run s calls1 = PixelRenderer.run s calls2 ∧
      ∀ (w : World) (settings : RenderSettings) (offset time : Nat),
        s.checkSync { w with settings := settings } offset time = s.checkSync w offset time :=
  ⟨PixelRenderer.run_settings calls1 calls2 hsame s, fun _ _ _ _ => rfl⟩

/-- Witness of C25: a frame started under PIXEL accuracy; a sync and a VRAM
change in the name table move the cursor to `(896, 3)` whether the accuracy
setting still is PIXEL or was changed to SCREEN in the meantime. -/
theorem accuracy_setting_waits_for_frameStart_witness :
    (PixelRenderer.run (rendererAtFrameStart Accuracy.ACC_PIXEL)
        [(palWorld, PixelRenderer.Call.sync 3036 false),
          (palWorld, PixelRenderer.Call.updateVRAM 0x1900 5000)] =
      PixelRenderer.run (rendererAtFrameStart Accuracy.ACC_PIXEL)
        [(palWorldScreen, PixelRenderer.Call.sync 3036 false),
          (palWorldScreen, PixelRenderer.Call.updateVRAM 0x1900 5000)]) ∧
      (PixelRenderer.run (rendererAtFrameStart Accuracy.ACC_PIXEL)
        [(palWorldScreen, PixelRenderer.Call.sync 3036 false),
          (palWorldScreen, PixelRenderer.Call.updateVRAM 0x1900 5000)]).map
          (fun q => (q.nextX, q.nextY)) = some (896, 3) :=
  ⟨(accuracy_setting_waits_for_frameStart (rendererAtFrameStart Accuracy.ACC_PIXEL)
      [(palWorld, PixelRenderer.Call.sync 3036 false),
        (palWorld, PixelRenderer.Call.updateVRAM 0x1900 5000)]
      [(palWorldScreen, PixelRenderer.Call.sync 3036 false),
        (palWorldScreen, PixelRenderer.Call.updateVRAM 0x1900 5000)]
      (List.Forall₂.cons ⟨rfl, rfl, _, rfl⟩
        (List.Forall₂.cons ⟨rfl, rfl, _, rfl⟩ List.Forall₂.nil))).1,
    by decide⟩

/-- C26: `checkSync(offset, time)` returns false for every offset if the
display is disabled or the accuracy of the frame is SCREEN, so under SCREEN
accuracy `updateVRAM` only passes the change on to the rasterizer's cache.
Otherwise, the six `DisplayMode` constants being pairwise different, it returns
true for every offset if the base of the display mode is GRAPHIC6 or GRAPHIC7,
and if the base is none of GRAPHIC2 to GRAPHIC7 it returns whether the offset
is inside the name table, the colour table or the pattern table. -/
theorem checkSync_contract (w : World) (s : PixelRenderer) (offset time : Nat) :
    ((s.displayEnabled = false ∨ s.accuracy = Accuracy.ACC_SCREEN) →
        s.checkSync w offset time = some false) ∧
      (s.accuracy = Accuracy.ACC_SCREEN →
        s.updateVRAM w offset time =
          some { s with log := s.log ++ [RenderEvent.updateVRAMCache offset] }) ∧
      (w.modes.Distinct → s.displayEnabled = true → s.accuracy ≠ Accuracy.ACC_SCREEN →
        (w.vdp.getDisplayMode.getBase = w.modes.GRAPHIC6 ∨
          w.vdp.getDisplayMode.getBase = w.modes.GRAPHIC7) →
        s.checkSync w offset time = some true) ∧
      (s.displayEnabled = true → s.accuracy ≠ Accuracy.ACC_SCREEN →
        w.vdp.getDisplayMode.getBase ≠ w.modes.GRAPHIC2 →
        w.vdp.getDisplayMode.getBase ≠ w.modes.GRAPHIC3 →
        w.vdp.getDisplayMode.getBase ≠ w.modes.GRAPHIC4 →
        w.vdp.getDisplayMode.getBase ≠ w.modes.GRAPHIC5 →
        w.vdp.getDisplayMode.getBase ≠ w.modes.GRAPHIC6 →
        w.vdp.getDisplayMode.getBase ≠ w.modes.GRAPHIC7 →
        s.checkSync w offset time =
          some (w.vram.nameTable.isInside offset || w.vram.colourTable.isInside offset ||
            w.vram.patternTable.isInside offset)) := by
  have hfalse : (s.displayEnabled = false ∨ s.accuracy = Accuracy.ACC_SCREEN) →
      s.checkSync w offset time = some false := by
    intro h
    unfold PixelRenderer.checkSync
    by_cases hen : s.displayEnabled = true
    · rcases h with h | h
      · rw [h] at hen
        exact absurd hen (by decide)
      · rw [if_neg (by simp [hen]), if_pos h]
    · rw [if_pos hen]
  refine ⟨hfalse, fun hacc => ?_, fun hdist hen hacc hb => ?_,
    fun hen hacc h2 h3 h4 h5 h6 h7 => ?_⟩
  · unfold PixelRenderer.updateVRAM
    rw [hfalse (Or.inr hacc)]
    simp only [ite_self]
  · obtain ⟨h23, h45⟩ := PixelRenderer.high_base_not_low w.modes _ hdist hb
    rw [PixelRenderer.checkSync_of_base w s offset time hen hacc h23 h45, if_pos hb]
  · rw [PixelRenderer.checkSync_of_base w s offset time hen hacc (not_or.2 ⟨h2, h3⟩)
      (not_or.2 ⟨h4, h5⟩), if_neg (not_or.2 ⟨h6, h7⟩)]

/-- Witness of C26 on the PAL world, whose display mode has base 0 and whose
name table is at `0x1800`: under SCREEN accuracy the check fails for an offset
in the name table, under PIXEL accuracy it succeeds there and fails at
`0x2000`; with base GRAPHIC7 it succeeds at `0x2000` as well. -/
theorem checkSync_contract_witness :
    (rendererAtFrameStart Accuracy.ACC_SCREEN).checkSync palWorld 0x1900 3036 = some false ∧
      (rendererAtFrameStart Accuracy.ACC_PIXEL).checkSync palWorld 0x1900 3036 =
        some (palWorld.vram.nameTable.isInside 0x1900 ||
          palWorld.vram.colourTable.isInside 0x1900 ||
          palWorld.vram.patternTable.isInside 0x1900) ∧
      (palWorld.vram.nameTable.isInside 0x1900 || palWorld.vram.colourTable.isInside 0x1900 ||
        palWorld.vram.patternTable.isInside 0x1900) = true ∧
      (rendererAtFrameStart Accuracy.ACC_PIXEL).checkSync palWorld 0x2000 3036 = some false ∧
      (rendererAtFrameStart Accuracy.ACC_PIXEL).checkSync
        { palWorld with vdp := { palVdp with
            getDisplayMode := { isTextMode := false, getBase := 0x1C, getByte := 0x1C } } }
        0x2000 3036 = some true :=
  ⟨(checkSync_contract palWorld (rendererAtFrameStart Accuracy.ACC_SCREEN) 0x1900 3036).1
      (Or.inr rfl),
    (checkSync_contract palWorld (rendererAtFrameStart Accuracy.ACC_PIXEL) 0x1900 3036).2.2.2
      rfl (by decide) (by decide) (by decide) (by decide) (by decide) (by decide) (by decide),
    by decide, by decide,
    (checkSync_contract
      { palWorld with vdp := { palVdp with
          getDisplayMode := { isTextMode := false, getBase := 0x1C, getByte := 0x1C } } }
      (rendererAtFrameStart Accuracy.ACC_PIXEL) 0x2000 3036).2.2.1
      (by simp [DisplayModeIds.Distinct, palWorld, msxModes]) rfl (by decide)
      (Or.inr rfl)⟩

/-- C27: `renderUntil` updates the sprite checker before it draws: the draw
calls start from the state `checkSprites` leaves, also when one of them aborts.
When `renderUntil` returns, the calls it made are `spriteChecker.checkUntil(time)`,
present if and only if the target differs from the cursor and the display and
the sprites are enabled, followed by draw calls only. If a display-area or
sprite draw is among them and the sprites are enabled, `checkUntil(time)` was
called before it. -/
theorem renderUntil_checks_sprites_first (vdp : VDPState) (s : PixelRenderer) (time : Nat) :
    (s.renderUntil vdp time =
        if vdp.getTicksThisFrame time ≤ vdp.getTicksPerFrame then
          if (PixelRenderer.limit vdp s.accuracy time).1 = s.nextX ∧
              (PixelRenderer.limit vdp s.accuracy time).2 = s.nextY
          then some s
          else
            (PixelRenderer.drawAll vdp (PixelRenderer.checkSprites vdp s time)
              (PixelRenderer.bands vdp s (PixelRenderer.limit vdp s.accuracy time).1
                (PixelRenderer.limit vdp s.accuracy time).2)).map
              (fun s2 => { s2 with
                nextX := (PixelRenderer.limit vdp s.accuracy time).1
                nextY := (PixelRenderer.limit vdp s.accuracy time).2 })
        else none) ∧
      (∀ q, s.renderUntil vdp time = some q →
        ∃ draws, q.log = s.log ++
            (if ¬ ((PixelRenderer.limit vdp s.accuracy time).1 = s.nextX ∧
                  (PixelRenderer.limit vdp s.accuracy time).2 = s.nextY) ∧
                s.displayEnabled = true ∧ vdp.spritesEnabled = true
              then [RenderEvent.checkUntil time] else []) ++ draws ∧
          (∀ e ∈ draws, e.isDraw = true) ∧
          ((∃ e ∈ draws, e.isDisplayDraw = true) → vdp.spritesEnabled = true →
            q.log = s.log ++ [RenderEvent.checkUntil time] ++ draws)) := by
  refine ⟨PixelRenderer.renderUntil_eq vdp s time, fun q hq => ?_⟩
  obtain ⟨draws, hl, hdr, hdis, hnil, _⟩ := PixelRenderer.renderUntil_log vdp s q time hq
  refine ⟨draws, hl, hdr, fun hex hsp => ?_⟩
  obtain ⟨e, he, hed⟩ := hex
  have hne : ¬ ((PixelRenderer.limit vdp s.accuracy time).1 = s.nextX ∧
      (PixelRenderer.limit vdp s.accuracy time).2 = s.nextY) := by
    intro h
    rw [hnil h] at he
    simp at he
  rw [hl, if_pos ⟨hne, hdis e he hed, hsp⟩]

/-- Witness of C27: from the start of a frame with display and sprites enabled
the first call of `renderUntil` for tick 3036 is `checkUntil(3036)`; for tick
0, whose target is the cursor, no call is made at all. -/
theorem renderUntil_checks_sprites_first_witness :
    ((rendererAtFrameStart Accuracy.ACC_PIXEL).renderUntil palVdp 3036).map
        (fun q => q.log.head?) = some (some (RenderEvent.checkUntil 3036)) ∧
      (rendererAtFrameStart Accuracy.ACC_PIXEL).renderUntil palVdp 0 =
        some (rendererAtFrameStart Accuracy.ACC_PIXEL) ∧
      ((rendererAtFrameStart Accuracy.ACC_PIXEL).renderUntil palVdp 0 =
        if palVdp.getTicksThisFrame 0 ≤ palVdp.getTicksPerFrame then
          if (PixelRenderer.limit palVdp (rendererAtFrameStart Accuracy.ACC_PIXEL).accuracy 0).1 =
                (rendererAtFrameStart Accuracy.ACC_PIXEL).nextX ∧
              (PixelRenderer.limit palVdp (rendererAtFrameStart Accuracy.ACC_PIXEL).accuracy 0).2 =
                (rendererAtFrameStart Accuracy.ACC_PIXEL).nextY
          then some (rendererAtFrameStart Accuracy.ACC_PIXEL)
          else
            (PixelRenderer.drawAll palVdp
              (PixelRenderer.checkSprites palVdp (rendererAtFrameStart Accuracy.ACC_PIXEL) 0)
              (PixelRenderer.bands palVdp (rendererAtFrameStart Accuracy.ACC_PIXEL)
                (PixelRenderer.limit palVdp (rendererAtFrameStart Accuracy.ACC_PIXEL).accuracy 0).1
                (PixelRenderer.limit palVdp
                  (rendererAtFrameStart Accuracy.ACC_PIXEL).accuracy 0).2)).map
              (fun s2 => { s2 with
                nextX := (PixelRenderer.limit palVdp
                  (rendererAtFrameStart Accuracy.ACC_PIXEL).accuracy 0).1
                nextY := (PixelRenderer.limit palVdp
                  (rendererAtFrameStart Accuracy.ACC_PIXEL).accuracy 0).2 })
        else none) :=
  ⟨by decide, by decide,
    (renderUntil_checks_sprites_first palVdp (rendererAtFrameStart Accuracy.ACC_PIXEL) 0).1⟩

/-! The update handlers. -/

namespace PixelRenderer

theorem paletteNeedsSync_iff (w : World) (s : PixelRenderer) (index : Int) :
    s.paletteNeedsSync w index = true ↔
      (s.displayEnabled = true ∨
        (w.vdp.getDisplayMode.getBase = w.modes.GRAPHIC5 ∧
          (index = w.regs.getBackgroundColour % 4 ∨ index = w.regs.getBackgroundColour / 4)) ∨
        (w.vdp.getDisplayMode.getBase ≠ w.modes.GRAPHIC5 ∧
          w.vdp.getDisplayMode.getByte ≠ w.modes.GRAPHIC7 ∧
          index = w.regs.getBackgroundColour)) := by
  unfold paletteNeedsSync
  by_cases h1 : s.displayEnabled = true
  · simp [h1]
  · by_cases h2 : w.vdp.getDisplayMode.getBase = w.modes.GRAPHIC5
    · simp [h1, h2]
    · by_cases h3 : w.vdp.getDisplayMode.getByte ≠ w.modes.GRAPHIC7
      · simp [h1, h2, h3]
      · simp only [ne_eq, not_not] at h3
        simp [h1, h2, h3]

/-- A sync made when `c` holds, followed by the calls `after`, renders the
backlog first. -/
theorem backlogFirst_of_condSync (w : World) (s q0 q : PixelRenderer) (time : Nat)
    (force : Bool) (c : Prop) [Decidable c] (due : Prop) (after : List RenderEvent)
    (h : (if c then s.sync w time force else some s) = some q0)
    (hdue : due → c ∧ (s.accuracy ≠ Accuracy.ACC_SCREEN ∨ force = true))
    (hlog : q.log = q0.log ++ after) (hx : q.nextX = q0.nextX) (hy : q.nextY = q0.nextY) :
    BacklogFirst w s q time due after := by
  by_cases hc : c
  · rw [if_pos hc] at h
    obtain ⟨hstep, hrun⟩ := sync_work w s q0 time force h
    by_cases hgo : s.renderFrame = true ∧ (s.accuracy ≠ Accuracy.ACC_SCREEN ∨ force = true)
    · obtain ⟨_, hx0, hy0, rest, hl, hw, hd⟩ := hrun hgo.1 hgo.2
      refine ⟨[RenderEvent.vramSync time] ++ rest,
        by rw [hlog, hl]; simp only [List.append_assoc], ?_, ?_,
        fun _ _ => ⟨hx.trans hx0, hy.trans hy0, rfl⟩⟩
      · intro e he
        rcases List.mem_append.1 he with he | he
        · rw [List.mem_singleton.1 he]; rfl
        · exact hw e he
      · intro e he hdis
        rcases List.mem_append.1 he with he | he
        · rw [List.mem_singleton.1 he] at hdis
          simp [RenderEvent.isDisplayDraw] at hdis
        · exact hd e he hdis
    · obtain ⟨_, _, _, _, _, _, evs, hl, hw, hd⟩ := hstep
      exact ⟨evs, by rw [hlog, hl], hw, hd, fun hr hd2 => absurd ⟨hr, (hdue hd2).2⟩ hgo⟩
  · rw [if_neg hc] at h
    simp only [Option.some.injEq] at h
    subst h
    exact ⟨[], by rw [hlog, List.append_nil], by simp, by simp,
      fun _ hd2 => absurd (hdue hd2).1 hc⟩

end PixelRenderer

/-- C28: each of `updateTransparency`, `updateBackgroundColour`,
`updatePalette` and `updateDisplayMode` returns exactly when the sync it asks
for returns, and then its calls are the work of that sync followed by
`setTransparency`, `setBackgroundColour` (not for the mode byte GRAPHIC7),
`setPalette` or `setDisplayMode` as the last call. In a rendered frame in which
the sync is due (for `updateTransparency`: display enabled and accuracy not
SCREEN; for `updateBackgroundColour`: accuracy not SCREEN; for `updatePalette`:
accuracy not SCREEN and the display enabled or the index a border colour of
the mode; for `updateDisplayMode`, whose sync is forced: display enabled or
the old or new mode byte GRAPHIC5 or GRAPHIC7) that work starts with
`vram.sync(time)` and leaves the cursor at the target of `time`.
`updateDisplayEnabled` returns when its forced sync does; the state it returns
has the new flag, while the work of the sync, which in a rendered frame reaches
the target of `time`, issued display-area draws only if the old flag was set. -/
theorem handlers_render_backlog_first (w : World) (s : PixelRenderer) (time : Nat) :
    (∀ enabled,
      ((∃ q, s.updateTransparency w enabled time = some q) ↔
        (s.displayEnabled = true → ∃ q0, s.sync w time false = some q0)) ∧
      ∀ q, s.updateTransparency w enabled time = some q →
        PixelRenderer.BacklogFirst w s q time
          (s.displayEnabled = true ∧ s.accuracy ≠ Accuracy.ACC_SCREEN)
          [RenderEvent.setTransparency enabled]) ∧
    (∀ colour,
      ((∃ q, s.updateBackgroundColour w colour time = some q) ↔
        ∃ q0, s.sync w time false = some q0) ∧
      ∀ q, s.updateBackgroundColour w colour time = some q →
        PixelRenderer.BacklogFirst w s q time (s.accuracy ≠ Accuracy.ACC_SCREEN)
          (if w.vdp.getDisplayMode.getByte ≠ w.modes.GRAPHIC7
            then [RenderEvent.setBackgroundColour colour] else [])) ∧
    (∀ index grb,
      ((∃ q, s.updatePalette w index grb time = some q) ↔
        ((s.displayEnabled = true ∨
          (w.vdp.getDisplayMode.getBase = w.modes.GRAPHIC5 ∧
            (index = w.regs.getBackgroundColour % 4 ∨
              index = w.regs.getBackgroundColour / 4)) ∨
          (w.vdp.getDisplayMode.getBase ≠ w.modes.GRAPHIC5 ∧
            w.vdp.getDisplayMode.getByte ≠ w.modes.GRAPHIC7 ∧
            index = w.regs.getBackgroundColour)) →
          ∃ q0, s.sync w time false = some q0)) ∧
      ∀ q, s.updatePalette w index grb time = some q →
        PixelRenderer.BacklogFirst w s q time
          ((s.displayEnabled = true ∨
            (w.vdp.getDisplayMode.getBase = w.modes.GRAPHIC5 ∧
              (index = w.regs.getBackgroundColour % 4 ∨
                index = w.regs.getBackgroundColour / 4)) ∨
            (w.vdp.getDisplayMode.getBase ≠ w.modes.GRAPHIC5 ∧
              w.vdp.getDisplayMode.getByte ≠ w.modes.GRAPHIC7 ∧
              index = w.regs.getBackgroundColour)) ∧
            s.accuracy ≠ Accuracy.ACC_SCREEN)
          [RenderEvent.setPalette index grb]) ∧
    (∀ mode : DisplayMode,
      ((∃ q, s.updateDisplayMode w mode time = some q) ↔
        ((s.displayEnabled = true ∨ w.vdp.getDisplayMode.getByte = w.modes.GRAPHIC5 ∨
            w.vdp.getDisplayMode.getByte = w.modes.GRAPHIC7 ∨
            mode.getByte = w.modes.GRAPHIC5 ∨ mode.getByte = w.modes.GRAPHIC7) →
          ∃ q0, s.sync w time true = some q0)) ∧
      ∀ q, s.updateDisplayMode w mode time = some q →
        PixelRenderer.BacklogFirst w s q time
          (s.displayEnabled = true ∨ w.vdp.getDisplayMode.getByte = w.modes.GRAPHIC5 ∨
            w.vdp.getDisplayMode.getByte = w.modes.GRAPHIC7 ∨
            mode.getByte = w.modes.GRAPHIC5 ∨ mode.getByte = w.modes.GRAPHIC7)
          [RenderEvent.setDisplayMode mode]) ∧
    (∀ enabled,
      ((∃ q, s.updateDisplayEnabled w enabled time = some q) ↔
        ∃ q0, s.sync w time true = some q0) ∧
      ∀ q, s.updateDisplayEnabled w enabled time = some q →
        q.displayEnabled = enabled ∧ PixelRenderer.BacklogFirst w s q time True []) := by
  refine ⟨fun enabled => ?_, fun colour => ?_, fun index grb => ?_, fun mode => ?_,
    fun enabled => ?_⟩
  · unfold PixelRenderer.updateTransparency PixelRenderer.syncIfDisplayEnabled
    cases hp : (if s.displayEnabled = true then s.sync w time false else some s) with
    | none =>
      refine ⟨?_, fun q hq => by simp at hq⟩
      by_cases hc : s.displayEnabled = true
      · rw [if_pos hc] at hp
        simp [hp, hc]
      · rw [if_neg hc] at hp
        simp at hp
    | some q0 =>
      refine ⟨?_, fun q hq => ?_⟩
      · by_cases hc : s.displayEnabled = true
        · rw [if_pos hc] at hp
          simp [hp]
        · simp [hc]
      · simp only [Option.some.injEq] at hq
        subst hq
        exact PixelRenderer.backlogFirst_of_condSync w s q0 _ time false _ _ _ hp
          (fun hd => ⟨hd.1, Or.inl hd.2⟩) rfl rfl rfl
  · unfold PixelRenderer.updateBackgroundColour
    cases hp : s.sync w time false with
    | none => exact ⟨by simp, fun q hq => by simp at hq⟩
    | some q0 =>
      refine ⟨⟨fun _ => ⟨q0, rfl⟩, fun _ => ?_⟩, fun q hq => ?_⟩
      · by_cases hm : w.vdp.getDisplayMode.getByte ≠ w.modes.GRAPHIC7
        · exact ⟨_, if_pos hm⟩
        · exact ⟨_, if_neg hm⟩
      have hp2 : (if True then s.sync w time false else some s) = some q0 := by
        rw [if_pos trivial, hp]
      by_cases hm : w.vdp.getDisplayMode.getByte ≠ w.modes.GRAPHIC7
      · simp only [hm, if_true, Option.some.injEq, ne_eq, not_false_eq_true] at hq
        subst hq
        rw [if_pos hm]
        exact PixelRenderer.backlogFirst_of_condSync w s q0 _ time false _ _ _ hp2
          (fun hd => ⟨trivial, Or.inl hd⟩) rfl rfl rfl
      · simp only [hm, if_false, Option.some.injEq] at hq
        subst hq
        rw [if_neg hm]
        exact PixelRenderer.backlogFirst_of_condSync w s q0 _ time false _ _ _ hp2
          (fun hd => ⟨trivial, Or.inl hd⟩) (List.append_nil _).symm rfl rfl
  · unfold PixelRenderer.updatePalette
    rw [← PixelRenderer.paletteNeedsSync_iff w s index]
    cases hp : (if s.paletteNeedsSync w index = true then s.sync w time false else some s) with
    | none =>
      refine ⟨?_, fun q hq => by simp at hq⟩
      by_cases hc : s.paletteNeedsSync w index = true
      · rw [if_pos hc] at hp
        simp [hp, hc]
      · rw [if_neg hc] at hp
        simp at hp
    | some q0 =>
      refine ⟨?_, fun q hq => ?_⟩
      · by_cases hc : s.paletteNeedsSync w index = true
        · rw [if_pos hc] at hp
          simp [hp]
        · simp [hc]
      · simp only [Option.some.injEq] at hq
        subst hq
        exact PixelRenderer.backlogFirst_of_condSync w s q0 _ time false _ _ _ hp
          (fun hd => ⟨hd.1, Or.inl hd.2⟩) rfl rfl rfl
  · unfold PixelRenderer.updateDisplayMode
    dsimp only
    cases hp : (if s.displayEnabled = true ∨ w.vdp.getDisplayMode.getByte = w.modes.GRAPHIC5 ∨
        w.vdp.getDisplayMode.getByte = w.modes.GRAPHIC7 ∨
        mode.getByte = w.modes.GRAPHIC5 ∨ mode.getByte = w.modes.GRAPHIC7
      then s.sync w time true else some s) with
    | none =>
      refine ⟨?_, fun q hq => by simp at hq⟩
      by_cases hc : s.displayEnabled = true ∨ w.vdp.getDisplayMode.getByte = w.modes.GRAPHIC5 ∨
          w.vdp.getDisplayMode.getByte = w.modes.GRAPHIC7 ∨
          mode.getByte = w.modes.GRAPHIC5 ∨ mode.getByte = w.modes.GRAPHIC7
      · rw [if_pos hc] at hp
        refine ⟨fun h => ?_, fun h => ?_⟩
        · obtain ⟨q, hq⟩ := h
          simp at hq
        · obtain ⟨q0, h0⟩ := h hc
          rw [hp] at h0
          simp at h0
      · rw [if_neg hc] at hp
        simp at hp
    | some q0 =>
      refine ⟨?_, fun q hq => ?_⟩
      · by_cases hc : s.displayEnabled = true ∨
            w.vdp.getDisplayMode.getByte = w.modes.GRAPHIC5 ∨
            w.vdp.getDisplayMode.getByte = w.modes.GRAPHIC7 ∨
            mode.getByte = w.modes.GRAPHIC5 ∨ mode.getByte = w.modes.GRAPHIC7
        · rw [if_pos hc] at hp
          exact ⟨fun _ _ => ⟨q0, hp⟩, fun _ => ⟨_, rfl⟩⟩
        · exact ⟨fun _ h => absurd h hc, fun _ => ⟨_, rfl⟩⟩
      · simp only [Option.some.injEq] at hq
        subst hq
        exact PixelRenderer.backlogFirst_of_condSync w s q0 _ time true _ _ _ hp
          (fun hd => ⟨hd, Or.inr rfl⟩) rfl rfl rfl
  · unfold PixelRenderer.updateDisplayEnabled
    cases hp : s.sync w time true with
    | none => exact ⟨by simp, fun q hq => by simp at hq⟩
    | some q0 =>
      refine ⟨by simp, fun q hq => ?_⟩
      simp only [Option.some.injEq] at hq
      subst hq
      have hp2 : (if True then s.sync w time true else some s) = some q0 := by
        rw [if_pos trivial, hp]
      exact ⟨rfl, PixelRenderer.backlogFirst_of_condSync w s q0 _ time true _ _ _ hp2
        (fun _ => ⟨trivial, Or.inr rfl⟩) (List.append_nil _).symm rfl rfl⟩

/-- Witness of C28: the display is disabled at tick 3036 of a rendered frame
while the command engine has a write pending. The handler returns; the forced
sync still draws the display area, its first calls being `vram.sync`, the
`updateVRAMCache` of the hook and `checkUntil`, the cursor reaches the target
`(300, 2)`, and only the state returned has the display disabled. A palette
change ends with `setPalette`. -/
theorem handlers_render_backlog_first_witness :
    (∀ q, (rendererAtFrameStart Accuracy.ACC_PIXEL).updateDisplayEnabled palWorldPending false
          3036 = some q →
        q.displayEnabled = false ∧
          PixelRenderer.BacklogFirst palWorldPending (rendererAtFrameStart Accuracy.ACC_PIXEL)
            q 3036 True []) ∧
      ((rendererAtFrameStart Accuracy.ACC_PIXEL).updateDisplayEnabled palWorldPending false
          3036).map
        (fun q => (q.displayEnabled, q.nextX, q.nextY, q.log.take 3,
          q.log.any (fun e => e.isDisplayDraw))) =
        some (false, 300, 2, [RenderEvent.vramSync 3036, RenderEvent.updateVRAMCache 0x100,
          RenderEvent.checkUntil 3036], true) ∧
      ((rendererAtFrameStart Accuracy.ACC_PIXEL).updatePalette palWorldPending 4 0x123
          3036).map
        (fun q => (q.nextX, q.nextY, q.log.getLast?)) =
        some (300, 2, some (RenderEvent.setPalette 4 0x123)) :=
  ⟨((handlers_render_backlog_first palWorldPending (rendererAtFrameStart Accuracy.ACC_PIXEL)
      3036).2.2.2.2 false).2,
    by decide, by decide⟩

/-! Read areas. -/

theorem testBit_div_two_pow (x m j : Nat) : (x / 2 ^ m).testBit j = x.testBit (m + j) := by
  rw [← Nat.shiftRight_eq_div_pow, Nat.testBit_shiftRight]

/-- A pattern all of whose bits are bits of `m` is at most `m`. -/
theorem le_of_and_eq (a m : Nat) (h : a &&& m = a) : a ≤ m := by
  rw [← h]
  exact Nat.and_le_right

namespace VRAMWindow

theorem setMask_base_in_size (w : VRAMWindow) (b i time : Nat) (log : List Event) :
    (w.setMask b i time log).1.baseMask &&& (w.setMask b i time log).1.sizeMask =
      (w.setMask b i time log).1.baseMask := by
  by_cases h : (w.isEnabled && (b &&& w.sizeMask) == w.baseMask && i == w.indexMask) = true
  · simp only [setMask, h, if_true]
    simp only [Bool.and_eq_true, beq_iff_eq] at h
    rw [← h.1.2, Nat.and_assoc, Nat.and_self]
  · simp only [setMask, h, if_false, Bool.false_eq_true]
    rw [Nat.and_assoc, Nat.and_self]

/-- For an address below `2 ^ 17` the remapping of `readPlanar` moves bit 0 to
bit 16 and the other bits one place down. -/
theorem planarAddr_eq (a : Nat) (ha : a < 2 ^ 17) :
    planarAddr a = a / 2 + 0x10000 * (a % 2) := by
  have hr : a / 2 + 0x10000 * (a % 2) = 2 ^ 16 * (a % 2) + a / 2 ^ 1 := by
    norm_num
    omega
  have hlt : a / 2 ^ 1 < 2 ^ 16 := by
    norm_num
    omega
  have hmask : (0x1FFFF : Nat) = 2 ^ 17 - 1 := by norm_num
  have h17 : a.testBit 17 = false := Nat.testBit_lt_two_pow ha
  have hmod : a % 2 = a % 2 ^ 1 := by norm_num
  rw [hr]
  apply Nat.eq_of_testBit_eq
  intro j
  unfold planarAddr
  rw [Nat.testBit_mul_pow_two_add _ hlt, hmask, Nat.testBit_and, Nat.testBit_two_pow_sub_one,
    Nat.testBit_or, Nat.testBit_mod_two_pow, Nat.testBit_shiftLeft, Nat.testBit_shiftRight,
    testBit_div_two_pow, hmod, Nat.testBit_mod_two_pow]
  by_cases h1 : j < 16
  · have h2 : ¬ j ≥ 16 := by omega
    have h3 : j < 17 := by omega
    simp [h1, h2, h3]
  · by_cases h2 : j = 16
    · subst h2
      simp [h17]
    · have h3 : ¬ j < 17 := by omega
      have h4 : ¬ j - 16 < 1 := by omega
      simp [h1, h3, h4]

theorem and_two_pow_16_eq_zero (x : Nat) (hx : x < 2 ^ 16) : x &&& 0x10000 = 0 := by
  apply Nat.eq_of_testBit_eq
  intro j
  have h : (0x10000 : Nat) = 2 ^ 16 := by norm_num
  rw [Nat.testBit_and, h, Nat.testBit_two_pow, Nat.zero_testBit]
  by_cases hj : 16 = j
  · subst hj
    simp [Nat.testBit_lt_two_pow hx]
  · simp [hj]

end VRAMWindow

/-- C30: `readPlanar(index)` returns the byte at the remapped address of
`a = baseMask & index`. For `a < 2 ^ 17` that address is
`a div 2 + 0x10000 * (a mod 2)`; the remapping sends `[0, 2 ^ 17)` to itself,
one to one and onto. When `getReadAreaPlanar` returns `ptr0` and `ptr1` for an
area that starts at the even address `addr = baseMask & (indexMask | index)`,
`ptr0 = addr / 2`, and as long as the area stays below `2 ^ 17` byte `2 * k` of
it is remapped to `ptr0 + k` and byte `2 * k + 1` to `ptr1 + k`. -/
theorem readPlanar_remap (w : VRAMWindow) (data : Nat → Nat) (index : Nat) :
    (w.isEnabled = true →
        w.readPlanar data index = some (data (VRAMWindow.planarAddr (w.baseMask &&& index)))) ∧
      (∀ a, a < 2 ^ 17 →
        VRAMWindow.planarAddr a = a / 2 + 0x10000 * (a % 2) ∧
          VRAMWindow.planarAddr a < 2 ^ 17) ∧
      (∀ a b, a < 2 ^ 17 → b < 2 ^ 17 →
        VRAMWindow.planarAddr a = VRAMWindow.planarAddr b → a = b) ∧
      (∀ p, p < 2 ^ 17 → ∃ a, a < 2 ^ 17 ∧ VRAMWindow.planarAddr a = p) ∧
      (∀ size p0 p1, w.getReadAreaPlanar index size = some (p0, p1) →
        (w.baseMask &&& (w.indexMask ||| index)) % 2 = 0 ∧
          p0 = (w.baseMask &&& (w.indexMask ||| index)) / 2 ∧
          ∀ k, (w.baseMask &&& (w.indexMask ||| index)) + 2 * k + 1 < 2 ^ 17 →
            VRAMWindow.planarAddr ((w.baseMask &&& (w.indexMask ||| index)) + 2 * k) =
              p0 + k ∧
            VRAMWindow.planarAddr ((w.baseMask &&& (w.indexMask ||| index)) + 2 * k + 1) =
              p1 + k) := by
  refine ⟨fun hen => by simp [VRAMWindow.readPlanar, hen], fun a ha => ?_,
    fun a b ha hb hab => ?_, fun p hp => ?_, fun size p0 p1 h => ?_⟩
  · rw [VRAMWindow.planarAddr_eq a ha]
    exact ⟨rfl, by omega⟩
  · rw [VRAMWindow.planarAddr_eq a ha, VRAMWindow.planarAddr_eq b hb] at hab
    omega
  · refine ⟨2 * (p % 0x10000) + p / 0x10000, by omega, ?_⟩
    rw [VRAMWindow.planarAddr_eq _ (by omega)]
    omega
  · unfold VRAMWindow.getReadAreaPlanar at h
    dsimp only at h
    split_ifs at h with h1 h2 h3 h4 h5
    simp only [Nat.or_zero, Option.some.injEq, Prod.mk.injEq] at h
    obtain ⟨hp0, hp1⟩ := h
    have heven : (w.baseMask &&& (w.indexMask ||| index)) % 2 = 0 := by
      rw [← Nat.and_one_is_mod]
      exact h4
    refine ⟨heven, hp0.symm, fun k hk => ?_⟩
    have hp1b : p1 = (w.baseMask &&& (w.indexMask ||| index)) / 2 + 0x10000 := by
      rw [← hp1, add_eq_or_of_and_eq_zero _ _
        (VRAMWindow.and_two_pow_16_eq_zero _ (by omega))]
    rw [VRAMWindow.planarAddr_eq _ (by omega), VRAMWindow.planarAddr_eq _ hk, ← hp0, hp1b]
    omega

/-- Witness of C30 on a window over the whole 128 kB VRAM: index `0x101` is
read at `0x10080`, and the planar area at index `0x100` starts at `0x80` and
`0x10080`. -/
theorem readPlanar_remap_witness :
    (wholeVram WindowId.bitmapVisibleWindow 0x1FFFF).readPlanar (fun a => a) 0x101 =
        some 0x10080 ∧
      VRAMWindow.planarAddr 0x101 = 0x101 / 2 + 0x10000 * (0x101 % 2) ∧
      (wholeVram WindowId.bitmapVisibleWindow 0x1FFFF).getReadAreaPlanar 0x100 256 =
        some (0x80, 0x10080) ∧
      VRAMWindow.planarAddr (0x100 + 2 * 3 + 1) = 0x10080 + 3 := by
  have h := readPlanar_remap (wholeVram WindowId.bitmapVisibleWindow 0x1FFFF) (fun a => a) 0x100
  have h1 := readPlanar_remap (wholeVram WindowId.bitmapVisibleWindow 0x1FFFF) (fun a => a) 0x101
  exact ⟨h1.1 (by decide), (h1.2.1 0x101 (by decide)).1, by decide,
    ((h.2.2.2.2 256 0x80 0x10080 (by decide)).2.2 3 (by decide)).2⟩

/-! The overlap test of `checkSync`. -/

theorem overlap_eq_true_iff (displayY0 displayY1 vramLine0 vramLine1 : Int) :
    overlap displayY0 displayY1 vramLine0 vramLine1 = true ↔
      (displayY0 ≤ displayY1 ∧ vramLine1 > displayY0 ∧ vramLine0 ≤ displayY1) ∨
      (¬ displayY0 ≤ displayY1 ∧ (vramLine1 > displayY0 ∨ vramLine0 ≤ displayY1)) := by
  unfold overlap
  by_cases h1 : displayY0 ≤ displayY1 <;> by_cases h2 : vramLine1 > displayY0 <;>
    by_cases h3 : vramLine0 ≤ displayY1 <;> simp [h1, h2, h3]

/-- C32: for display lines in `0..255` and a VRAM line range with
`0 ≤ vramLine0 < vramLine1 ≤ 256`, `overlap` is true if and only if some line
of the display range from `displayY0` to `displayY1` inclusive, which wraps
from 255 to 0 when `displayY0 > displayY1`, lies in `[vramLine0, vramLine1)`.
With `displayY0 = (nextY + deltaY) & 255` and `displayY1 = (limitY + deltaY) & 255`
as in `checkSync`, for `nextY ≤ limitY ≤ nextY + 255`, this is the case if and
only if some scanline `y` in `nextY..limitY` has `(y + deltaY) mod 256` in
`[vramLine0, vramLine1)`. -/
theorem overlap_contract (vramLine0 vramLine1 : Int)
    (hv0 : 0 ≤ vramLine0) (hv : vramLine0 < vramLine1) (hv1 : vramLine1 ≤ 256) :
    (∀ displayY0 displayY1 : Int, 0 ≤ displayY0 → displayY0 ≤ 255 →
        0 ≤ displayY1 → displayY1 ≤ 255 →
        (overlap displayY0 displayY1 vramLine0 vramLine1 = true ↔
          ∃ line : Int,
            (if displayY0 ≤ displayY1 then displayY0 ≤ line ∧ line ≤ displayY1
              else (displayY0 ≤ line ∧ line ≤ 255) ∨ (0 ≤ line ∧ line ≤ displayY1)) ∧
            vramLine0 ≤ line ∧ line < vramLine1)) ∧
      (∀ nextY limitY deltaY : Int, nextY ≤ limitY → limitY - nextY ≤ 255 →
        (overlap ((nextY + deltaY) % 256) ((limitY + deltaY) % 256) vramLine0 vramLine1 = true ↔
          ∃ y : Int, nextY ≤ y ∧ y ≤ limitY ∧
            vramLine0 ≤ (y + deltaY) % 256 ∧ (y + deltaY) % 256 < vramLine1)) := by
  refine ⟨fun d0 d1 h0 h0' h1 h1' => ?_, fun nextY limitY deltaY hle hlen => ?_⟩
  · rw [overlap_eq_true_iff]
    by_cases hd : d0 ≤ d1
    · simp only [hd, if_true, true_and, not_true_eq_false, false_and, or_false]
      constructor
      · rintro ⟨ha, hb⟩
        by_cases hc : d0 ≤ vramLine0
        · exact ⟨vramLine0, ⟨hc, hb⟩, le_refl _, hv⟩
        · exact ⟨d0, ⟨le_refl _, hd⟩, by omega, ha⟩
      · rintro ⟨line, ⟨ha, hb⟩, hc, hd2⟩
        omega
    · simp only [hd, if_false, false_and, not_false_eq_true, true_and, false_or]
      constructor
      · rintro (ha | ha)
        · by_cases hc : d0 ≤ vramLine0
          · exact ⟨vramLine0, Or.inl ⟨hc, by omega⟩, le_refl _, hv⟩
          · exact ⟨d0, Or.inl ⟨le_refl _, h0'⟩, by omega, ha⟩
        · exact ⟨vramLine0, Or.inr ⟨hv0, ha⟩, le_refl _, hv⟩
      · rintro ⟨line, (⟨ha, hb⟩ | ⟨ha, hb⟩), hc, hd2⟩
        · exact Or.inl (by omega)
        · exact Or.inr (by omega)
  · rw [overlap_eq_true_iff]
    constructor
    · rintro (⟨ha, hb, hc⟩ | ⟨ha, hb | hb⟩)
      · by_cases hd : (nextY + deltaY) % 256 ≤ vramLine0
        · exact ⟨nextY + (vramLine0 - (nextY + deltaY) % 256), by omega, by omega, by omega,
            by omega⟩
        · exact ⟨nextY, le_refl _, hle, by omega, by omega⟩
      · by_cases hd : (nextY + deltaY) % 256 ≤ vramLine0
        · exact ⟨nextY + (vramLine0 - (nextY + deltaY) % 256), by omega, by omega, by omega,
            by omega⟩
        · exact ⟨nextY, le_refl _, hle, by omega, by omega⟩
      · exact ⟨limitY - ((limitY + deltaY) % 256 - vramLine0), by omega, by omega, by omega,
          by omega⟩
    · rintro ⟨y, ha, hb, hc, hd⟩
      omega

/-- Witness of C32: the display range from line 250 to line 5 wraps; it meets
the table quarter `[0, 64)` and misses the quarter `[64, 128)`. -/
theorem overlap_contract_witness :
    (overlap 250 5 0 64 = true ↔
        ∃ line : Int,
          (if (250 : Int) ≤ 5 then 250 ≤ line ∧ line ≤ 5
            else (250 ≤ line ∧ line ≤ 255) ∨ (0 ≤ line ∧ line ≤ 5)) ∧
          0 ≤ line ∧ line < 64) ∧
      overlap 250 5 0 64 = true ∧ overlap 250 5 64 128 = false :=
  ⟨(overlap_contract 0 64 (by decide) (by decide) (by decide)).1 250 5 (by decide) (by decide)
      (by decide) (by decide),
    by decide, by decide⟩

/-- C34: with the backend active and `0 ≤ minFrameSkip ≤ maxFrameSkip`, a
`frameStart` that finds `0 ≤ frameSkipCounter ≤ maxFrameSkip` leaves
`0 ≤ frameSkipCounter ≤ maxFrameSkip`; the frame is drawn if and only if the
counter is 0 afterwards, and if it is not drawn the counter has grown by
exactly one. -/
theorem pacing_counter_invariant (vdp : VDPState) (settings : RenderSettings)
    (timeLeft : Bool) (s : PixelRenderer)
    (hmin : 0 ≤ settings.minFrameSkip) (hmm : settings.minFrameSkip ≤ settings.maxFrameSkip)
    (h0 : 0 ≤ s.frameSkipCounter) (hmax : s.frameSkipCounter ≤ settings.maxFrameSkip) :
    0 ≤ (s.frameStart vdp settings true timeLeft).frameSkipCounter ∧
      (s.frameStart vdp settings true timeLeft).frameSkipCounter ≤ settings.maxFrameSkip ∧
      ((s.frameStart vdp settings true timeLeft).drawFrame = true ↔
        (s.frameStart vdp settings true timeLeft).frameSkipCounter = 0) ∧
      ((s.frameStart vdp settings true timeLeft).drawFrame = false →
        (s.frameStart vdp settings true timeLeft).frameSkipCounter =
          s.frameSkipCounter + 1) := by
  have hc : (s.frameStart vdp settings true timeLeft).frameSkipCounter =
      (if s.frameSkipCounter < settings.minFrameSkip then s.frameSkipCounter + 1
        else if s.frameSkipCounter ≥ settings.maxFrameSkip then 0
        else if timeLeft = true then 0 else s.frameSkipCounter + 1) := by
    unfold PixelRenderer.frameStart
    dsimp only
    split_ifs <;> simp_all
  have hd : (s.frameStart vdp settings true timeLeft).drawFrame =
      (if s.frameSkipCounter < settings.minFrameSkip then false
        else if s.frameSkipCounter ≥ settings.maxFrameSkip then true
        else if timeLeft = true then true else false) := by
    unfold PixelRenderer.frameStart
    dsimp only
    split_ifs <;> simp_all
  rw [hc, hd]
  split_ifs <;> simp <;> omega

/-- Witness of C34 with `minFrameSkip = 1` and `maxFrameSkip = 3`: from a
counter of 3 the frame is drawn and the counter is 0; from a counter of 0 the
frame is skipped and the counter is 1. -/
theorem pacing_counter_invariant_witness :
    ((PixelRenderer.mk 3 false false false true Accuracy.ACC_PIXEL 0 0 0 []).frameStart palVdp
        skipOneToThree true false).drawFrame = true ∧
      ((PixelRenderer.mk 3 false false false true Accuracy.ACC_PIXEL 0 0 0 []).frameStart palVdp
        skipOneToThree true false).frameSkipCounter = 0 ∧
      ((PixelRenderer.mk 0 false true true true Accuracy.ACC_PIXEL 0 0 0 []).frameStart palVdp
        skipOneToThree true false).frameSkipCounter = 0 + 1 :=
  ⟨by decide,
    (pacing_counter_invariant palVdp skipOneToThree false
      (PixelRenderer.mk 3 false false false true Accuracy.ACC_PIXEL 0 0 0 [])
      (by decide) (by decide) (by decide) (by decide)).2.2.1.1 (by decide),
    (pacing_counter_invariant palVdp skipOneToThree false
      (PixelRenderer.mk 0 false true true true Accuracy.ACC_PIXEL 0 0 0 [])
      (by decide) (by decide) (by decide) (by decide)).2.2.2 (by decide)⟩

/-! The text-mode counter. -/

namespace PixelRenderer

/-- The advance of `textModeCounter` in one call of `draw`. -/
theorem draw_counter (vdp : VDPState) (s q : PixelRenderer) (d : DrawCall)
    (h : s.draw vdp d = some q) :
    q.textModeCounter = s.textModeCounter +
      (if d.drawType = DrawType.DRAW_DISPLAY ∧ vdp.getDisplayMode.isTextMode = true ∧
          d.atEnd = true
        then max 0 (d.endY - vdp.getLineZero) / 8 - max 0 (d.startY - vdp.getLineZero) / 8
        else 0) := by
  have e1 : (max 0 (d.endY - vdp.getLineZero)).tdiv 8 =
      max 0 (d.endY - vdp.getLineZero) / 8 :=
    Int.tdiv_eq_ediv (le_max_left _ _) (by norm_num)
  have e2 : (max 0 (d.startY - vdp.getLineZero)).tdiv 8 =
      max 0 (d.startY - vdp.getLineZero) / 8 :=
    Int.tdiv_eq_ediv (le_max_left _ _) (by norm_num)
  unfold draw at h
  cases hd : d.drawType with
  | DRAW_BORDER =>
    simp only [hd, Option.some.injEq] at h
    subst h
    simp
  | DRAW_DISPLAY =>
    simp only [hd, e1, e2] at h
    by_cases hc : vdp.getDisplayMode.isTextMode = true ∧ d.atEnd = true
    · simp only [hc, and_self, if_true] at h
      split_ifs at h <;> simp only [Option.some.injEq] at h <;> subst h <;>
        simp [hc.1, hc.2]
    · simp only [hc, if_false] at h
      have hc2 : ¬ (DrawType.DRAW_DISPLAY = DrawType.DRAW_DISPLAY ∧
          vdp.getDisplayMode.isTextMode = true ∧ d.atEnd = true) := fun hh => hc hh.2
      rw [if_neg hc2]
      split_ifs at h <;> simp only [Option.some.injEq] at h <;> subst h <;> simp

theorem drawAll_counter (vdp : VDPState) (ds : List DrawCall) :
    ∀ (s q : PixelRenderer), drawAll vdp s ds = some q →
      q.textModeCounter = s.textModeCounter +
        (ds.map (fun d =>
          if d.drawType = DrawType.DRAW_DISPLAY ∧ vdp.getDisplayMode.isTextMode = true ∧
              d.atEnd = true
            then max 0 (d.endY - vdp.getLineZero) / 8 - max 0 (d.startY - vdp.getLineZero) / 8
            else 0)).sum := by
  induction ds with
  | nil =>
    intro s q h
    simp only [drawAll, Option.some.injEq] at h
    subst h
    simp
  | cons d ds ih =>
    intro s q h
    unfold drawAll at h
    cases h1 : s.draw vdp d with
    | none => simp [h1] at h
    | some s1 =>
      simp only [h1] at h
      rw [ih s1 q h, draw_counter vdp s s1 d h1, List.map_cons, List.sum_cons]
      omega

theorem subdivideRest_advance (vdp : VDPState) (startY endX endY clipL clipR : Int)
    (htext : vdp.getDisplayMode.isTextMode = true)
    (hy : startY ≤ (if endX ≥ clipR then endY + 1 else endY)) :
    ((subdivideRest startY endX endY clipL clipR DrawType.DRAW_DISPLAY).map (fun d =>
        if d.drawType = DrawType.DRAW_DISPLAY ∧ vdp.getDisplayMode.isTextMode = true ∧
            d.atEnd = true
          then max 0 (d.endY - vdp.getLineZero) / 8 - max 0 (d.startY - vdp.getLineZero) / 8
          else 0)).sum =
      max 0 ((if endX ≥ clipR then endY + 1 else endY) - vdp.getLineZero) / 8 -
        max 0 (startY - vdp.getLineZero) / 8 := by
  unfold subdivideRest
  by_cases h4 : endX ≥ clipR
  · simp only [h4, if_true] at hy ⊢
    by_cases h6 : startY < endY + 1
    · simp [h6, htext]
    · have he : startY = endY + 1 := by omega
      simp [h6, he]
  · simp only [h4, if_false] at hy ⊢
    by_cases h6 : startY < endY
    · by_cases h5 : endX > clipL <;> simp [h5, h6, htext]
    · have he : startY = endY := by omega
      by_cases h5 : endX > clipL <;> simp [h5, he]

/-- The advances of the calls of one `subdivide` of the display band in text
mode add up to the rows completed between the first and the last line the call
completes. -/
theorem subdivide_advance (vdp : VDPState) (startX startY endX endY clipL clipR : Int)
    (htext : vdp.getDisplayMode.isTextMode = true)
    (hle : rasterLE startX startY endX endY) (hclip : clipL < clipR) :
    ((subdivide startX startY endX endY clipL clipR DrawType.DRAW_DISPLAY).map (fun d =>
        if d.drawType = DrawType.DRAW_DISPLAY ∧ vdp.getDisplayMode.isTextMode = true ∧
            d.atEnd = true
          then max 0 (d.endY - vdp.getLineZero) / 8 - max 0 (d.startY - vdp.getLineZero) / 8
          else 0)).sum =
      max 0 ((if endX ≥ clipR then endY + 1 else endY) - vdp.getLineZero) / 8 -
        max 0 ((if startX < clipR then startY else startY + 1) - vdp.getLineZero) / 8 := by
  unfold rasterLE at hle
  unfold subdivide
  by_cases h1 : startX > clipL
  · rw [if_pos h1]
    by_cases h2 : startY = endY
    · subst h2
      have hx : startX ≤ endX := by omega
      by_cases h3 : startX < clipR <;> by_cases h4 : endX ≥ clipR
      · simp [h3, h4, htext]
      · simp [h3, h4]
      · simp [h3, h4]
      · exact absurd (le_trans (not_lt.1 h3) hx) h4
    · have hlt : startY < endY := by omega
      have hy : startY + 1 ≤ (if endX ≥ clipR then endY + 1 else endY) := by
        split_ifs <;> omega
      simp only [h2, if_false, List.map_append, List.sum_append,
        subdivideRest_advance vdp (startY + 1) endX endY clipL clipR htext hy]
      by_cases h3 : startX < clipR
      · simp [h3, h2, htext]
      · simp [h3]
  · rw [if_neg h1]
    have h3 : startX < clipR := by omega
    have hy : startY ≤ (if endX ≥ clipR then endY + 1 else endY) := by
      split_ifs <;> omega
    rw [subdivideRest_advance vdp startY endX endY clipL clipR htext hy, if_pos h3]

end PixelRenderer

/-- C33: in text mode, for a `subdivide` call of the display band with the
cursor at or before the target in raster order and `clipL < clipR`, the draw
calls together advance `textModeCounter` by
`max(0, E - zero) div 8 - max(0, S - zero) div 8`, where `zero = getLineZero()`,
`S` is `startY` if `startX < clipR` and `startY + 1` otherwise, and `E` is
`endY + 1` if `endX ≥ clipR` and `endY` otherwise; the calls return when the
assertions of `draw` hold. A call of `draw` with `atEnd = false` leaves the
counter as it is. -/
theorem textModeCounter_per_subdivide (vdp : VDPState) (s : PixelRenderer)
    (startX startY endX endY clipL clipR : Int)
    (htext : vdp.getDisplayMode.isTextMode = true)
    (hle : rasterLE startX startY endX endY) (hclip : clipL < clipR) :
    (∀ q, PixelRenderer.drawAll vdp s
          (subdivide startX startY endX endY clipL clipR DrawType.DRAW_DISPLAY) = some q →
        q.textModeCounter = s.textModeCounter +
          (max 0 ((if endX ≥ clipR then endY + 1 else endY) - vdp.getLineZero) / 8 -
            max 0 ((if startX < clipR then startY else startY + 1) - vdp.getLineZero) / 8)) ∧
      ((∀ d ∈ subdivide startX startY endX endY clipL clipR DrawType.DRAW_DISPLAY,
          PixelRenderer.drawAsserts vdp d) →
        ∃ q, PixelRenderer.drawAll vdp s
          (subdivide startX startY endX endY clipL clipR DrawType.DRAW_DISPLAY) = some q) ∧
      (∀ d q, d.atEnd = false → s.draw vdp d = some q →
        q.textModeCounter = s.textModeCounter) := by
  refine ⟨fun q hq => ?_, fun hd => PixelRenderer.drawAll_returns vdp _ s hd,
    fun d q hd hq => ?_⟩
  · rw [PixelRenderer.drawAll_counter vdp _ s q hq,
      PixelRenderer.subdivide_advance vdp startX startY endX endY clipL clipR htext hle hclip]
  · rw [PixelRenderer.draw_counter vdp s q d hq, if_neg (by simp [hd]), add_zero]

/-- Witness of C33 on the PAL VDP in text mode, whose line zero is 42: the
display band between the cursor `(0, 42)` and the target `(0, 60)` is one call
of 18 full lines, which advances the counter by `18 div 8 = 2`. -/
theorem textModeCounter_per_subdivide_witness :
    (PixelRenderer.drawAll palTextVdp (rendererAtFrameStart Accuracy.ACC_PIXEL)
        (subdivide 0 42 0 60 258 1282 DrawType.DRAW_DISPLAY)).map
      (fun q => q.textModeCounter) = some 2 ∧
      ∀ q, PixelRenderer.drawAll palTextVdp (rendererAtFrameStart Accuracy.ACC_PIXEL)
          (subdivide 0 42 0 60 258 1282 DrawType.DRAW_DISPLAY) = some q →
        q.textModeCounter = (rendererAtFrameStart Accuracy.ACC_PIXEL).textModeCounter +
          (max 0 ((if (0 : Int) ≥ 1282 then 60 + 1 else 60) - palTextVdp.getLineZero) / 8 -
            max 0 ((if (0 : Int) < 1282 then 42 else 42 + 1) - palTextVdp.getLineZero) / 8) :=
  ⟨by decide,
    (textModeCounter_per_subdivide palTextVdp (rendererAtFrameStart Accuracy.ACC_PIXEL)
      0 42 0 60 258 1282 rfl (Or.inl (by decide)) (by decide)).1⟩

/-! Window accesses stay within the VRAM array. -/

namespace VRAMWindow

theorem setMask_enabled (w : VRAMWindow) (b i time : Nat) (log : List Event)
    (hsz : w.sizeMask < minusOne) : (w.setMask b i time log).1.isEnabled = true := by
  by_cases h : w.isEnabled = true ∧ b &&& w.sizeMask = w.baseMask ∧ i = w.indexMask
  · rw [setMask_of_unchanged w b i time log h]
    exact h.1
  · rw [setMask_of_changed w b i time log h]
    simpa [isEnabled] using and_and_ne_minusOne b i w.sizeMask hsz

theorem isInside_baseAddr (w : VRAMWindow) (hc : w.MasksCommitted)
    (he : w.isEnabled = true) : w.isInside w.baseAddr = true := by
  obtain ⟨hb, hm⟩ := hc he
  rw [isInside_iff, hm, hb]
  apply Nat.eq_of_testBit_eq
  intro k
  simp only [Nat.testBit_and, Nat.testBit_or, testBit_not32]
  cases w.baseMask.testBit k <;> cases w.indexMask.testBit k <;> simp

/-- Every bit of an address inside an enabled, committed window is a bit of the
base mask. -/
theorem inside_within_baseMask (w : VRAMWindow) (hc : w.MasksCommitted)
    (he : w.isEnabled = true) (addr : Nat) (haddr : addr < 2 ^ 32)
    (hin : w.isInside addr = true) : addr &&& w.baseMask = addr := by
  obtain ⟨hb, hm⟩ := hc he
  rw [isInside_iff, hm, hb] at hin
  apply Nat.eq_of_testBit_eq
  intro k
  have hk := congrArg (fun n => n.testBit k) hin
  simp only [Nat.testBit_and, Nat.testBit_or, testBit_not32] at hk
  rw [Nat.testBit_and]
  by_cases h32 : k < 32
  · cases ha : addr.testBit k <;> cases hB : w.baseMask.testBit k <;>
      simp [ha, hB, h32] at hk ⊢
  · rw [testBit_high_of_lt haddr (by omega)]
    simp

end VRAMWindow

/-- C35: let `w'` be the window after `setMask(b, i, time)` on a window with
committed masks whose `sizeMask` is not negative. Then `baseMask` of `w'` has no
bit outside `sizeMask` and `w'` is enabled; every 32-bit address inside `w'`
lies between `baseAddr` and `sizeMask`; `baseAddr` is inside `w'`, so it is the
lowest address of the window; and `readNP(index)` returns the byte at
`baseMask & index`, a position of at most `sizeMask`, for every index. -/
theorem window_within_vram (w : VRAMWindow) (b i time : Nat) (log : List Event)
    (hc : w.MasksCommitted) (hsz : w.sizeMask < 2 ^ 31) :
    (w.setMask b i time log).1.baseMask &&& (w.setMask b i time log).1.sizeMask =
        (w.setMask b i time log).1.baseMask ∧
      (w.setMask b i time log).1.isEnabled = true ∧
      (∀ addr, addr < 2 ^ 32 → (w.setMask b i time log).1.isInside addr = true →
        (w.setMask b i time log).1.baseAddr ≤ addr ∧
          addr ≤ (w.setMask b i time log).1.sizeMask) ∧
      (w.setMask b i time log).1.isInside (w.setMask b i time log).1.baseAddr = true ∧
      (∀ (data : Nat → Nat) (index : Nat),
        (w.setMask b i time log).1.readNP data index =
            some (data ((w.setMask b i time log).1.baseMask &&& index)) ∧
          (w.setMask b i time log).1.baseMask &&& index ≤
            (w.setMask b i time log).1.sizeMask) := by
  have hbase := VRAMWindow.setMask_base_in_size w b i time log
  have hen := VRAMWindow.setMask_enabled w b i time log
    (lt_of_lt_of_le hsz (by decide))
  have hcom := VRAMWindow.setMask_masksCommitted w b i time log hc
  generalize (w.setMask b i time log).1 = w2 at hbase hen hcom ⊢
  refine ⟨hbase, hen, fun addr haddr hin => ⟨?_, ?_⟩,
    VRAMWindow.isInside_baseAddr w2 hcom hen, fun data index => ⟨?_, ?_⟩⟩
  · exact (VRAMWindow.inside_offset w2 hcom hen addr haddr hin).1
  · rw [← VRAMWindow.inside_within_baseMask w2 hcom hen addr haddr hin]
    exact le_trans Nat.and_le_right (le_of_and_eq _ _ hbase)
  · simp [VRAMWindow.readNP, hen]
  · exact le_trans Nat.and_le_left (le_of_and_eq _ _ hbase)

/-- Witness of C35 on the name table at `0x1800` of a 128 kB VRAM: the window
is enabled, its lowest address `0x1800` is inside, the address `0x1BFF` inside
it is at most `0x1FFFF`, and `readNP` of the index `0xFFFFFFFF` reads position
`0x1BFF`. -/
theorem window_within_vram_witness :
    nameTableAt1800.isEnabled = true ∧
      nameTableAt1800.baseAddr = 0x1800 ∧
      nameTableAt1800.isInside nameTableAt1800.baseAddr = true ∧
      (nameTableAt1800.baseAddr ≤ 0x1BFF ∧ 0x1BFF ≤ nameTableAt1800.sizeMask) ∧
      nameTableAt1800.readNP (fun a => a) 0xFFFFFFFF = some 0x1BFF :=
  ⟨(window_within_vram (freshWindow WindowId.nameTable 0x1FFFF) 0x1BFF 0xFFFFFC00 7 []
      (by intro h; exact absurd h (by decide)) (by decide)).2.1,
    by decide,
    (window_within_vram (freshWindow WindowId.nameTable 0x1FFFF) 0x1BFF 0xFFFFFC00 7 []
      (by intro h; exact absurd h (by decide)) (by decide)).2.2.2.1,
    (window_within_vram (freshWindow WindowId.nameTable 0x1FFFF) 0x1BFF 0xFFFFFC00 7 []
      (by intro h; exact absurd h (by decide)) (by decide)).2.2.1 0x1BFF (by decide)
      (by decide),
    ((window_within_vram (freshWindow WindowId.nameTable 0x1FFFF) 0x1BFF 0xFFFFFC00 7 []
      (by intro h; exact absurd h (by decide)) (by decide)).2.2.2.2 (fun a => a)
      0xFFFFFFFF).1⟩

end openmsx
